import Mathlib

/-!
# Reactor / Worker channel-management engine

A shallow embedding of the inline functions of
`ETA3.4.0.L1/win64/Impl/Reactor/rtr/rsslReactorImpl.h` and
`ETA3.4.0.L1/win64/Impl/Reactor/rtr/rsslReactorEventsImpl.h`.

Conventions of the embedding

* a pointer to an object the function does not own is its address, a `Nat`, with `0` for `NULL`;
* a pointer to memory the function allocates or reads through is an `Option` of the contents,
  with `none` for `NULL`;
* an integer or enumeration member is an `Int` or `Nat`, an `RsslBool` is a `Bool`;
* a member whose type is declared in a header that is not among the sources is a `Blob`:
  the number its bytes spell, so that `0` is the all-zero content `memset(p, 0, n)` leaves.
-/

namespace Reactor

/-! ## Types declared outside the sources -/

/-- Content of a member whose layout the sources do not show; `0` is the all-zero content. -/
abbrev Blob := Nat

abbrev RsslQueueLink := Blob
abbrev RsslReactorEventQueue := Blob
abbrev RsslRDMMsg := Blob
abbrev RsslReactorChannelRole := Blob
abbrev RsslConnectOptions := Blob
abbrev RsslReactorChannelStatistic := Blob
abbrev RsslReactorAuthTokenEvent := Blob
abbrev RsslReactorOAuthCredentialEvent := Blob

/-- The two return codes the sources name (`rtr/rsslRetCodes.h` is not among the sources). -/
inductive RsslRet
  | RSSL_RET_SUCCESS
  | RSSL_RET_FAILURE
  deriving DecidableEq, Repr

/-- An `RsslBuffer`: a length and a pointer to bytes (`none` is the `NULL` pointer, `some bs` a
pointer to a block holding exactly the bytes `bs`). -/
structure RsslBuffer where
  length : Nat
  data : Option (List Nat)
  deriving DecidableEq, Repr

/-- Modelled from the spec: rsslClearBuffer is declared in rtr/rsslTypes.h, which is not among the
sources; clearing a buffer leaves it empty, with length 0 and no data. -/
def rsslClearBuffer : RsslBuffer := { length := 0, data := none }

/-- The public `RsslReactorChannel`: the two members the sources name, and the others as one
block. -/
structure RsslReactorChannel where
  socketId : Int
  oldSocketId : Int
  others : Blob
  deriving DecidableEq, Repr

/-- The error record `RsslErrorInfo`: the members `rsslSetErrorInfo` writes, and the others as one
block. -/
structure RsslErrorInfo where
  rsslErrorInfoCode : Int
  rsslErrorId : RsslRet
  errorLocation : String × Nat
  text : String
  others : Blob
  deriving DecidableEq, Repr

/-- What the headers outside the sources contribute to the functions embedded here: constants,
the contents the `rsslClear...`/`rsslInit...` helpers leave behind, and the indeterminate contents
of a fresh block: `mallocByte k i` is the byte that call number `k`, a successful `malloc`,
leaves at offset `i` of the block it returns. -/
structure Externs where
  REACTOR_INVALID_SOCKET : Int
  RSSL_EIC_FAILURE : Int
  RSSL_RC_ST_NONE : Nat
  RSSL_RC_ST_READ : Nat
  RSSL_RC_ST_WRITE : Nat
  RSSL_RC_ST_PING : Nat
  initQueueLink : RsslQueueLink
  clearedChannelRole : RsslReactorChannelRole
  clearedConnectOptions : RsslConnectOptions
  clearedInitializationTimeout : Nat
  clearedLocation : RsslBuffer
  clearedChannelStatistic : RsslReactorChannelStatistic
  sourceFile : String
  mallocByte : Nat → Nat → Nat

/-- Modelled from the spec: rsslSetErrorInfo is declared in rtr/rsslErrorInfo.h, which is not among
the sources; it records the info code, the return code, the place and the text in the error
record. -/
def rsslSetErrorInfo (pError : RsslErrorInfo) (code : Int) (retId : RsslRet)
    (file : String) (line : Nat) (text : String) : RsslErrorInfo :=
  { pError with
    rsslErrorInfoCode := code, rsslErrorId := retId, errorLocation := (file, line), text := text }

/-- The public `RsslReactorChannelEvent` (declared in rtr/rsslReactorEvents.h): the kind of the
event, the channel and the error record it points to. -/
structure RsslReactorChannelEvent where
  channelEventType : Int
  pReactorChannel : Nat
  pError : Nat
  deriving DecidableEq, Repr

/-! ## rsslReactorEventsImpl.h -/

/-- RsslReactorEventImplType, as the integer of each enumerator. -/
abbrev RsslReactorEventImplType := Int

def RSSL_RCIMPL_ET_TUNNEL_STREAM_LISTENER : RsslReactorEventImplType := 2
def RSSL_RCIMPL_ET_CHANNEL : RsslReactorEventImplType := 1
def RSSL_RCIMPL_ET_INIT : RsslReactorEventImplType := 0
def RSSL_RCIMPL_ET_REACTOR : RsslReactorEventImplType := -1
def RSSL_RCIMPL_ET_FLUSH : RsslReactorEventImplType := -2
def RSSL_RCIMPL_ET_TIMER : RsslReactorEventImplType := -3
def RSSL_RCIMPL_ET_TOKEN_MGNT : RsslReactorEventImplType := -4
def RSSL_RCIMPL_ET_CREDENTIAL_RENEWAL : RsslReactorEventImplType := -5
def RSSL_RCIMPL_ET_PING : RsslReactorEventImplType := -6
def RSSL_RCIMPL_ET_TOKEN_SESSION_MGNT : RsslReactorEventImplType := -7

structure RsslReactorEventImplBase where
  eventQueueLink : RsslQueueLink
  eventType : RsslReactorEventImplType
  deriving DecidableEq, Repr

/-- RsslReactorChannelEventImplType, as the integer of each enumerator. -/
abbrev RsslReactorChannelEventImplType := Int

def RSSL_RCIMPL_CET_NEW_CHANNEL : RsslReactorChannelEventImplType := -1
def RSSL_RCIMPL_CET_CLOSE_CHANNEL : RsslReactorChannelEventImplType := -2
def RSSL_RCIMPL_CET_CLOSE_CHANNEL_ACK : RsslReactorChannelEventImplType := -3
def RSSL_RCIMPL_CET_DISPATCH_WL : RsslReactorChannelEventImplType := -4
def RSSL_RCIMPL_CET_DISPATCH_TUNNEL_STREAM : RsslReactorChannelEventImplType := -5

/-- RsslReactorFlushEventType, as the integer of each enumerator. -/
abbrev RsslReactorFlushEventType := Int

def RSSL_RCIMPL_FET_INIT : RsslReactorFlushEventType := 0
def RSSL_RCIMPL_FET_START_FLUSH : RsslReactorFlushEventType := -1
def RSSL_RCIMPL_FET_FLUSH_DONE : RsslReactorFlushEventType := -2

structure RsslReactorFlushEvent where
  base : RsslReactorEventImplBase
  flushEventType : RsslReactorFlushEventType
  pReactorChannel : Nat
  deriving DecidableEq, Repr

/-- The source `rsslInitFlushEvent`: `memset` to zero, then the event type. -/
def rsslInitFlushEvent (_pEvent : RsslReactorFlushEvent) : RsslReactorFlushEvent :=
  let zeroed : RsslReactorFlushEvent :=
    { base := { eventQueueLink := 0, eventType := 0 }, flushEventType := 0, pReactorChannel := 0 }
  { zeroed with base := { zeroed.base with eventType := RSSL_RCIMPL_ET_FLUSH } }

/-- Time that indicates that the reactor timer is not currently in use. -/
def RCIMPL_TIMER_UNSET : Int := 0x7fffffffffffffff

structure RsslReactorTimerEvent where
  base : RsslReactorEventImplBase
  expireTime : Int
  pReactorChannel : Nat
  deriving DecidableEq, Repr

/-- The source `rsslInitTimerEvent`: `memset` to zero, then the event type. -/
def rsslInitTimerEvent (_pEvent : RsslReactorTimerEvent) : RsslReactorTimerEvent :=
  let zeroed : RsslReactorTimerEvent :=
    { base := { eventQueueLink := 0, eventType := 0 }, expireTime := 0, pReactorChannel := 0 }
  { zeroed with base := { zeroed.base with eventType := RSSL_RCIMPL_ET_TIMER } }

structure RsslReactorChannelEventImpl where
  base : RsslReactorEventImplBase
  channelEvent : RsslReactorChannelEvent
  isConnectFailure : Bool
  deriving DecidableEq, Repr

/-- The source `rsslClearReactorChannelEventImpl`: `memset` to zero, then the event type. -/
def rsslClearReactorChannelEventImpl (_pEvent : RsslReactorChannelEventImpl) :
    RsslReactorChannelEventImpl :=
  let zeroed : RsslReactorChannelEventImpl :=
    { base := { eventQueueLink := 0, eventType := 0 }
      channelEvent := { channelEventType := 0, pReactorChannel := 0, pError := 0 }
      isConnectFailure := false }
  { zeroed with base := { zeroed.base with eventType := RSSL_RCIMPL_ET_CHANNEL } }

/-- RsslReactorStateEventType, as the integer of each enumerator. -/
abbrev RsslReactorStateEventType := Int

def RSSL_RCIMPL_STET_INIT : RsslReactorStateEventType := 0
def RSSL_RCIMPL_STET_SHUTDOWN : RsslReactorStateEventType := -1
def RSSL_RCIMPL_STET_DESTROY : RsslReactorStateEventType := -2

structure RsslReactorStateEvent where
  base : RsslReactorEventImplBase
  reactorEventType : RsslReactorStateEventType
  pErrorInfo : Nat
  deriving DecidableEq, Repr

/-- The source `rsslClearReactorEvent`: `memset` to zero, then the event type. -/
def rsslClearReactorEvent (_pEvent : RsslReactorStateEvent) : RsslReactorStateEvent :=
  let zeroed : RsslReactorStateEvent :=
    { base := { eventQueueLink := 0, eventType := 0 }, reactorEventType := 0, pErrorInfo := 0 }
  { zeroed with base := { zeroed.base with eventType := RSSL_RCIMPL_ET_REACTOR } }

/-- RsslReactorTokenMgntEventType, as the integer of each enumerator. -/
abbrev RsslReactorTokenMgntEventType := Int

def RSSL_RCIMPL_TKET_INIT : RsslReactorTokenMgntEventType := 0
def RSSL_RCIMPL_TKET_REISSUE : RsslReactorTokenMgntEventType := -1
def RSSL_RCIMPL_TKET_REISSUE_NO_REFRESH : RsslReactorTokenMgntEventType := -2
def RSSL_RCIMPL_TKET_RESP_FAILURE : RsslReactorTokenMgntEventType := -3
def RSSL_RCIMPL_TKET_SUBMIT_LOGIN_MSG : RsslReactorTokenMgntEventType := -4
def RSSL_RCIMPL_TKET_CHANNEL_WARNING : RsslReactorTokenMgntEventType := -5
def RSSL_RCIMPL_TKET_RENEW_TOKEN : RsslReactorTokenMgntEventType := -6

structure RsslReactorTokenMgntEvent where
  base : RsslReactorEventImplBase
  reactorTokenMgntEventType : RsslReactorTokenMgntEventType
  pReactorChannel : Nat
  pOAuthCredentialRenewal : Nat
  reactorAuthTokenEvent : RsslReactorAuthTokenEvent
  pAuthTokenEventCallback : Nat
  pTokenSessionImpl : Nat
  pReactorErrorInfoImpl : Nat
  deriving DecidableEq, Repr

/-- The source `rsslClearReactorTokenMgntEvent`: `memset` to zero, then the event type. -/
def rsslClearReactorTokenMgntEvent (_pEvent : RsslReactorTokenMgntEvent) :
    RsslReactorTokenMgntEvent :=
  let zeroed : RsslReactorTokenMgntEvent :=
    { base := { eventQueueLink := 0, eventType := 0 }
      reactorTokenMgntEventType := 0
      pReactorChannel := 0
      pOAuthCredentialRenewal := 0
      reactorAuthTokenEvent := 0
      pAuthTokenEventCallback := 0
      pTokenSessionImpl := 0
      pReactorErrorInfoImpl := 0 }
  { zeroed with base := { zeroed.base with eventType := RSSL_RCIMPL_ET_TOKEN_MGNT } }

/-- RsslReactorOAuthCredentialRenewalEventType, as the integer of each enumerator. -/
abbrev RsslReactorOAuthCredentialRenewalEventType := Int

def RSSL_RCIMPL_CRET_MEM_ALLOC_FAILED : RsslReactorOAuthCredentialRenewalEventType := -1
def RSSL_RCIMPL_CRET_INIT : RsslReactorOAuthCredentialRenewalEventType := 0
def RSSL_RCIMPL_CRET_AUTH_REQ_WITH_PASSWORD : RsslReactorOAuthCredentialRenewalEventType := 0x01
def RSSL_RCIMPL_CRET_AUTH_REQ_WITH_PASSWORD_CHANGE :
    RsslReactorOAuthCredentialRenewalEventType := 0x02
def RSSL_RCIMPL_CRET_RENEWAL_CALLBACK : RsslReactorOAuthCredentialRenewalEventType := 0x04
def RSSL_RCIMPL_CRET_MEMORY_DEALLOCATION : RsslReactorOAuthCredentialRenewalEventType := 0x08

structure RsslReactorCredentialRenewalEvent where
  base : RsslReactorEventImplBase
  pOAuthCredentialRenewal : Nat
  reactorCredentialRenewalEventType : RsslReactorOAuthCredentialRenewalEventType
  reactorOAuthCredentialEvent : RsslReactorOAuthCredentialEvent
  pOAuthCredentialEventCallback : Nat
  pTokenSessionImpl : Nat
  pReactorErrorInfoImpl : Nat
  deriving DecidableEq, Repr

/-- The source `rsslClearReactorCredentialRenewalEvent`: `memset` to zero, then the event
type. -/
def rsslClearReactorCredentialRenewalEvent (_pEvent : RsslReactorCredentialRenewalEvent) :
    RsslReactorCredentialRenewalEvent :=
  let zeroed : RsslReactorCredentialRenewalEvent :=
    { base := { eventQueueLink := 0, eventType := 0 }
      pOAuthCredentialRenewal := 0
      reactorCredentialRenewalEventType := 0
      reactorOAuthCredentialEvent := 0
      pOAuthCredentialEventCallback := 0
      pTokenSessionImpl := 0
      pReactorErrorInfoImpl := 0 }
  { zeroed with base := { zeroed.base with eventType := RSSL_RCIMPL_ET_CREDENTIAL_RENEWAL } }

/-- Notifies a ping sent from the worker thread to the dispatching thread. -/
structure RsslReactorChannelPingEvent where
  base : RsslReactorEventImplBase
  pReactorChannel : Nat
  deriving DecidableEq, Repr

/-- The source `rsslClearReactorChannelPingEvent`: `memset` to zero, then the event type. -/
def rsslClearReactorChannelPingEvent (_pEvent : RsslReactorChannelPingEvent) :
    RsslReactorChannelPingEvent :=
  let zeroed : RsslReactorChannelPingEvent :=
    { base := { eventQueueLink := 0, eventType := 0 }, pReactorChannel := 0 }
  { zeroed with base := { zeroed.base with eventType := RSSL_RCIMPL_ET_PING } }

/-- RsslReactorTokenSessionEventType, as the integer of each enumerator. -/
abbrev RsslReactorTokenSessionEventType := Int

def RSSL_RCIMPL_TSET_INIT : RsslReactorTokenSessionEventType := 0
def RSSL_RCIMPL_TSET_ADD_TOKEN_SESSION_TO_LIST : RsslReactorTokenSessionEventType := 0x01
def RSSL_RCIMPL_TSET_REGISTER_CHANNEL_TO_SESSION : RsslReactorTokenSessionEventType := 0x02
def RSSL_RCIMPL_TSET_UNREGISTER_CHANNEL_FROM_SESSION : RsslReactorTokenSessionEventType := 0x04
def RSSL_RCIMPL_TSET_RETURN_CHANNEL_TO_CHANNEL_POOL : RsslReactorTokenSessionEventType := 0x08

structure RsslReactorTokenSessionEvent where
  base : RsslReactorEventImplBase
  reactorTokenSessionEventType : RsslReactorTokenSessionEventType
  pReactorChannel : Nat
  pTokenSessionImpl : Nat
  deriving DecidableEq, Repr

/-- The source `rsslClearReactorTokenSessionEvent`: `memset` to zero, then the event type. -/
def rsslClearReactorTokenSessionEvent (_pEvent : RsslReactorTokenSessionEvent) :
    RsslReactorTokenSessionEvent :=
  let zeroed : RsslReactorTokenSessionEvent :=
    { base := { eventQueueLink := 0, eventType := 0 }
      reactorTokenSessionEventType := 0
      pReactorChannel := 0
      pTokenSessionImpl := 0 }
  { zeroed with base := { zeroed.base with eventType := RSSL_RCIMPL_ET_TOKEN_SESSION_MGNT } }

/-- The union `RsslReactorEventImpl`: one constructor for each member. -/
inductive RsslReactorEventImpl
  | base (e : RsslReactorEventImplBase)
  | channelEventImpl (e : RsslReactorChannelEventImpl)
  | credentialRenewalEvent (e : RsslReactorCredentialRenewalEvent)
  | flushEvent (e : RsslReactorFlushEvent)
  | pingEvent (e : RsslReactorChannelPingEvent)
  | tokenMgntEvent (e : RsslReactorTokenMgntEvent)
  | tokenSessionEvent (e : RsslReactorTokenSessionEvent)
  | reactorEvent (e : RsslReactorStateEvent)
  | timerEvent (e : RsslReactorTimerEvent)
  deriving DecidableEq, Repr

/-- The member `base` every member of the union starts with: what `pEvent->base` reads. -/
def RsslReactorEventImpl.toBase : RsslReactorEventImpl → RsslReactorEventImplBase
  | .base e => e
  | .channelEventImpl e => e.base
  | .credentialRenewalEvent e => e.base
  | .flushEvent e => e.base
  | .pingEvent e => e.base
  | .tokenMgntEvent e => e.base
  | .tokenSessionEvent e => e.base
  | .reactorEvent e => e.base
  | .timerEvent e => e.base

/-- The source `rsslClearReactorEventImpl`: `memset` of the union to zero. The zeroed union is
given through its member `base`. -/
def rsslClearReactorEventImpl (_pEvent : RsslReactorEventImpl) : RsslReactorEventImpl :=
  .base { eventQueueLink := 0, eventType := 0 }

/-! ## rsslReactorImpl.h : channel -/

/-- RsslReactorChannelSetupState, as the integer of each enumerator. -/
abbrev RsslReactorChannelSetupState := Int

def RSSL_RC_CHST_INIT : RsslReactorChannelSetupState := 0
def RSSL_RC_CHST_LOGGED_IN : RsslReactorChannelSetupState := 1
def RSSL_RC_CHST_HAVE_DIRECTORY : RsslReactorChannelSetupState := 2
def RSSL_RC_CHST_HAVE_RWFFLD : RsslReactorChannelSetupState := 3
def RSSL_RC_CHST_HAVE_RWFENUM : RsslReactorChannelSetupState := 4
def RSSL_RC_CHST_READY : RsslReactorChannelSetupState := 5
def RSSL_RC_CHST_RECONNECTING : RsslReactorChannelSetupState := 6

/-- RsslReactorChannelInfoImplState, as the integer of each enumerator. -/
abbrev RsslReactorChannelInfoImplState := Int

def RSSL_RC_CHINFO_IMPL_ST_INIT : RsslReactorChannelInfoImplState := 0

/-- The public `RsslReactorConnectInfo` (declared in rtr/rsslReactor.h): the members the copy of
the connection list reads and writes. -/
structure RsslReactorConnectInfo where
  rsslConnectOptions : RsslConnectOptions
  initializationTimeout : Nat
  enableSessionManagement : Bool
  location : RsslBuffer
  pAuthTokenEventCallback : Nat
  deriving DecidableEq, Repr

/-- RsslReactorConnectInfoImpl: a channel information including token management. -/
structure RsslReactorConnectInfoImpl where
  base : RsslReactorConnectInfo
  lastTokenUpdatedTime : Int
  reactorChannelInfoImplState : RsslReactorChannelInfoImplState
  reactorTokenMgntEventType : RsslReactorTokenMgntEventType
  transportProtocol : Int
  deriving DecidableEq, Repr

/-- The effect of `rsslClearReactorConnectInfo` (declared outside the sources) on the members of
`RsslReactorConnectInfo`, as the externs give it. -/
def rsslClearReactorConnectInfo (ext : Externs) : RsslReactorConnectInfo :=
  { rsslConnectOptions := ext.clearedConnectOptions
    initializationTimeout := ext.clearedInitializationTimeout
    enableSessionManagement := false
    location := ext.clearedLocation
    pAuthTokenEventCallback := 0 }

/-- The source: `memset` to zero, then `rsslClearReactorConnectInfo` on `base`. -/
def rsslClearReactorConnectInfoImpl (ext : Externs) : RsslReactorConnectInfoImpl :=
  { base := rsslClearReactorConnectInfo ext
    lastTokenUpdatedTime := 0
    reactorChannelInfoImplState := 0
    reactorTokenMgntEventType := 0
    transportProtocol := 0 }

/-- RsslReactorChannelImpl: a channel associated with the RsslReactor, member by member. -/
structure RsslReactorChannelImpl where
  reactorChannel : RsslReactorChannel
  pParentReactor : Nat
  initializationTimeout : Nat
  initializationStartTimeMs : Int
  reactorQueueLink : RsslQueueLink
  reactorParentQueue : Nat
  eventQueue : RsslReactorEventQueue
  lastPingReadMs : Int
  pNotifierEvent : Nat
  readRet : Int
  writeRet : Int
  requestedFlush : Bool
  pWatchlist : Nat
  wlDispatchEventQueued : Bool
  tunnelDispatchEventQueued : Bool
  rdmMsg : RsslRDMMsg
  channelSetupState : RsslReactorChannelSetupState
  pWriteCallAgainBuffer : Nat
  channelRole : RsslReactorChannelRole
  rwfFldStreamId : Int
  rwfEnumStreamId : Int
  workerLink : RsslQueueLink
  workerParentList : Nat
  lastPingSentMs : Int
  channelWorkerCerr : Blob
  lastRequestedExpireTime : Int
  nextExpireTime : Int
  pWorkerNotifierEvent : Nat
  reconnectMinDelay : Int
  reconnectMaxDelay : Int
  reconnectDelay : Int
  reconnectAttemptLimit : Int
  reconnectAttemptCount : Int
  lastReconnectAttemptMs : Int
  connectionListCount : Int
  connectionListIter : Int
  connectionOptList : Option (List RsslReactorConnectInfoImpl)
  pTunnelManager : Nat
  supportSessionMgnt : Bool
  httpStausCode : Nat
  pRestHandle : Nat
  userName : RsslBuffer
  flags : Nat
  userNameType : Nat
  connectionDebugFlags : Nat
  pChannelStatistic : Option RsslReactorChannelStatistic
  statisticFlags : Nat
  tokenSessionLink : RsslQueueLink
  pTokenSessionImpl : Nat
  addedToTokenSessionList : Nat
  temporaryURL : RsslBuffer
  temporaryURLBufLength : Nat

/-- The content `memset(pInfo, 0, sizeof(RsslReactorChannelImpl))` leaves: every member zero. -/
def RsslReactorChannelImpl.zeroed : RsslReactorChannelImpl :=
  { reactorChannel := { socketId := 0, oldSocketId := 0, others := 0 }
    pParentReactor := 0
    initializationTimeout := 0
    initializationStartTimeMs := 0
    reactorQueueLink := 0
    reactorParentQueue := 0
    eventQueue := 0
    lastPingReadMs := 0
    pNotifierEvent := 0
    readRet := 0
    writeRet := 0
    requestedFlush := false
    pWatchlist := 0
    wlDispatchEventQueued := false
    tunnelDispatchEventQueued := false
    rdmMsg := 0
    channelSetupState := 0
    pWriteCallAgainBuffer := 0
    channelRole := 0
    rwfFldStreamId := 0
    rwfEnumStreamId := 0
    workerLink := 0
    workerParentList := 0
    lastPingSentMs := 0
    channelWorkerCerr := 0
    lastRequestedExpireTime := 0
    nextExpireTime := 0
    pWorkerNotifierEvent := 0
    reconnectMinDelay := 0
    reconnectMaxDelay := 0
    reconnectDelay := 0
    reconnectAttemptLimit := 0
    reconnectAttemptCount := 0
    lastReconnectAttemptMs := 0
    connectionListCount := 0
    connectionListIter := 0
    connectionOptList := none
    pTunnelManager := 0
    supportSessionMgnt := false
    httpStausCode := 0
    pRestHandle := 0
    userName := { length := 0, data := none }
    flags := 0
    userNameType := 0
    connectionDebugFlags := 0
    pChannelStatistic := none
    statisticFlags := 0
    tokenSessionLink := 0
    pTokenSessionImpl := 0
    addedToTokenSessionList := 0
    temporaryURL := { length := 0, data := none }
    temporaryURLBufLength := 0 }

/-- The source `rsslClearReactorChannelImpl`: `memset` to zero, then the parent reactor and the two
timers. The previous contents of the slot play no part. -/
def rsslClearReactorChannelImpl (pReactorImpl : Nat) (_pInfo : RsslReactorChannelImpl) :
    RsslReactorChannelImpl :=
  { RsslReactorChannelImpl.zeroed with
    pParentReactor := pReactorImpl
    nextExpireTime := RCIMPL_TIMER_UNSET
    lastRequestedExpireTime := RCIMPL_TIMER_UNSET }

/-- The source `rsslResetReactorChannelState`: reset reactor channel state in response to channel
failure. The reactor argument is not used. -/
def rsslResetReactorChannelState (_pReactorImpl : Nat) (pReactorChannel : RsslReactorChannelImpl) :
    RsslReactorChannelImpl :=
  { pReactorChannel with
    requestedFlush := false
    channelSetupState := RSSL_RC_CHST_INIT
    lastPingReadMs := 0
    readRet := 0
    writeRet := 0
    pWriteCallAgainBuffer := 0 }

/-- The source `rsslResetReactorChannel`: fully reset reactor channel (used when channel is
retrieved from pool). The assignments are those of the source, in its order. -/
def rsslResetReactorChannel (ext : Externs) (pReactorImpl : Nat)
    (pReactorChannel : RsslReactorChannelImpl) : RsslReactorChannelImpl :=
  let c1 : RsslReactorChannelImpl :=
    { pReactorChannel with
      reactorChannel := { socketId := 0, oldSocketId := 0, others := 0 }
      reactorQueueLink := ext.initQueueLink
      reactorParentQueue := 0
      channelRole := ext.clearedChannelRole
      workerLink := ext.initQueueLink
      workerParentList := 0
      lastReconnectAttemptMs := 0
      reconnectAttemptCount := 0 }
  let c2 : RsslReactorChannelImpl :=
    { c1 with
      connectionListCount := 0
      connectionListIter := 0
      connectionOptList := none
      connectionDebugFlags := 0
      reactorChannel :=
        { c1.reactorChannel with
          socketId := ext.REACTOR_INVALID_SOCKET
          oldSocketId := ext.REACTOR_INVALID_SOCKET } }
  let c3 : RsslReactorChannelImpl :=
    { c2 with
      supportSessionMgnt := false
      pRestHandle := 0
      addedToTokenSessionList := 0
      pChannelStatistic := none
      statisticFlags := ext.RSSL_RC_ST_NONE
      tokenSessionLink := ext.initQueueLink
      pTokenSessionImpl := 0
      temporaryURL := rsslClearBuffer
      temporaryURLBufLength := 0 }
  rsslResetReactorChannelState pReactorImpl c3

/-- The source `rsslReactorChannelIsValid`: verify that the given channel is valid for this
reactor. Returns the verdict and the error record as the call leaves it. -/
def rsslReactorChannelIsValid (ext : Externs) (pReactorImpl : Nat)
    (pInfo : RsslReactorChannelImpl) (pError : RsslErrorInfo) : Bool × RsslErrorInfo :=
  let ret : Bool := decide (pInfo.pParentReactor = pReactorImpl)
  if ret = false then
    (ret, rsslSetErrorInfo pError ext.RSSL_EIC_FAILURE RsslRet.RSSL_RET_FAILURE
      ext.sourceFile 399 "Invalid channel.")
  else
    (ret, pError)

/-! ## rsslReactorImpl.h : copy of the connection list -/

/-- The public `RsslReactorConnectOptions` (declared in rtr/rsslReactor.h): the members the copy
of the connection list reads. `reactorConnectionList` is the array the pointer of that name
points to. -/
structure RsslReactorConnectOptions where
  rsslConnectOptions : RsslConnectOptions
  initializationTimeout : Nat
  connectionCount : Nat
  reactorConnectionList : List RsslReactorConnectInfo
  statisticFlags : Nat
  deriving DecidableEq, Repr

/-- Conversion of an `RsslUInt32` to an `RsslInt32`, as in
`pReactorChannel->connectionListCount = pOpts->connectionCount`. -/
def toInt32 (n : Nat) : Int :=
  if n % 2 ^ 32 < 2 ^ 31 then ((n % 2 ^ 32 : Nat) : Int) else ((n % 2 ^ 32 : Nat) : Int) - 2 ^ 32

/-- C `strlen` on a block of bytes: the number of bytes before the first zero byte; `none` when
the block holds no zero byte, where the read runs past the block. -/
def strlen : List Nat → Option Nat
  | [] => none
  | b :: bs => if b = 0 then some 0 else (strlen bs).map (· + 1)

/-- The string a block holds: its bytes before the first zero byte. -/
def cString (bs : List Nat) : List Nat := bs.takeWhile (· ≠ 0)

/-- C `strncpy(dest, src, n)`: the first `n` bytes of `dest` become the bytes of the string at
`src`, cut at `n` bytes or padded with zero bytes up to `n`. -/
def strncpy (dest src : List Nat) (n : Nat) : List Nat :=
  ((cString src).take n ++ List.replicate (n - (cString src).length) 0) ++ dest.drop n

/-- C `memset(dest, c, n)` for `n` at most the size of the block: the first `n` bytes of `dest`
become `c`. -/
def memset (dest : List Nat) (c n : Nat) : List Nat :=
  List.replicate n c ++ dest.drop n

/-- The block a successful `malloc(size)` returns as call number `k`: `size` bytes of
indeterminate content. -/
def mallocBlock (ext : Externs) (k size : Nat) : List Nat :=
  (List.range size).map (ext.mallocByte k)

/-- The tail of one turn of the loop of `_rsslChannelCopyConnectionList`, after the location is
set: the three settings, the session management flag of the caller, and the deep copy of the
connect options, which is the call number `calls`. The entry is `none` when the deep copy fails. -/
def copyEntrySettings (ok : Nat → Bool) (src : RsslReactorConnectInfo)
    (entry : RsslReactorConnectInfoImpl) (enableSessionMgnt : Bool) (calls : Nat) :
    Option RsslReactorConnectInfoImpl × Bool × Nat :=
  let entry1 : RsslReactorConnectInfoImpl :=
    { entry with
      base :=
        { entry.base with
          initializationTimeout := src.initializationTimeout
          enableSessionManagement := src.enableSessionManagement
          pAuthTokenEventCallback := src.pAuthTokenEventCallback } }
  let mgnt : Bool := if enableSessionMgnt = false then entry1.base.enableSessionManagement
    else enableSessionMgnt
  if ok calls then
    (some { entry1 with base := { entry1.base with rsslConnectOptions := src.rsslConnectOptions } },
      mgnt, calls + 1)
  else
    (none, mgnt, calls + 1)

/-- One turn of the loop of `_rsslChannelCopyConnectionList` for the caller's entry `src`.
The outer `none` is a read through `NULL` or past a block; the entry is `none` when an allocation
or the deep copy fails, and the function then returns `RSSL_RET_FAILURE`. `ok k` tells whether
call number `k` (to `malloc` or `rsslDeepCopyConnectOpts`, in the order made) succeeds.
The size of the block is `(size_t)length + (size_t)1`, which does not wrap; the size given to
`memset` is `length + 1` in `RsslUInt32`, which is 0 for the length 0xFFFFFFFF. -/
def copyEntry (ext : Externs) (ok : Nat → Bool) (src : RsslReactorConnectInfo)
    (enableSessionMgnt : Bool) (calls : Nat) :
    Option (Option RsslReactorConnectInfoImpl × Bool × Nat) :=
  let cleared := rsslClearReactorConnectInfoImpl ext
  if src.enableSessionManagement then
    match src.location.data with
    | none => none
    | some bytes =>
      match strlen bytes with
      | none => none
      | some n =>
        let length := n % 2 ^ 32
        if ok calls then
          let block := mallocBlock ext calls (length + 1)
          let block := memset block 0 ((length + 1) % 2 ^ 32)
          let data := strncpy block bytes length
          some (copyEntrySettings ok src
            { cleared with base := { cleared.base with location := ⟨length, some data⟩ } }
            enableSessionMgnt (calls + 1))
        else
          some (none, enableSessionMgnt, calls + 1)
  else
    some (copyEntrySettings ok src
      { cleared with base := { cleared.base with location := rsslClearBuffer } }
      enableSessionMgnt calls)

/-- The loop `for(i = 0; i < pOpts->connectionCount; i++)` of `_rsslChannelCopyConnectionList`,
with `remaining = connectionCount - i` turns to go and `list` the entries stored so far. -/
def copyLoop (ext : Externs) (ok : Nat → Bool) (source : List RsslReactorConnectInfo) :
    Nat → Nat → List RsslReactorConnectInfoImpl → Bool → Nat →
    Option (Option (List RsslReactorConnectInfoImpl) × Bool × Nat)
  | 0, _, list, enableSessionMgnt, calls => some (some list, enableSessionMgnt, calls)
  | remaining + 1, i, list, enableSessionMgnt, calls =>
    match source[i]? with
    | none => none
    | some src =>
      match copyEntry ext ok src enableSessionMgnt calls with
      | none => none
      | some (none, mgnt, calls1) => some (none, mgnt, calls1)
      | some (some entry, mgnt, calls1) =>
        copyLoop ext ok source remaining (i + 1) (list ++ [entry]) mgnt calls1

/-- What `_rsslChannelCopyConnectionList` leaves: its return code, the channel, the flag behind
`enableSessionMgnt`, and the number of calls to `malloc` and `rsslDeepCopyConnectOpts` made. -/
structure CopyResult where
  ret : RsslRet
  channel : RsslReactorChannelImpl
  enableSessionMgnt : Bool
  calls : Nat

/-- The source: `if (p->pChannelStatistic) { free(...); p->pChannelStatistic = NULL; }`. -/
def freeChannelStatistic (ch : RsslReactorChannelImpl) : RsslReactorChannelImpl :=
  if ch.pChannelStatistic.isSome then { ch with pChannelStatistic := none } else ch

/-- The failure exit the source repeats after each failed call of the second half: the
connection list is `NULL` by then, the statistic block is freed, `RSSL_RET_FAILURE` is returned. -/
def copyFailed (ch : RsslReactorChannelImpl) (enableSessionMgnt : Bool) (calls : Nat) :
    CopyResult :=
  ⟨RsslRet.RSSL_RET_FAILURE, freeChannelStatistic { ch with connectionOptList := none },
    enableSessionMgnt, calls⟩

/-- The second half of `_rsslChannelCopyConnectionList`: the connection list. -/
def copyConnectionOptList (ext : Externs) (ok : Nat → Bool) (ch : RsslReactorChannelImpl)
    (pOpts : RsslReactorConnectOptions) (enableSessionMgnt : Bool) (calls : Nat) :
    Option CopyResult :=
  if pOpts.connectionCount ≠ 0 then
    if ok calls = false then
      some (copyFailed ch enableSessionMgnt (calls + 1))
    else
      match copyLoop ext ok pOpts.reactorConnectionList pOpts.connectionCount 0 [] false
          (calls + 1) with
      | none => none
      | some (none, mgnt, calls1) => some (copyFailed ch mgnt calls1)
      | some (some list, mgnt, calls1) =>
        some ⟨RsslRet.RSSL_RET_SUCCESS,
          { ch with
            connectionOptList := some list
            connectionListCount := toInt32 pOpts.connectionCount },
          mgnt, calls1⟩
  else
    if ok calls = false then
      some (copyFailed ch enableSessionMgnt (calls + 1))
    else
      let cleared := rsslClearReactorConnectInfoImpl ext
      if ok (calls + 1) = false then
        some (copyFailed ch enableSessionMgnt (calls + 2))
      else
        let entry : RsslReactorConnectInfoImpl :=
          { cleared with
            base :=
              { cleared.base with
                rsslConnectOptions := pOpts.rsslConnectOptions
                initializationTimeout := pOpts.initializationTimeout
                enableSessionManagement := false } }
        some ⟨RsslRet.RSSL_RET_SUCCESS,
          { ch with connectionOptList := some [entry], connectionListCount := 1 },
          enableSessionMgnt, calls + 2⟩

/-- The source `_rsslChannelCopyConnectionList`. `ok k` tells whether call number `k` to `malloc`
or `rsslDeepCopyConnectOpts`, in the order the function makes them, succeeds; `none` is a read
through `NULL` or past the end of a block. -/
def _rsslChannelCopyConnectionList (ext : Externs) (ok : Nat → Bool)
    (pReactorChannel : RsslReactorChannelImpl) (pOpts : RsslReactorConnectOptions)
    (enableSessionMgnt : Bool) : Option CopyResult :=
  if pOpts.statisticFlags &&& (ext.RSSL_RC_ST_READ ||| ext.RSSL_RC_ST_WRITE ||| ext.RSSL_RC_ST_PING)
      ≠ 0 then
    if ok 0 = false then
      some ⟨RsslRet.RSSL_RET_FAILURE, { pReactorChannel with pChannelStatistic := none },
        enableSessionMgnt, 1⟩
    else
      copyConnectionOptList ext ok
        { pReactorChannel with
          pChannelStatistic := some ext.clearedChannelStatistic
          statisticFlags := pOpts.statisticFlags }
        pOpts enableSessionMgnt 1
  else
    copyConnectionOptList ext ok pReactorChannel pOpts enableSessionMgnt 0

/-! ## Channel slots: the blank template and sequences of resets -/

/-- The blank template the description of the channel life cycle names: the state
`rsslClearReactorChannelImpl` produces for the parent reactor, with the two socket members at
`REACTOR_INVALID_SOCKET`. -/
def blankTemplate (ext : Externs) (pReactorImpl : Nat) : RsslReactorChannelImpl :=
  let cleared := rsslClearReactorChannelImpl pReactorImpl RsslReactorChannelImpl.zeroed
  { cleared with
    reactorChannel :=
      { cleared.reactorChannel with
        socketId := ext.REACTOR_INVALID_SOCKET
        oldSocketId := ext.REACTOR_INVALID_SOCKET } }

/-- A slot of the pool of reactor 7 after use: the blank template with the reconnection settings,
the initialization timeout and the ping timers a connection leaves in it. -/
def usedSlot (ext : Externs) : RsslReactorChannelImpl :=
  { blankTemplate ext 7 with
    initializationTimeout := 60
    lastPingSentMs := 12000
    lastRequestedExpireTime := 12500
    nextExpireTime := 12500
    reconnectMinDelay := 1000
    reconnectMaxDelay := 8000
    reconnectDelay := 4000
    reconnectAttemptLimit := 3 }

/-- A call of one of the two reset functions, with the reactor it is given. -/
inductive ResetCall
  | resetChannel (pReactorImpl : Nat)
  | resetChannelState (pReactorImpl : Nat)
  deriving DecidableEq, Repr

/-- The channel after one reset call. -/
def ResetCall.apply (ext : Externs) (ch : RsslReactorChannelImpl) : ResetCall →
    RsslReactorChannelImpl
  | .resetChannel r => rsslResetReactorChannel ext r ch
  | .resetChannelState r => rsslResetReactorChannelState r ch

/-- The channel after a sequence of reset calls, first call first. -/
def applyResets (ext : Externs) (calls : List ResetCall) (ch : RsslReactorChannelImpl) :
    RsslReactorChannelImpl :=
  calls.foldl (ResetCall.apply ext) ch

/-! ## The copy of the connection list: calls, readable options, stored entries -/

/-- Every call numbered from `a` up to, not including, `b` succeeds. -/
def AllOk (ok : Nat → Bool) (a b : Nat) : Prop := ∀ k, a ≤ k → k < b → ok k = true

/-- The caller's entry can be read by the loop: with session management enabled its location
points to a block that holds a zero byte. -/
def readableEntry (src : RsslReactorConnectInfo) : Bool :=
  !src.enableSessionManagement ||
    match src.location.data with
    | none => false
    | some bytes => decide (0 ∈ bytes)

/-- The caller's options can be read: the array holds `connectionCount` entries, each readable. -/
def readableOptions (pOpts : RsslReactorConnectOptions) : Bool :=
  decide (pOpts.connectionCount ≤ pOpts.reactorConnectionList.length) &&
    (pOpts.reactorConnectionList.take pOpts.connectionCount).all readableEntry

/-- The stored entry `s` is the copy of the caller's entry `src`: the three settings and the
connect options of the caller, and as location the cleared buffer without session management;
with it a fresh block of `strlen % 2 ^ 32` bytes and one more: the first bytes of the caller's
location string, and then the zero byte, or, when `memset` was given the wrapped size 0, the
byte the allocation (call number `k`) left there. -/
def StoredFrom (ext : Externs) (src : RsslReactorConnectInfo) (s : RsslReactorConnectInfoImpl) :
    Prop :=
  s.base.initializationTimeout = src.initializationTimeout ∧
  s.base.enableSessionManagement = src.enableSessionManagement ∧
  s.base.pAuthTokenEventCallback = src.pAuthTokenEventCallback ∧
  s.base.rsslConnectOptions = src.rsslConnectOptions ∧
  (src.enableSessionManagement = true →
    ∃ bytes n block k, src.location.data = some bytes ∧ strlen bytes = some n ∧
      s.base.location = ⟨n % 2 ^ 32, some block⟩ ∧
      block = (cString bytes).take (n % 2 ^ 32) ++
        [if n % 2 ^ 32 + 1 < 2 ^ 32 then 0 else ext.mallocByte k (n % 2 ^ 32)]) ∧
  (src.enableSessionManagement = false → s.base.location = rsslClearBuffer)

/-- Externs with the values of the ETA headers: invalid socket and failure code -1, statistic
flags 0, 1, 2, 4, zeroed helpers, "us-east" as the default location, and the byte 0xCD all over a
fresh block. -/
def sampleExterns : Externs :=
  { REACTOR_INVALID_SOCKET := -1
    RSSL_EIC_FAILURE := -1
    RSSL_RC_ST_NONE := 0
    RSSL_RC_ST_READ := 1
    RSSL_RC_ST_WRITE := 2
    RSSL_RC_ST_PING := 4
    initQueueLink := 0
    clearedChannelRole := 0
    clearedConnectOptions := 0
    clearedInitializationTimeout := 60
    clearedLocation := ⟨7, some [117, 115, 45, 101, 97, 115, 116, 0]⟩
    clearedChannelStatistic := 0
    sourceFile := "rsslReactorImpl.h"
    mallocByte := fun _ _ => 0xCD }

/-- A freshly reset channel of reactor 7. -/
def sampleChannel : RsslReactorChannelImpl :=
  rsslResetReactorChannel sampleExterns 7
    (rsslClearReactorChannelImpl 7 RsslReactorChannelImpl.zeroed)

/-- Connect options with two entries: the first session managed with location "ABC", the second
not; read and write statistics are asked for. -/
def sampleOptions : RsslReactorConnectOptions :=
  { rsslConnectOptions := 5
    initializationTimeout := 60
    connectionCount := 2
    reactorConnectionList :=
      [⟨11, 30, true, ⟨3, some [65, 66, 67, 0]⟩, 77⟩, ⟨12, 40, false, ⟨0, none⟩, 78⟩]
    statisticFlags := 3 }

/-- The result of the copy for the sample channel and options when every call succeeds. -/
def sampleCopied : Option CopyResult :=
  _rsslChannelCopyConnectionList sampleExterns (fun _ => true) sampleChannel sampleOptions false

/-- Modelled from the spec: the functions of the event queue are declared in
rtr/rsslReactorEventQueue.h, which is not among the sources. The queue holds the pending events
in push order, counts the signals sent to its wake mechanism, and is closed once its owner
shuts down. -/
structure EventQueue where
  pending : List RsslReactorEventImpl
  wakeSignals : Nat
  closed : Bool
  deriving DecidableEq, Repr

/-- Modelled from the spec: the result of a push, which the event queue header (not among the
sources) would declare: the event was appended, or the queue is closed. -/
inductive PushResult
  | pushed
  | queueClosed
  deriving DecidableEq, Repr

/-- Modelled from the spec: the initial state of an event queue (its initialiser is not among the
sources): nothing pending, no signal sent, open. -/
def EventQueue.init : EventQueue := { pending := [], wakeSignals := 0, closed := false }

/-- Modelled from the spec: push of the event queue (not among the sources). It appends the
event and signals the wake mechanism once per transition from empty to non-empty; a closed
queue rejects the push with the closed error and is left as it was. -/
def EventQueue.push (q : EventQueue) (e : RsslReactorEventImpl) : PushResult × EventQueue :=
  if q.closed then
    (PushResult.queueClosed, q)
  else
    (PushResult.pushed,
      { q with
        pending := q.pending ++ [e]
        wakeSignals := if q.pending.isEmpty then q.wakeSignals + 1 else q.wakeSignals })

/-- Modelled from the spec: drainAll of the event queue (not among the sources). It detaches
the entire pending list and returns it as a sequence. -/
def EventQueue.drainAll (q : EventQueue) : List RsslReactorEventImpl × EventQueue :=
  (q.pending, { q with pending := [] })

/-- A sequence of pushes, first event first: the results of the pushes and the queue they
leave. -/
def EventQueue.pushAll (q : EventQueue) :
    List RsslReactorEventImpl → List PushResult × EventQueue
  | [] => ([], q)
  | e :: es =>
    let r := q.push e
    let rest := EventQueue.pushAll r.2 es
    (r.1 :: rest.1, rest.2)

/-! ## Reconnection (section 4.2 of the specification) -/

/-- Modelled from the spec: the kinds of channel event are declared in rtr/rsslReactorEvents.h,
which is not among the sources; this is the kind of the channel-down event delivered when the
channel is given up. -/
def RSSL_RC_CET_CHANNEL_DOWN : Int := 3

/-- Modelled from the spec: the kind of the channel-down event delivered while the channel goes
on reconnecting (rtr/rsslReactorEvents.h is not among the sources). -/
def RSSL_RC_CET_CHANNEL_DOWN_RECONNECTING : Int := 6

/-- Modelled from the spec: the kind of the event delivered when the channel reaches READY
(rtr/rsslReactorEvents.h is not among the sources). -/
def RSSL_RC_CET_CHANNEL_READY : Int := 2

/-- Modelled from the spec: the backoff factor of the reconnection logic, which is not among the
sources; the scenario of the specification (delays 1 s, 2 s, 4 s) doubles the delay. -/
def backoffFactor : Int := 2

/-- Modelled from the spec: the reconnection logic is not among the sources. The delay after a
failed attempt is `min(maxDelay, max(minDelay, previousDelay * backoffFactor))`. -/
def nextReconnectDelay (ch : RsslReactorChannelImpl) : Int :=
  min ch.reconnectMaxDelay (max ch.reconnectMinDelay (ch.reconnectDelay * backoffFactor))

/-- Modelled from the spec: the reconnection logic is not among the sources. The cursor
`connectionListIter` moves to the next candidate of the connection list, wrapping at its end. -/
def nextConnectionListIter (ch : RsslReactorChannelImpl) : Int :=
  if ch.connectionListIter + 1 < ch.connectionListCount then ch.connectionListIter + 1 else 0

/-- Modelled from the spec: the worker keeps a channel in one of its four sets (the worker loop
is not among the sources). -/
inductive ChannelSet
  | initializing
  | active
  | inactive
  | reconnecting
  deriving DecidableEq, Repr

/-- Modelled from the spec: what can happen to a channel in the reconnection state machine (not
among the sources): a connection attempt fails, a connection attempt succeeds and the handshake
reaches READY, or the connection of a READY channel is lost. -/
inductive ReconnectOutcome
  | attemptFailed
  | reachedReady
  | connectionLost
  deriving DecidableEq, Repr

/-- Modelled from the spec: the state of one channel in the worker (the worker loop is not among
the sources): the channel, the set that holds it, the channel events delivered to the reactor,
oldest first, and the connection attempts made, oldest first, each with the value of
`connectionListIter` it targeted and the delay it left. -/
structure WorkerChannel where
  channel : RsslReactorChannelImpl
  set : ChannelSet
  events : List RsslReactorChannelEventImpl
  attempts : List (Int × Int)

/-- Modelled from the spec: a channel event of the given kind for the channel, with its
`isConnectFailure` flag (the code that builds the events is not among the sources). -/
def channelEventFor (kind : Int) (isConnectFailure : Bool) : RsslReactorChannelEventImpl :=
  let cleared := rsslClearReactorChannelEventImpl
    ⟨⟨0, 0⟩, ⟨0, 0, 0⟩, false⟩
  { cleared with
    channelEvent := { cleared.channelEvent with channelEventType := kind }
    isConnectFailure := isConnectFailure }

/-- Modelled from the spec: a channel newly connected from its pool slot (the connect call is not
among the sources): the reconnection settings are those of the caller, the delay and the attempt
count are zero, the cursor is at the first candidate, and the worker initializes the channel. -/
def WorkerChannel.start (ch : RsslReactorChannelImpl) : WorkerChannel :=
  { channel :=
      { ch with
        reconnectDelay := 0
        reconnectAttemptCount := 0
        connectionListIter := 0
        channelSetupState := RSSL_RC_CHST_INIT }
    set := ChannelSet.initializing
    events := []
    attempts := [] }

/-- Modelled from the spec: the channel after a failed connection attempt (the reconnection logic
is not among the sources): its state is reset to INIT as after any channel failure, the delay is
raised and the attempt count incremented. -/
def attemptFailedChannel (ch : RsslReactorChannelImpl) : RsslReactorChannelImpl :=
  { rsslResetReactorChannelState ch.pParentReactor ch with
    reconnectDelay := nextReconnectDelay ch
    reconnectAttemptCount := ch.reconnectAttemptCount + 1 }

/-- Modelled from the spec: the attempt limit is bounded (a limit of -1 is unlimited) and the
attempt count has reached it (the reconnection logic is not among the sources). -/
def attemptLimitReached (ch : RsslReactorChannelImpl) : Bool :=
  decide (ch.reconnectAttemptLimit ≠ -1) &&
    decide (ch.reconnectAttemptLimit ≤ ch.reconnectAttemptCount)

/-- Modelled from the spec: one step of the reconnection state machine (not among the sources).

* A failed attempt of a channel being initialized or reconnected resets the channel state to
  INIT, raises the delay, and increments the attempt count; when the count has reached a bounded
  attempt limit the channel moves to the inactive set and the terminal channel-down event is
  delivered with `isConnectFailure` set, otherwise the channel stays with the reconnecting set
  and the cursor moves to the next candidate.
* Reaching READY resets the delay to the minimum delay and makes the channel active.
* Losing the connection of an active channel moves it from READY to RECONNECTING and delivers a
  channel-down event with `isConnectFailure` clear.
* Any other outcome leaves the channel as it is: no attempt is made for an inactive channel. -/
def WorkerChannel.step (s : WorkerChannel) : ReconnectOutcome → WorkerChannel
  | .attemptFailed =>
    if s.set = ChannelSet.initializing ∨ s.set = ChannelSet.reconnecting then
      if attemptLimitReached (attemptFailedChannel s.channel) then
        { channel := attemptFailedChannel s.channel
          set := ChannelSet.inactive
          events := s.events ++ [channelEventFor RSSL_RC_CET_CHANNEL_DOWN true]
          attempts := s.attempts ++
            [(s.channel.connectionListIter, (attemptFailedChannel s.channel).reconnectDelay)] }
      else
        { channel :=
            { attemptFailedChannel s.channel with
              connectionListIter := nextConnectionListIter (attemptFailedChannel s.channel) }
          set := ChannelSet.reconnecting
          events := s.events ++ [channelEventFor RSSL_RC_CET_CHANNEL_DOWN_RECONNECTING true]
          attempts := s.attempts ++
            [(s.channel.connectionListIter, (attemptFailedChannel s.channel).reconnectDelay)] }
    else s
  | .reachedReady =>
    if s.set = ChannelSet.initializing ∨ s.set = ChannelSet.reconnecting then
      { s with
        channel :=
          { s.channel with
            channelSetupState := RSSL_RC_CHST_READY
            reconnectDelay := s.channel.reconnectMinDelay }
        set := ChannelSet.active
        events := s.events ++ [channelEventFor RSSL_RC_CET_CHANNEL_READY false] }
    else s
  | .connectionLost =>
    if s.set = ChannelSet.active then
      { s with
        channel := { s.channel with channelSetupState := RSSL_RC_CHST_RECONNECTING }
        set := ChannelSet.reconnecting
        events := s.events ++ [channelEventFor RSSL_RC_CET_CHANNEL_DOWN_RECONNECTING false] }
    else s

/-- The state after a sequence of outcomes, first outcome first. -/
def WorkerChannel.run (s : WorkerChannel) (outcomes : List ReconnectOutcome) : WorkerChannel :=
  outcomes.foldl WorkerChannel.step s

/-- The channel of the scenario: connection list [A, B] (A and B are the entries with connect
options 1 and 2), minimum delay 1 s, maximum delay 8 s, attempt limit 3. -/
def scenarioChannel : RsslReactorChannelImpl :=
  { sampleChannel with
    reconnectMinDelay := 1
    reconnectMaxDelay := 8
    reconnectAttemptLimit := 3
    connectionListCount := 2
    connectionOptList :=
      some [⟨⟨1, 60, false, ⟨0, none⟩, 0⟩, 0, 0, 0, 0⟩, ⟨⟨2, 60, false, ⟨0, none⟩, 0⟩, 0, 0, 0, 0⟩] }
/-- The state a newly connected channel reaches after a sequence of outcomes. -/
def WorkerChannel.reached (ch : RsslReactorChannelImpl) (outcomes : List ReconnectOutcome) :
    WorkerChannel :=
  (WorkerChannel.start ch).run outcomes

/-- The delay of the channel lies between zero and the maximum delay `hi`, the two delay
settings are `lo` and `hi`, and a channel in READY has the minimum delay `lo`. -/
def WorkerChannel.DelayInRange (lo hi : Int) (s : WorkerChannel) : Prop :=
  s.channel.reconnectMinDelay = lo ∧ s.channel.reconnectMaxDelay = hi ∧
    0 ≤ s.channel.reconnectDelay ∧ s.channel.reconnectDelay ≤ hi ∧
    (s.channel.channelSetupState = RSSL_RC_CHST_READY → s.channel.reconnectDelay = lo)

/-! ## The write path (section 4.4 of the specification) -/

/-- Modelled from the spec: the result of a submitted write, which the submit call (not among the
sources) reports: written at once, held as the write-call-again buffer until the flush is done,
or rejected because a write-call-again buffer is pending. -/
inductive WriteResult
  | written
  | heldForFlush
  | rejected
  deriving DecidableEq, Repr

/-- Modelled from the spec: the write path of the reactor is not among the sources. The state
of one channel as the write path sees it: the channel, the start-flush commands sent to the
worker, oldest first, and the buffers held outstanding, that is accepted for a later write and
neither flushed nor dropped so far. -/
structure WritePath where
  channel : RsslReactorChannelImpl
  workerCommands : List RsslReactorFlushEvent
  outstanding : List Nat

/-- Modelled from the spec: what happens on the write path (not among the sources): a write of
a buffer is submitted and can or cannot complete at once, the worker reports the flush done, or
the channel fails. -/
inductive WriteOp
  | submit (pBuffer : Nat) (completes : Bool)
  | flushDone
  | channelFailed
  deriving DecidableEq, Repr

/-- Modelled from the spec: the start-flush command for the worker (the code that builds it is
not among the sources): a flush event of type `RSSL_RCIMPL_FET_START_FLUSH`. -/
def startFlushCommand : RsslReactorFlushEvent :=
  { rsslInitFlushEvent ⟨⟨0, 0⟩, 0, 0⟩ with flushEventType := RSSL_RCIMPL_FET_START_FLUSH }

/-- Modelled from the spec: a submitted write (the submit call is not among the sources). While
a write-call-again buffer is pending the write is rejected and nothing changes; a write that
completes at once leaves no trace; a write that cannot complete is held as the write-call-again
buffer of the channel and a start-flush command goes to the worker. -/
def WritePath.submit (s : WritePath) (pBuffer : Nat) (completes : Bool) :
    WriteResult × WritePath :=
  if s.channel.pWriteCallAgainBuffer ≠ 0 then
    (WriteResult.rejected, s)
  else if completes then
    (WriteResult.written, s)
  else
    (WriteResult.heldForFlush,
      { channel :=
          { s.channel with pWriteCallAgainBuffer := pBuffer, requestedFlush := true }
        workerCommands := s.workerCommands ++ [startFlushCommand]
        outstanding := s.outstanding ++ [pBuffer] })

/-- Modelled from the spec: one step of the write path (not among the sources). Completion of
the flush clears the write-call-again buffer, which is outstanding no more; a channel failure
resets the channel state with `rsslResetReactorChannelState`, which drops the buffer. -/
def WritePath.step (s : WritePath) : WriteOp → WritePath
  | .submit pBuffer completes => (s.submit pBuffer completes).2
  | .flushDone =>
    { s with
      channel := { s.channel with pWriteCallAgainBuffer := 0, requestedFlush := false }
      outstanding := s.outstanding.erase s.channel.pWriteCallAgainBuffer }
  | .channelFailed =>
    { s with
      channel := rsslResetReactorChannelState s.channel.pParentReactor s.channel
      outstanding := s.outstanding.erase s.channel.pWriteCallAgainBuffer }

/-- The write path of a channel fresh from `rsslResetReactorChannel`: nothing sent, nothing
outstanding. -/
def WritePath.start (ext : Externs) (pReactorImpl : Nat) (slot : RsslReactorChannelImpl) :
    WritePath :=
  { channel := rsslResetReactorChannel ext pReactorImpl slot
    workerCommands := []
    outstanding := [] }

/-- The state after a sequence of steps, first step first. -/
def WritePath.run (s : WritePath) (ops : List WriteOp) : WritePath :=
  ops.foldl WritePath.step s

/-- Every write of the sequence carries a buffer: none submits the `NULL` pointer. -/
def writesCarryBuffers (ops : List WriteOp) : Bool :=
  ops.all fun op =>
    match op with
    | .submit pBuffer _ => decide (pBuffer ≠ 0)
    | _ => true

/-- The buffers outstanding are exactly the one in the slot `pWriteCallAgainBuffer`, if any. -/
def WritePath.SingleSlot (s : WritePath) : Prop :=
  s.outstanding = if s.channel.pWriteCallAgainBuffer = 0 then []
    else [s.channel.pWriteCallAgainBuffer]

/-! ## The setup state machine (section 4.2 of the specification) -/

/-- Modelled from the spec: what drives the setup state of a channel (the handshake code is not
among the sources): the protocol exchange the current state waits for completes, a failure
occurs, or a reconnection attempt connects. -/
inductive SetupEvent
  | exchangeCompleted
  | failure
  | reconnected
  deriving DecidableEq, Repr

/-- Modelled from the spec: the state a completed protocol exchange leads to (the handshake code
is not among the sources): the next one along INIT, LOGGED_IN, HAVE_DIRECTORY, HAVE_RWFFLD,
HAVE_RWFENUM, READY; READY and RECONNECTING wait for no exchange. -/
def nextSetupState (state : RsslReactorChannelSetupState) : RsslReactorChannelSetupState :=
  if state = RSSL_RC_CHST_INIT then RSSL_RC_CHST_LOGGED_IN
  else if state = RSSL_RC_CHST_LOGGED_IN then RSSL_RC_CHST_HAVE_DIRECTORY
  else if state = RSSL_RC_CHST_HAVE_DIRECTORY then RSSL_RC_CHST_HAVE_RWFFLD
  else if state = RSSL_RC_CHST_HAVE_RWFFLD then RSSL_RC_CHST_HAVE_RWFENUM
  else if state = RSSL_RC_CHST_HAVE_RWFENUM then RSSL_RC_CHST_READY
  else state

/-- Modelled from the spec: one transition of the setup state (the handshake code is not among
the sources). A completed exchange advances one state along the chain from INIT to READY; a
failure takes READY to RECONNECTING and resets any other state to INIT with
`rsslResetReactorChannelState`; a reconnection that connects takes RECONNECTING to INIT, where
the handshake restarts. -/
def setupStep (ch : RsslReactorChannelImpl) : SetupEvent → RsslReactorChannelImpl
  | .exchangeCompleted => { ch with channelSetupState := nextSetupState ch.channelSetupState }
  | .failure =>
    if ch.channelSetupState = RSSL_RC_CHST_READY then
      { ch with channelSetupState := RSSL_RC_CHST_RECONNECTING }
    else rsslResetReactorChannelState ch.pParentReactor ch
  | .reconnected =>
    if ch.channelSetupState = RSSL_RC_CHST_RECONNECTING then
      rsslResetReactorChannelState ch.pParentReactor ch
    else ch

/-- The channel after a sequence of setup events, first event first. -/
def setupRun (ch : RsslReactorChannelImpl) (events : List SetupEvent) : RsslReactorChannelImpl :=
  events.foldl setupStep ch

/-- The edges of the setup state machine: the chain from INIT to READY, READY to RECONNECTING,
and a reset to INIT from any state. -/
def SetupEdge (a b : RsslReactorChannelSetupState) : Prop :=
  (a = RSSL_RC_CHST_INIT ∧ b = RSSL_RC_CHST_LOGGED_IN) ∨
  (a = RSSL_RC_CHST_LOGGED_IN ∧ b = RSSL_RC_CHST_HAVE_DIRECTORY) ∨
  (a = RSSL_RC_CHST_HAVE_DIRECTORY ∧ b = RSSL_RC_CHST_HAVE_RWFFLD) ∨
  (a = RSSL_RC_CHST_HAVE_RWFFLD ∧ b = RSSL_RC_CHST_HAVE_RWFENUM) ∨
  (a = RSSL_RC_CHST_HAVE_RWFENUM ∧ b = RSSL_RC_CHST_READY) ∨
  (a = RSSL_RC_CHST_READY ∧ b = RSSL_RC_CHST_RECONNECTING) ∨
  b = RSSL_RC_CHST_INIT

end Reactor

/-!
# QuoddFeed message wrappers and UltraFeed appendices

A shallow embedding of functions of `libQuoddFeed/linux64/inc/hpp`.

Conventions of the embedding

* an `int` that holds flags is the number its bits spell, a `Nat`, so that `&` and `|` are the
  bitwise operations of `Nat`; any other `int` is an `Int`;
* a C string is the Lean string of its bytes; a `char` has the value of a signed byte;
* an array a pointer points to is the list of its elements, and a read past its end is `none`;
* a local variable that is read without having been assigned is an argument of the function:
  the indeterminate value the read finds.
-/

namespace QuoddFeed

/-! ## libQuoddFeed.h : macros -/

/-- The macro `InRange( a,b,c )`: true if `b` is in the range [ a,c ]. -/
def InRange (a b c : Int) : Bool := decide (a ≤ b) && decide (b ≤ c)

/-- The macro `K`. -/
def K : Nat := 1024

/-! ## Messages.h and hpp/BlobTable.hpp -/

/-- The struct `BlobRow`: one row of a BlobTable; `_cels` is the array of `_nCel` strings the
pointer of that name points to. -/
structure BlobRow where
  _nCel : Int
  _cels : List String
  deriving DecidableEq, Repr

/-- The struct `BlobTable`, a table of results returned from a query: the members the cell
accessors read; `_rows` is the array of `_nRow` rows the pointer of that name points to. -/
structure BlobTable where
  _nRow : Int
  _colHdr : BlobRow
  _rows : List BlobRow
  deriving DecidableEq, Repr

/-- The method `BlobTable::nCol`: the number of columns in this table. -/
def BlobTable.nCol (t : BlobTable) : Int := t._colHdr._nCel

/-- The method `BlobTable::nRow`: the number of rows in this table. -/
def BlobTable.nRow (t : BlobTable) : Int := t._nRow

/-- The element `a[i]` of a C array given as the list of its elements: `none` is a read before or
past the array. -/
def arrayAt {α : Type} (a : List α) (i : Int) : Option α :=
  if 0 ≤ i then a[i.toNat]? else none

/-- The method `BlobTable::GetCell`: the value of the cell ( r,c ), after the two pre-conditions
of the source; `none` is a read before or past an array. -/
def BlobTable.GetCell (t : BlobTable) (r c : Int) : Option String :=
  if !InRange 0 r t.nRow then
    some "Row out-of-bounds"
  else if !InRange 0 c t.nCol then
    some "Column out-of-bounds"
  else
    match arrayAt t._rows r with
    | none => none
    | some row => arrayAt row._cels c

/-- The table is laid out as Messages.h describes it: `_rows` holds `_nRow` rows and every row
holds as many cells as there are columns. -/
def BlobTable.wellFormed (t : BlobTable) : Bool :=
  decide ((t._rows.length : Int) = t._nRow) &&
    decide ((t._colHdr._cels.length : Int) = t._colHdr._nCel) &&
    t._rows.all fun row => decide (row._nCel = t._colHdr._nCel) &&
      decide ((row._cels.length : Int) = row._nCel)

/-- A table of one row and one column. -/
def oneCellTable : BlobTable :=
  { _nRow := 1
    _colHdr := { _nCel := 1, _cels := ["Symbol"] }
    _rows := [{ _nCel := 1, _cels := ["IBM"] }] }

/-! ## C strings and strtok_r -/

/-- The zero byte that ends a C string. -/
def NUL : Char := Char.ofNat 0

/-- The value of a `char` of the platform, a signed byte. -/
def charValue (c : Char) : Int :=
  if c.toNat % 256 < 128 then ((c.toNat % 256 : Nat) : Int) else ((c.toNat % 256 : Nat) : Int) - 256

/-- The buffer of `std::string tmp( tkr )`: the bytes of the C string `tkr` and the zero byte
after them. -/
def stringBuffer (tkr : String) : List Char :=
  tkr.toList.takeWhile (fun c => c != NUL) ++ [NUL]

/-- The C string at offset `p` of a buffer: the bytes before the first zero byte; `none` when `p`
is past the buffer. -/
def stringAt (buf : List Char) (p : Nat) : Option String :=
  if p < buf.length then some (String.mk ((buf.drop p).takeWhile (fun c => c != NUL))) else none

/-- What a call of `strtok_r` leaves: the token it returns, as its offset in the buffer (`none` is
`NULL`), the buffer, and the saved offset. -/
structure Strtok where
  token : Option Nat
  buf : List Char
  save : Nat
  deriving DecidableEq, Repr

/-- The library function `strtok_r( s, delim, &save )` for the one delimiter `delim`, on the
buffer `buf` from the offset `s`: it skips the delimiters, returns `NULL` at the zero byte, and
otherwise ends the token by overwriting the delimiter after it with the zero byte. -/
def strtok_r (buf : List Char) (s : Nat) (delim : Char) : Strtok :=
  let start := s + ((buf.drop s).takeWhile (fun c => c == delim)).length
  match buf[start]? with
  | none => ⟨none, buf, start⟩
  | some c =>
    if c = NUL then ⟨none, buf, start⟩
    else
      let stop := start + ((buf.drop start).takeWhile (fun c => c != delim && c != NUL)).length
      if buf[stop]? = some delim then ⟨some start, buf.set stop NUL, stop + 1⟩
      else ⟨some start, buf, stop⟩

/-! ## hpp/Enum/OptionSpec.hpp -/

/-- The separator `_sep` of the source: the backslash. -/
def _sep : Char := Char.ofNat 0x5c

/-- The table `_mons` of the source. -/
def _mons : List String :=
  ["JAN", "FEB", "MAR", "APR", "MAY", "JUN", "JUL", "AUG", "SEP", "OCT", "NOV", "DEC"]

/-- The byte `p[i]` for a pointer `p` into the buffer; `none` is a read through `NULL` or past the
buffer. -/
def byteAt (buf : List Char) (p : Option Nat) (i : Nat) : Option Char :=
  match p with
  | none => none
  | some start => buf[start + i]?

/-- The C string `rtn = buf` takes from `char buf[K]` after `sprintf` wrote `text` into it: the
bytes of the text before its first zero byte; `none` when the text and its final zero byte do not
fit the buffer. -/
def sprintfK (text : String) : Option String :=
  if text.length < K then some (String.mk (text.toList.takeWhile (fun c => c != NUL))) else none

/-- The method `OptionSpec::OptionRoot`: O:AIG\14M18\32.00 -> AIG. The result is the C string two
bytes after the start of the first token; `none` is a read through `NULL` or past the buffer. -/
def OptionRoot (tkr : String) : Option String :=
  let t1 := strtok_r (stringBuffer tkr) 0 _sep
  match t1.token with
  | none => none
  | some p1 => stringAt t1.buf (p1 + 2)

/-- The method `OptionSpec::DescriptionFromName`, with the expiration read from the first token
and the price from the second, as the source has it. `none` is a read through `NULL`, before or
past an array, or an overflow of the `sprintf` buffer. -/
def DescriptionFromName (tkr : String) (_rtn : String) : Option String :=
  match OptionRoot tkr with
  | none => none
  | some und =>
    let t1 := strtok_r (stringBuffer tkr) 0 _sep
    let t2 := strtok_r t1.buf t1.save _sep
    match t2.token with
    | none => some und
    | some p2 =>
      let exp := t1.token
      match byteAt t2.buf exp 0, byteAt t2.buf exp 1, byteAt t2.buf exp 2,
          stringAt t2.buf p2 with
      | some y0, some y1, some mon, some prc =>
        let m := Int.tmod (charValue mon - charValue 'A') 12
        let pc := if InRange (charValue 'A') (charValue mon) (charValue 'M') then "CALL" else "PUT"
        match arrayAt _mons m with
        | none => none
        | some pm =>
          sprintfK (und ++ " " ++ pm ++ " 20" ++ String.mk [y0, y1] ++ " " ++ prc ++ " " ++ pc)
      | _, _, _, _ => none

/-- The method `OptionSpec::Expiration`; `Quodd_breakpoint` is a no-op. `none` is a read through
`NULL` or past the buffer. -/
def OptionSpec.Expiration (tkr : String) : Option Int :=
  let t1 := strtok_r (stringBuffer tkr) 0 _sep
  let t2 := strtok_r t1.buf t1.save _sep
  let t3 := strtok_r t2.buf t2.save _sep
  match t3.token with
  | none => some 0
  | some _ =>
    match byteAt t3.buf t2.token 0, byteAt t3.buf t2.token 1, byteAt t3.buf t2.token 2,
        byteAt t3.buf t2.token 3, byteAt t3.buf t2.token 4 with
    | some c0, some c1, some c2, some c3, some c4 =>
      let y0 := charValue c0 - charValue '0'
      let y1 := charValue c1 - charValue '0'
      let m := charValue c2 - charValue 'A'
      let d0 := charValue c3 - charValue '0'
      let d1 := charValue c4 - charValue '0'
      let m := Int.tmod m 12
      let rtn := (y0 * 10) + y1
      let rtn := rtn + 2000
      let rtn := rtn * 10000
      let rtn := rtn + ((m + 1) * 100)
      let rtn := rtn + ((d0 * 10) + d1)
      some rtn
    | _, _, _, _, _ => none

/-- The method `OptionSpec::PutOrCall`, with the month code read from the third token, as the
source has it; `Quodd_breakpoint` is a no-op. `none` is a read past the buffer. -/
def PutOrCall (tkr : String) : Option String :=
  let t1 := strtok_r (stringBuffer tkr) 0 _sep
  let t2 := strtok_r t1.buf t1.save _sep
  let t3 := strtok_r t2.buf t2.save _sep
  match t3.token with
  | none => some "Undefined"
  | some p3 =>
    match byteAt t3.buf (some p3) 2 with
    | none => none
    | some ch =>
      if InRange (charValue 'A') (charValue ch) (charValue 'L') then some "CALL"
      else if InRange (charValue 'M') (charValue ch) (charValue 'X') then some "PUT"
      else some "Undefined"

/-- The ticker as the C string the functions read: its bytes before the first zero byte. -/
def cString (tkr : String) : List Char := tkr.toList.takeWhile (fun c => c != NUL)

/-- The number of tokens of a string of bytes, that is of maximal runs of bytes other than the
separator; `afterSep` tells whether the string follows a separator or starts the ticker. -/
def countTokens : Bool → List Char → Nat
  | _, [] => 0
  | afterSep, c :: cs =>
    if c = _sep then countTokens true cs
    else (if afterSep then 1 else 0) + countTokens false cs

/-- Call number `k`, counted from zero, of a run of `strtok_r` calls on a buffer. -/
def strtokCalls (buf : List Char) (save : Nat) (delim : Char) : Nat → Strtok
  | 0 => strtok_r buf save delim
  | k + 1 => strtokCalls (strtok_r buf save delim).buf (strtok_r buf save delim).save delim k

/-- The byte of the decimal digit `d`. -/
def digitChar (d : Nat) : Char := Char.ofNat (48 + d)

/-- The byte of the month code number `m`, counted from zero at the letter A. -/
def monthCode (m : Nat) : Char := Char.ofNat (65 + m)

/-- The option ticker `O:<root>\<y0><y1><M><d0><d1>\<strike>` of the UltraCache naming
convention, from its root, the digits of the year, the month code, the digits of the day, and
the strike. -/
def optionTicker (root : List Char) (y0 y1 m d0 d1 : Nat) (strike : List Char) : String :=
  String.mk (['O', ':'] ++ root ++
    _sep :: ([digitChar y0, digitChar y1, monthCode m, digitChar d0, digitChar d1] ++
      _sep :: strike))

/-- The bytes are those of a token: none is a separator or the zero byte. -/
def tokenBytes (cs : List Char) : Prop := ∀ c ∈ cs, c ≠ _sep ∧ c ≠ NUL

instance (cs : List Char) : Decidable (tokenBytes cs) := by
  unfold tokenBytes
  infer_instance

/-! ## hpp/Enum/FuturesSpec.hpp -/

/-- The value of `int sz = strlen( tkr )`: the length of the C string, converted to a 32-bit
signed integer. -/
def strlenInt (tkr : String) : Int :=
  let n := (cString tkr).length
  if n % 2 ^ 32 < 2 ^ 31 then ((n % 2 ^ 32 : Nat) : Int) else ((n % 2 ^ 32 : Nat) : Int) - 2 ^ 32

/-- The local table `mons` of `FuturesSpec::Expiration`. -/
def FuturesSpec.mons : List Char :=
  ['F', 'G', 'H', 'J', 'K', 'M', 'N', 'Q', 'U', 'V', 'X', 'Z']

/-- The loop `for ( m=0; m<12 && ( cm != mons[m] ); m++ );` from the index `m`, over the
entries of `mons` from `m` on: it stops at the first entry equal to `cm`, or past the last
entry. -/
def FuturesSpec.monthLoop (cm : Char) : List Char → Int → Int
  | [], m => m
  | c :: rest, m => if cm != c then FuturesSpec.monthLoop cm rest (m + 1) else m

/-- The method `FuturesSpec::Expiration`; `none` is a read before or past the string. -/
def FuturesSpec.Expiration (tkr : String) : Option Int :=
  let s := stringBuffer tkr
  let sz := strlenInt tkr
  match arrayAt s 0 with
  | none => none
  | some c0 =>
    if c0 ≠ Char.ofNat 0x2f then some 0
    else if sz < 4 then some 0
    else
      match arrayAt s (sz - 3), arrayAt s (sz - 2), arrayAt s (sz - 1) with
      | some cm, some a, some b =>
        let m := FuturesSpec.monthLoop cm FuturesSpec.mons 0
        let m := m + 1
        let y := charValue a - charValue '0'
        let y := y * 10
        let y := y + (charValue b - charValue '0')
        let y := y + 2000
        let rc := y * 10000
        let rc := rc + (m * 100)
        some rc
      | _, _, _ => none

/-- The month part of a date number YYYYMMDD. -/
def monthPart (date : Int) : Int := date / 100 % 100

/-! ## hpp/Enum/UltraFeedSpec.hpp and hpp/Enum/EquitySpec.hpp -/

/-- The helper `UltraFeedSpec::_IsSet`: `( msk & bit ) == bit`. -/
def _IsSet (msk bit : Nat) : Bool := (msk &&& bit) == bit

/-! Appendix D - Eligibility Flags -/

def eligibleConsVolume : Nat := 0x0001
def eligibleConsLast : Nat := 0x0002
def eligibleConsHighLow : Nat := 0x0004
def eligiblePartVolume : Nat := 0x0008
def eligiblePartLast : Nat := 0x0010
def eligiblePartHighLow : Nat := 0x0020
def eligiblePartOpen : Nat := 0x0040
def eligiblePartClose : Nat := 0x0080
def changedConsLast : Nat := 0x0100
def changedConsLow : Nat := 0x0200
def changedConsHigh : Nat := 0x0400
def changedPartLast : Nat := 0x0800
def changedPartLow : Nat := 0x1000
def changedPartHigh : Nat := 0x2000
def changedPartOpen : Nat := 0x4000

/-! Appendix G - Report Flags -/

def TRD_ODDLOT : Nat := 0x0001
def TRD_EXTENDED : Nat := 0x0002
def TRD_OUTOFSEQ : Nat := 0x0004

/-! UltraCache Formatting - Limit Up / Down -/

def LULD_EXECUTABLE : Nat := 0x0001
def LULD_BID_NONEX : Nat := 0x0002
def LULD_ASK_NONEX : Nat := 0x0004
def LULD_BID_LIMIT : Nat := 0x0008
def LULD_ASK_LIMIT : Nat := 0x0010
def R_LULD_BID_NONEX : Nat := 0x0400
def R_LULD_ASK_NONEX : Nat := 0x0800
def R_LULD_BID_LIMIT : Nat := 0x1000
def R_LULD_ASK_LIMIT : Nat := 0x2000

/-- The members of the struct `EQTrade` of `Messages.h` that are of type `int`; the header, the
prices, the volumes, the times and the market center are not read by the functions below. -/
structure EQTrade where
  _condTable : Int
  _eligFlags : Nat
  _setlType : Int
  _rptType : Int
  _rptDetail : Int
  _rptFlags : Nat
  deriving DecidableEq, Repr

/-- The method `EquitySpec::IsOddLot`. -/
def IsOddLot (trd : EQTrade) : Bool := _IsSet trd._rptFlags TRD_ODDLOT

/-- The method `EquitySpec::IsExtended`. -/
def IsExtended (trd : EQTrade) : Bool := _IsSet trd._rptFlags TRD_EXTENDED

/-- The method `EquitySpec::IsOutOfSeq`. -/
def IsOutOfSeq (trd : EQTrade) : Bool := _IsSet trd._rptFlags TRD_OUTOFSEQ

/-- The method `EquitySpec::IsEligible( trd, bExt )`: the three `switch` statements, then the
report flags. -/
def IsEligible (trd : EQTrade) (bExt : Bool) : Bool :=
  let bInElig := false
  let bInElig :=
    if trd._setlType = 2 ∨ trd._setlType = 3 ∨ trd._setlType = 4 then true else bInElig
  let bInElig := if trd._rptType = 6 then true else bInElig
  let bInElig :=
    if trd._rptDetail = 2 ∨ trd._rptDetail = 3 ∨ trd._rptDetail = 7 ∨ trd._rptDetail = 9 ∨
        trd._rptDetail = 11 then true
    else bInElig
  let bInElig := bInElig || IsOddLot trd
  let bInElig := bInElig || IsOutOfSeq trd
  let bInElig := if !bExt then bInElig || IsExtended trd else bInElig
  !bInElig

/-- The method `EQTrade::IsEligible` of `hpp/EQTrade.hpp`. -/
def EQTrade.IsEligible (trd : EQTrade) : Bool := QuoddFeed.IsEligible trd false

/-- The method `EQTrade::IsEligibleExtended` of `hpp/EQTrade.hpp`. -/
def EQTrade.IsEligibleExtended (trd : EQTrade) : Bool := QuoddFeed.IsEligible trd true

/-- The bit pattern `msk & ~bit` of a 32-bit `int`: the mask with the bits of `bit` cleared. -/
def clearFlag (msk bit : Nat) : Nat := msk &&& (0xFFFFFFFF ^^^ bit)

/-- The vector `v` of `EquitySpec::EligibilityFlags` after the fifteen tests of the bitmask. -/
def eligibilityVector (elg : Nat) : List String :=
  let v : List String := []
  let v := if _IsSet elg eligibleConsVolume then v ++ ["ConsVolume"] else v
  let v := if _IsSet elg eligibleConsLast then v ++ ["ConsLast"] else v
  let v := if _IsSet elg eligibleConsHighLow then v ++ ["ConsHighLow"] else v
  let v := if _IsSet elg eligiblePartVolume then v ++ ["PartVolume"] else v
  let v := if _IsSet elg eligiblePartLast then v ++ ["PartLast"] else v
  let v := if _IsSet elg eligiblePartHighLow then v ++ ["PartHighLow"] else v
  let v := if _IsSet elg eligiblePartOpen then v ++ ["PartOpen"] else v
  let v := if _IsSet elg eligiblePartClose then v ++ ["PartClose"] else v
  let v := if _IsSet elg changedConsLast then v ++ ["changedConsLast"] else v
  let v := if _IsSet elg changedConsLow then v ++ ["changedConsLow"] else v
  let v := if _IsSet elg changedConsHigh then v ++ ["changedConsHigh"] else v
  let v := if _IsSet elg changedPartLast then v ++ ["changedPartLast"] else v
  let v := if _IsSet elg changedPartLow then v ++ ["changedPartLow"] else v
  let v := if _IsSet elg changedPartHigh then v ++ ["changedPartHigh"] else v
  let v := if _IsSet elg changedPartOpen then v ++ ["changedPartOpen"] else v
  v

/-- The loop `for ( i=0; i<n; i++ ) { rtn += ( i>0 ) ? "," : ""; rtn += v[i]; }` from the
index `i`, over the entries of `v` from `i` on. -/
def joinLoop : List String → Nat → String → String
  | [], _, rtn => rtn
  | x :: rest, i, rtn => joinLoop rest (i + 1) ((rtn ++ (if i > 0 then "," else "")) ++ x)

/-- The method `EquitySpec::EligibilityFlags`; `_rtn` is what the output string held. -/
def EligibilityFlags (trd : EQTrade) (_rtn : String) : String :=
  let elg := trd._eligFlags
  let v := eligibilityVector elg
  let rtn := ""
  joinLoop v 0 rtn

/-- The eligibility flags of Appendix D in ascending bit order, each with its name. -/
def eligibilityTable : List (Nat × String) :=
  [(0x0001, "ConsVolume"), (0x0002, "ConsLast"), (0x0004, "ConsHighLow"),
   (0x0008, "PartVolume"), (0x0010, "PartLast"), (0x0020, "PartHighLow"),
   (0x0040, "PartOpen"), (0x0080, "PartClose"), (0x0100, "changedConsLast"),
   (0x0200, "changedConsLow"), (0x0400, "changedConsHigh"), (0x0800, "changedPartLast"),
   (0x1000, "changedPartLow"), (0x2000, "changedPartHigh"), (0x4000, "changedPartOpen")]

/-- The names of the flags of a table that are set in a bitmask, in the order of the table: a
flag is set when the bitmask and the flag have a bit in common. -/
def setFlagNames (table : List (Nat × String)) (msk : Nat) : List String :=
  (table.filter (fun p => msk &&& p.1 != 0)).map (fun p => p.2)

/-- The vector after the tests `if ( _IsSet( msk, bit ) ) v.push_back( name )` for the entries
of a table, in order. -/
def pushSetFlags (table : List (Nat × String)) (msk : Nat) (v : List String) : List String :=
  table.foldl (fun v p => if _IsSet msk p.1 then v ++ [p.2] else v) v

/-- The members of the struct `EQBbo` of `Messages.h` that are of an integer type; the header,
the prices and the market centers are not read by the functions below. -/
structure EQBbo where
  _bidSize : Int
  _askSize : Int
  _luldFlags : Nat
  _cond : Char
  _flags : Nat
  deriving DecidableEq, Repr

/-- The helper `EquitySpec::_LimitUpDown`. -/
def _LimitUpDown (flags : Nat) : String :=
  let bExec := _IsSet flags LULD_EXECUTABLE
  let bBidLT := _IsSet flags LULD_BID_NONEX
  let bBidEQ := _IsSet flags LULD_BID_LIMIT
  let bAskGT := _IsSet flags LULD_ASK_NONEX
  let bAskEQ := _IsSet flags LULD_ASK_LIMIT
  if bExec then "A"
  else if bBidLT then
    if bAskGT then "D"
    else if bAskEQ then "H"
    else "B"
  else if bBidEQ then
    if bAskGT then "G"
    else if bAskEQ then "I"
    else "E"
  else if bAskGT then "C"
  else if bAskEQ then "F"
  else " "

/-- The method `EquitySpec::LimitUpDown`. -/
def LimitUpDown (bbo : EQBbo) : String := _LimitUpDown bbo._luldFlags

/-- The method `EquitySpec::LimitUpDownR`. -/
def LimitUpDownR (bbo : EQBbo) : String :=
  let flags : Nat := 0
  let flags := if _IsSet bbo._flags R_LULD_BID_NONEX then flags ||| LULD_BID_NONEX else flags
  let flags := if _IsSet bbo._flags R_LULD_BID_LIMIT then flags ||| LULD_BID_LIMIT else flags
  let flags := if _IsSet bbo._flags R_LULD_ASK_NONEX then flags ||| LULD_ASK_NONEX else flags
  let flags := if _IsSet bbo._flags R_LULD_ASK_LIMIT then flags ||| LULD_ASK_LIMIT else flags
  let flags := if flags = 0 then LULD_EXECUTABLE else flags
  _LimitUpDown flags

/-- The method `EQBbo::LimitUpDown` of `hpp/EQBbo.hpp`. -/
def EQBbo.LimitUpDown (bbo : EQBbo) : String := QuoddFeed.LimitUpDown bbo

/-- The method `EQBbo::LimitUpDownR` of `hpp/EQBbo.hpp`. -/
def EQBbo.LimitUpDownR (bbo : EQBbo) : String := QuoddFeed.LimitUpDownR bbo

/-- A quote with the given Limit Up / Down flags and quote flags, and nothing else set. -/
def bboWithFlags (luldFlags flags : Nat) : EQBbo :=
  { _bidSize := 0, _askSize := 0, _luldFlags := luldFlags, _cond := ' ', _flags := flags }

/-- The futures ticker `/<body><M><y0><y1>`, from its body, the byte of the month code and the
digits of the year. -/
def futuresTicker (body : List Char) (cm : Char) (y0 y1 : Nat) : String :=
  String.mk (Char.ofNat 0x2f :: body ++ [cm, digitChar y0, digitChar y1])

/-! ## hpp/Enum/BondSpec.hpp -/

/-! Appx A - Quote Flags -/

def QTE_BENCHMARK : Nat := 0x0001
def QTE_DELETED : Nat := 0x0002
def QTE_NONTRADE : Nat := 0x0004
def QTE_CLOSING : Nat := 0x0008
def QTE_OPENING : Nat := 0x0010
def QTE_SLOWBID : Nat := 0x0020
def QTE_SLOWASK : Nat := 0x0040
def QTE_LRP : Nat := 0x0080
def QTE_FLATPRICE : Nat := 0x0100
def QTE_NONFIRM : Nat := 0x0200
def QTE_SLOWLIST : Nat := 0x0400

/-- The members of the struct `BONDQuote` of `Messages.h` that are of an integer type; the
header, the prices, the yields and the market center are left out. -/
structure BONDQuote where
  _bidSize : Int
  _askSize : Int
  _qteCond : Int
  _qteFlags : Nat
  _sessionId : Nat
  deriving DecidableEq, Repr

/-- The vector `v` of `BondSpec::QuoteFlags` after the eleven tests of the local `flg`. -/
def quoteFlagsVector (flg : Nat) : List String :=
  let v : List String := []
  let v := if _IsSet flg QTE_BENCHMARK then v ++ ["Benchmark"] else v
  let v := if _IsSet flg QTE_DELETED then v ++ ["Deleted"] else v
  let v := if _IsSet flg QTE_NONTRADE then v ++ ["NonTradable"] else v
  let v := if _IsSet flg QTE_CLOSING then v ++ ["Closing"] else v
  let v := if _IsSet flg QTE_OPENING then v ++ ["Opening"] else v
  let v := if _IsSet flg QTE_SLOWBID then v ++ ["SlowBid"] else v
  let v := if _IsSet flg QTE_SLOWASK then v ++ ["SlowAsk"] else v
  let v := if _IsSet flg QTE_LRP then v ++ ["LRP"] else v
  let v := if _IsSet flg QTE_FLATPRICE then v ++ ["FlatPricing"] else v
  let v := if _IsSet flg QTE_NONFIRM then v ++ ["NonFirm"] else v
  let v := if _IsSet flg QTE_SLOWLIST then v ++ ["SlowList"] else v
  v

/-- The method `BondSpec::QuoteFlags( qte, rtn )`. The source declares the local `int flg`
without an initialiser and never assigns it: the eleven tests read its indeterminate value,
which is the first argument here, and no member of `qte` is read. -/
def QuoteFlags (flg : Nat) (_qte : BONDQuote) (_rtn : String) : String :=
  let v := quoteFlagsVector flg
  let rtn := ""
  joinLoop v 0 rtn

/-- The method `BONDQuote::QuoteFlags` of `hpp/BONDQuote.hpp`, with the indeterminate value of
the local `flg` of `BondSpec::QuoteFlags` and the member `_rtn` of the wrapper. -/
def BONDQuote.QuoteFlags (flg : Nat) (qte : BONDQuote) (_rtn : String) : String :=
  QuoddFeed.QuoteFlags flg qte _rtn

/-- The quote flags of Appendix A in ascending bit order, each with its name. -/
def quoteFlagTable : List (Nat × String) :=
  [(0x0001, "Benchmark"), (0x0002, "Deleted"), (0x0004, "NonTradable"), (0x0008, "Closing"),
   (0x0010, "Opening"), (0x0020, "SlowBid"), (0x0040, "SlowAsk"), (0x0080, "LRP"),
   (0x0100, "FlatPricing"), (0x0200, "NonFirm"), (0x0400, "SlowList")]

/-- A bond quote with the given quote flags, and nothing else set. -/
def quoteWithFlags (qteFlags : Nat) : BONDQuote :=
  { _bidSize := 0, _askSize := 0, _qteCond := 0, _qteFlags := qteFlags, _sessionId := 0 }

end QuoddFeed

/-! # Theorems -/

namespace Reactor

/-! ## Channel slots: reset, validity, setup state -/

theorem applyResets_pParentReactor (ext : Externs) (calls : List ResetCall)
    (ch : RsslReactorChannelImpl) :
    (applyResets ext calls ch).pParentReactor = ch.pParentReactor := by
  induction calls generalizing ch with
  | nil => rfl
  | cons c cs ih =>
    have step : (ResetCall.apply ext ch c).pParentReactor = ch.pParentReactor := by
      cases c <;> rfl
    simpa [applyResets, List.foldl_cons, step] using ih (ResetCall.apply ext ch c)

/-- The members `rsslResetReactorChannel` never assigns keep what the slot held. -/
theorem rsslResetReactorChannel_keeps (ext : Externs) (pReactorImpl : Nat)
    (ch : RsslReactorChannelImpl) :
    (rsslResetReactorChannel ext pReactorImpl ch).pParentReactor = ch.pParentReactor ∧
    (rsslResetReactorChannel ext pReactorImpl ch).initializationTimeout =
      ch.initializationTimeout ∧
    (rsslResetReactorChannel ext pReactorImpl ch).initializationStartTimeMs =
      ch.initializationStartTimeMs ∧
    (rsslResetReactorChannel ext pReactorImpl ch).eventQueue = ch.eventQueue ∧
    (rsslResetReactorChannel ext pReactorImpl ch).pNotifierEvent = ch.pNotifierEvent ∧
    (rsslResetReactorChannel ext pReactorImpl ch).pWatchlist = ch.pWatchlist ∧
    (rsslResetReactorChannel ext pReactorImpl ch).wlDispatchEventQueued =
      ch.wlDispatchEventQueued ∧
    (rsslResetReactorChannel ext pReactorImpl ch).tunnelDispatchEventQueued =
      ch.tunnelDispatchEventQueued ∧
    (rsslResetReactorChannel ext pReactorImpl ch).rdmMsg = ch.rdmMsg ∧
    (rsslResetReactorChannel ext pReactorImpl ch).rwfFldStreamId = ch.rwfFldStreamId ∧
    (rsslResetReactorChannel ext pReactorImpl ch).rwfEnumStreamId = ch.rwfEnumStreamId ∧
    (rsslResetReactorChannel ext pReactorImpl ch).lastPingSentMs = ch.lastPingSentMs ∧
    (rsslResetReactorChannel ext pReactorImpl ch).channelWorkerCerr = ch.channelWorkerCerr ∧
    (rsslResetReactorChannel ext pReactorImpl ch).lastRequestedExpireTime =
      ch.lastRequestedExpireTime ∧
    (rsslResetReactorChannel ext pReactorImpl ch).nextExpireTime = ch.nextExpireTime ∧
    (rsslResetReactorChannel ext pReactorImpl ch).pWorkerNotifierEvent =
      ch.pWorkerNotifierEvent ∧
    (rsslResetReactorChannel ext pReactorImpl ch).reconnectMinDelay = ch.reconnectMinDelay ∧
    (rsslResetReactorChannel ext pReactorImpl ch).reconnectMaxDelay = ch.reconnectMaxDelay ∧
    (rsslResetReactorChannel ext pReactorImpl ch).reconnectDelay = ch.reconnectDelay ∧
    (rsslResetReactorChannel ext pReactorImpl ch).reconnectAttemptLimit =
      ch.reconnectAttemptLimit ∧
    (rsslResetReactorChannel ext pReactorImpl ch).pTunnelManager = ch.pTunnelManager ∧
    (rsslResetReactorChannel ext pReactorImpl ch).httpStausCode = ch.httpStausCode ∧
    (rsslResetReactorChannel ext pReactorImpl ch).userName = ch.userName ∧
    (rsslResetReactorChannel ext pReactorImpl ch).flags = ch.flags ∧
    (rsslResetReactorChannel ext pReactorImpl ch).userNameType = ch.userNameType :=
  ⟨rfl, rfl, rfl, rfl, rfl, rfl, rfl, rfl, rfl, rfl, rfl, rfl, rfl, rfl, rfl, rfl, rfl, rfl, rfl,
    rfl, rfl, rfl, rfl, rfl, rfl⟩

/-- C1, at the used slot: `rsslResetReactorChannel` leaves the reconnection settings, the
initialization timeout and the timers of the previous connection in the slot, so the result is
not the blank template and depends on the previous contents of the slot. -/
theorem rsslResetReactorChannel_usedSlot (ext : Externs) :
    (rsslResetReactorChannel ext 7 (usedSlot ext)).reconnectDelay = 4000 ∧
    (rsslResetReactorChannel ext 7 (usedSlot ext)).reconnectMinDelay = 1000 ∧
    (rsslResetReactorChannel ext 7 (usedSlot ext)).reconnectMaxDelay = 8000 ∧
    (rsslResetReactorChannel ext 7 (usedSlot ext)).reconnectAttemptLimit = 3 ∧
    (rsslResetReactorChannel ext 7 (usedSlot ext)).initializationTimeout = 60 ∧
    (rsslResetReactorChannel ext 7 (usedSlot ext)).lastPingSentMs = 12000 ∧
    (rsslResetReactorChannel ext 7 (usedSlot ext)).nextExpireTime = 12500 ∧
    (rsslResetReactorChannel ext 7 (usedSlot ext)).lastRequestedExpireTime = 12500 ∧
    (blankTemplate ext 7).reconnectDelay = 0 ∧
    (blankTemplate ext 7).nextExpireTime = RCIMPL_TIMER_UNSET ∧
    rsslResetReactorChannel ext 7 (usedSlot ext) ≠ blankTemplate ext 7 ∧
    rsslResetReactorChannel ext 7 (usedSlot ext) ≠
      rsslResetReactorChannel ext 7 (blankTemplate ext 7) := by
  refine ⟨rfl, rfl, rfl, rfl, rfl, rfl, rfl, rfl, rfl, rfl, ?_, ?_⟩
  · intro h
    have h1 : (4000 : Int) = 0 := congrArg RsslReactorChannelImpl.reconnectDelay h
    exact absurd h1 (by decide)
  · intro h
    have h1 : (4000 : Int) = 0 := congrArg RsslReactorChannelImpl.reconnectDelay h
    exact absurd h1 (by decide)

/-- C2: `rsslReactorChannelIsValid` accepts a channel exactly for the reactor in its
`pParentReactor`; a refusal sets the error record to `RSSL_RET_FAILURE` with the text
"Invalid channel.", an acceptance leaves the record as it was; and after
`rsslClearReactorChannelImpl` for reactor `R`, followed by any reset calls, the channel is valid
for `R` and for no other reactor. -/
theorem rsslReactorChannelIsValid_owner (ext : Externs) (R R2 : Nat)
    (ch slot : RsslReactorChannelImpl) (err : RsslErrorInfo) (calls : List ResetCall) :
    ((rsslReactorChannelIsValid ext R2 ch err).1 = true ↔ ch.pParentReactor = R2) ∧
    ((rsslReactorChannelIsValid ext R2 ch err).1 = false →
      (rsslReactorChannelIsValid ext R2 ch err).2 =
          rsslSetErrorInfo err ext.RSSL_EIC_FAILURE RsslRet.RSSL_RET_FAILURE ext.sourceFile 399
            "Invalid channel." ∧
        (rsslReactorChannelIsValid ext R2 ch err).2.rsslErrorId = RsslRet.RSSL_RET_FAILURE ∧
        (rsslReactorChannelIsValid ext R2 ch err).2.text = "Invalid channel.") ∧
    ((rsslReactorChannelIsValid ext R2 ch err).1 = true →
      (rsslReactorChannelIsValid ext R2 ch err).2 = err) ∧
    (rsslReactorChannelIsValid ext R
      (applyResets ext calls (rsslClearReactorChannelImpl R slot)) err).1 = true ∧
    (∀ R3, R3 ≠ R → (rsslReactorChannelIsValid ext R3
      (applyResets ext calls (rsslClearReactorChannelImpl R slot)) err).1 = false) := by
  have key : ∀ (r : Nat) (c : RsslReactorChannelImpl),
      (rsslReactorChannelIsValid ext r c err).1 = decide (c.pParentReactor = r) := by
    intro r c
    unfold rsslReactorChannelIsValid
    by_cases h : c.pParentReactor = r <;> simp [h]
  have parent : (applyResets ext calls (rsslClearReactorChannelImpl R slot)).pParentReactor = R :=
    applyResets_pParentReactor ext calls _
  refine ⟨?_, ?_, ?_, ?_, ?_⟩
  · rw [key]; simp
  · intro h
    rw [key] at h
    have hne : ¬ ch.pParentReactor = R2 := by simpa using h
    unfold rsslReactorChannelIsValid
    simp [hne, rsslSetErrorInfo]
  · intro h
    rw [key] at h
    have heq : ch.pParentReactor = R2 := by simpa using h
    unfold rsslReactorChannelIsValid
    simp [heq]
  · rw [key, parent]; simp
  · intro R3 h3
    rw [key, parent]
    simpa using fun h => h3 h.symm

/-- A use of `rsslReactorChannelIsValid_owner`: a channel cleared for reactor 7, fully reset and
then state-reset with other reactors as arguments, is refused for reactor 8 with the text
"Invalid channel." and accepted for reactor 7. -/
theorem rsslReactorChannelIsValid_owner_witness :
    (rsslReactorChannelIsValid sampleExterns 8
        (rsslClearReactorChannelImpl 7 RsslReactorChannelImpl.zeroed)
        ⟨0, RsslRet.RSSL_RET_SUCCESS, ("", 0), "", 0⟩).2.text = "Invalid channel." ∧
    (rsslReactorChannelIsValid sampleExterns 7
        (applyResets sampleExterns [ResetCall.resetChannel 8, ResetCall.resetChannelState 9]
          (rsslClearReactorChannelImpl 7 RsslReactorChannelImpl.zeroed))
        ⟨0, RsslRet.RSSL_RET_SUCCESS, ("", 0), "", 0⟩).1 = true :=
  ⟨((rsslReactorChannelIsValid_owner sampleExterns 7 8
      (rsslClearReactorChannelImpl 7 RsslReactorChannelImpl.zeroed) RsslReactorChannelImpl.zeroed
      ⟨0, RsslRet.RSSL_RET_SUCCESS, ("", 0), "", 0⟩
      [ResetCall.resetChannel 8, ResetCall.resetChannelState 9]).2.1 (by decide)).2.2,
   (rsslReactorChannelIsValid_owner sampleExterns 7 8
      (rsslClearReactorChannelImpl 7 RsslReactorChannelImpl.zeroed) RsslReactorChannelImpl.zeroed
      ⟨0, RsslRet.RSSL_RET_SUCCESS, ("", 0), "", 0⟩
      [ResetCall.resetChannel 8, ResetCall.resetChannelState 9]).2.2.2.1⟩

/-- C7: whatever the channel state, `rsslResetReactorChannelState` leaves the setup state at
`RSSL_RC_CHST_INIT`, no flush request, the ping read time and the two return codes at zero, and
no write-call-again buffer. -/
theorem rsslResetReactorChannelState_init (pReactorImpl : Nat) (ch : RsslReactorChannelImpl) :
    (rsslResetReactorChannelState pReactorImpl ch).channelSetupState = RSSL_RC_CHST_INIT ∧
    (rsslResetReactorChannelState pReactorImpl ch).requestedFlush = false ∧
    (rsslResetReactorChannelState pReactorImpl ch).lastPingReadMs = 0 ∧
    (rsslResetReactorChannelState pReactorImpl ch).readRet = 0 ∧
    (rsslResetReactorChannelState pReactorImpl ch).writeRet = 0 ∧
    (rsslResetReactorChannelState pReactorImpl ch).pWriteCallAgainBuffer = 0 :=
  ⟨rfl, rfl, rfl, rfl, rfl, rfl⟩

/-! ## The copy of the connection list -/

theorem AllOk.empty (ok : Nat → Bool) (a : Nat) : AllOk ok a a :=
  fun _ h1 h2 => absurd (Nat.lt_of_le_of_lt h1 h2) (Nat.lt_irrefl _)

theorem AllOk.one (ok : Nat → Bool) (a : Nat) : AllOk ok a (a + 1) ↔ ok a = true := by
  constructor
  · intro h; exact h a (Nat.le_refl _) (Nat.lt_succ_self _)
  · intro h k h1 h2
    have : k = a := by omega
    rw [this]; exact h

theorem AllOk.append (ok : Nat → Bool) {a b c : Nat} (hab : a ≤ b) (hbc : b ≤ c) :
    AllOk ok a c ↔ AllOk ok a b ∧ AllOk ok b c := by
  constructor
  · intro h
    exact ⟨fun k h1 h2 => h k h1 (by omega), fun k h1 h2 => h k (by omega) h2⟩
  · rintro ⟨h1, h2⟩ k hk1 hk2
    by_cases hkb : k < b
    · exact h1 k hk1 hkb
    · exact h2 k (by omega) hk2

theorem strlen_isSome (bs : List Nat) (h : 0 ∈ bs) : ∃ n, strlen bs = some n := by
  induction bs with
  | nil => exact absurd h (List.not_mem_nil 0)
  | cons b bs ih =>
    by_cases hb : b = 0
    · exact ⟨0, by simp [strlen, hb]⟩
    · have h2 : 0 ∈ bs := by
        rcases List.mem_cons.mp h with h1 | h1
        · exact absurd h1.symm hb
        · exact h1
      obtain ⟨n, hn⟩ := ih h2
      exact ⟨n + 1, by simp [strlen, hb, hn]⟩

theorem cString_cons_zero (bs : List Nat) : cString (0 :: bs) = [] := by
  simp [cString]

theorem cString_cons_ne (b : Nat) (bs : List Nat) (h : b ≠ 0) :
    cString (b :: bs) = b :: cString bs := by
  simp [cString, List.takeWhile_cons, h]

theorem strlen_eq_length_cString (bs : List Nat) (n : Nat) (h : strlen bs = some n) :
    (cString bs).length = n := by
  induction bs generalizing n with
  | nil => simp [strlen] at h
  | cons b bs ih =>
    by_cases hb : b = 0
    · subst hb
      simp only [strlen, if_true, Option.some.injEq] at h
      rw [cString_cons_zero, ← h, List.length_nil]
    · simp only [strlen, hb, if_false] at h
      cases hs : strlen bs with
      | none => simp [hs] at h
      | some m =>
        simp [hs] at h
        rw [cString_cons_ne b bs hb, List.length_cons, ih m hs, h]

/-- The block `malloc`, `memset` and `strncpy` leave for a copy of `length` bytes of a string
that is at least that long: the first `length` bytes of the string and one more byte, the zero
byte `memset` wrote unless its size wrapped to 0. -/
theorem copiedBlock (ext : Externs) (k : Nat) (bytes : List Nat) (length : Nat)
    (h : length ≤ (cString bytes).length) (h32 : length < 2 ^ 32) :
    strncpy (memset (mallocBlock ext k (length + 1)) 0 ((length + 1) % 2 ^ 32)) bytes length =
      (cString bytes).take length ++
        [if length + 1 < 2 ^ 32 then 0 else ext.mallocByte k length] := by
  have h0 : length - (cString bytes).length = 0 := Nat.sub_eq_zero_of_le h
  have hdrop : (mallocBlock ext k (length + 1)).drop length = [ext.mallocByte k length] := by
    unfold mallocBlock
    rw [List.range_succ, List.map_append, List.drop_left' (by simp)]
    rfl
  unfold strncpy
  rw [h0, List.replicate_zero, List.append_nil]
  congr 1
  unfold memset
  by_cases hlt : length + 1 < 2 ^ 32
  · rw [if_pos hlt, Nat.mod_eq_of_lt hlt]
    have hnil : (mallocBlock ext k (length + 1)).drop (length + 1) = [] := by
      apply List.drop_eq_nil_of_le
      simp [mallocBlock]
    rw [hnil, List.append_nil, List.drop_replicate]
    simp
  · have heq : length + 1 = 2 ^ 32 := by omega
    rw [if_neg hlt, heq, Nat.mod_self, List.replicate_zero, List.nil_append, List.drop_zero,
      ← heq]
    exact hdrop

theorem copyEntrySettings_calls (ok : Nat → Bool) (src : RsslReactorConnectInfo)
    (entry : RsslReactorConnectInfoImpl) (m : Bool) (calls : Nat) :
    (copyEntrySettings ok src entry m calls).2.2 = calls + 1 := by
  unfold copyEntrySettings
  by_cases h : ok calls = true <;> simp [h]

theorem copyEntrySettings_isSome (ok : Nat → Bool) (src : RsslReactorConnectInfo)
    (entry : RsslReactorConnectInfoImpl) (m : Bool) (calls : Nat) :
    (copyEntrySettings ok src entry m calls).1.isSome = true ↔ ok calls = true := by
  unfold copyEntrySettings
  by_cases h : ok calls = true <;> simp [h]

theorem copyEntrySettings_some (ok : Nat → Bool) (src : RsslReactorConnectInfo)
    (entry s : RsslReactorConnectInfoImpl) (m : Bool) (calls : Nat)
    (h : (copyEntrySettings ok src entry m calls).1 = some s) :
    s.base.initializationTimeout = src.initializationTimeout ∧
    s.base.enableSessionManagement = src.enableSessionManagement ∧
    s.base.pAuthTokenEventCallback = src.pAuthTokenEventCallback ∧
    s.base.rsslConnectOptions = src.rsslConnectOptions ∧
    s.base.location = entry.base.location := by
  unfold copyEntrySettings at h
  by_cases hok : ok calls = true
  · simp only [hok, if_true, Option.some.injEq] at h
    subst h
    exact ⟨rfl, rfl, rfl, rfl, rfl⟩
  · simp [hok] at h

/-- One turn of the loop makes one or two calls, stores an entry exactly when they all succeed,
and the entry it stores is the copy of the caller's. -/
theorem copyEntry_spec (ext : Externs) (ok : Nat → Bool) (src : RsslReactorConnectInfo)
    (m : Bool) (calls : Nat) (res : Option RsslReactorConnectInfoImpl) (m1 : Bool) (calls1 : Nat)
    (h : copyEntry ext ok src m calls = some (res, m1, calls1)) :
    calls < calls1 ∧ (res.isSome = true ↔ AllOk ok calls calls1) ∧
      ∀ s, res = some s → StoredFrom ext src s := by
  unfold copyEntry at h
  by_cases hsm : src.enableSessionManagement = true
  · simp only [hsm, if_true] at h
    cases hdata : src.location.data with
    | none => simp [hdata] at h
    | some bytes =>
      simp only [hdata] at h
      cases hlen : strlen bytes with
      | none => simp [hlen] at h
      | some n =>
        simp only [hlen] at h
        by_cases hok : ok calls = true
        · simp only [hok, if_true, Option.some.injEq] at h
          have hc := copyEntrySettings_calls ok src
            { rsslClearReactorConnectInfoImpl ext with
              base := { (rsslClearReactorConnectInfoImpl ext).base with
                location := ⟨n % 2 ^ 32,
                  some (strncpy (memset (mallocBlock ext calls (n % 2 ^ 32 + 1)) 0
                    ((n % 2 ^ 32 + 1) % 2 ^ 32)) bytes (n % 2 ^ 32))⟩ } }
            m (calls + 1)
          have hs := copyEntrySettings_isSome ok src
            { rsslClearReactorConnectInfoImpl ext with
              base := { (rsslClearReactorConnectInfoImpl ext).base with
                location := ⟨n % 2 ^ 32,
                  some (strncpy (memset (mallocBlock ext calls (n % 2 ^ 32 + 1)) 0
                    ((n % 2 ^ 32 + 1) % 2 ^ 32)) bytes (n % 2 ^ 32))⟩ } }
            m (calls + 1)
          have hv := copyEntrySettings_some ok src
            { rsslClearReactorConnectInfoImpl ext with
              base := { (rsslClearReactorConnectInfoImpl ext).base with
                location := ⟨n % 2 ^ 32,
                  some (strncpy (memset (mallocBlock ext calls (n % 2 ^ 32 + 1)) 0
                    ((n % 2 ^ 32 + 1) % 2 ^ 32)) bytes (n % 2 ^ 32))⟩ } }
          rw [h] at hc hs
          simp only at hc hs
          refine ⟨by omega, ?_, ?_⟩
          · rw [hs, hc, AllOk.append ok (Nat.le_succ calls) (Nat.le_succ (calls + 1)),
              AllOk.one, AllOk.one]
            simp [hok]
          · intro s hres
            have hv2 := hv s m (calls + 1) (by rw [h]; exact hres)
            obtain ⟨h1, h2, h3, h4, h5⟩ := hv2
            refine ⟨h1, h2, h3, h4, ?_, ?_⟩
            · intro _
              refine ⟨bytes, n, _, calls, hdata, hlen, h5, ?_⟩
              apply copiedBlock
              · rw [strlen_eq_length_cString bytes n hlen]
                exact Nat.mod_le _ _
              · exact Nat.mod_lt _ (by decide)
            · intro hf
              rw [hsm] at hf
              exact absurd hf (by decide)
        · simp only [hok, Bool.false_eq_true, if_false, Option.some.injEq, Prod.mk.injEq] at h
          obtain ⟨h1, _, h3⟩ := h
          subst h1 h3
          refine ⟨by omega, ?_, ?_⟩
          · rw [AllOk.one]
            simp [hok]
          · intro s hs
            exact absurd hs (by simp)
  · simp only [hsm, Bool.false_eq_true, if_false, Option.some.injEq] at h
    have hc := copyEntrySettings_calls ok src
      { rsslClearReactorConnectInfoImpl ext with
        base := { (rsslClearReactorConnectInfoImpl ext).base with location := rsslClearBuffer } }
      m calls
    have hs := copyEntrySettings_isSome ok src
      { rsslClearReactorConnectInfoImpl ext with
        base := { (rsslClearReactorConnectInfoImpl ext).base with location := rsslClearBuffer } }
      m calls
    have hv := copyEntrySettings_some ok src
      { rsslClearReactorConnectInfoImpl ext with
        base := { (rsslClearReactorConnectInfoImpl ext).base with location := rsslClearBuffer } }
    rw [h] at hc hs
    simp only at hc hs
    refine ⟨by omega, ?_, ?_⟩
    · rw [hs, hc, AllOk.one]
    · intro s hres
      obtain ⟨h1, h2, h3, h4, h5⟩ := hv s m calls (by rw [h]; exact hres)
      refine ⟨h1, h2, h3, h4, ?_, ?_⟩
      · intro ht
        exact absurd ht hsm
      · intro _
        exact h5

/-- A readable entry is copied without a read through `NULL` or past a block. -/
theorem copyEntry_defined (ext : Externs) (ok : Nat → Bool) (src : RsslReactorConnectInfo)
    (m : Bool) (calls : Nat) (hr : readableEntry src = true) :
    ∃ r, copyEntry ext ok src m calls = some r := by
  unfold copyEntry
  by_cases hsm : src.enableSessionManagement = true
  · simp only [hsm, if_true]
    unfold readableEntry at hr
    cases hdata : src.location.data with
    | none => simp [hsm, hdata] at hr
    | some bytes =>
      simp only [hsm, hdata, Bool.not_true, Bool.false_or, decide_eq_true_eq] at hr
      obtain ⟨n, hn⟩ := strlen_isSome bytes hr
      simp only [hn]
      by_cases hok : ok calls = true <;> simp [hok]
  · simp [hsm]

/-- The loop stores a list exactly when every call it makes succeeds; the list it stores extends
the entries stored before by one copy for each of the caller's entries, in order. -/
theorem copyLoop_spec (ext : Externs) (ok : Nat → Bool) (source : List RsslReactorConnectInfo) :
    ∀ (remaining i : Nat) (list : List RsslReactorConnectInfoImpl) (m : Bool) (calls : Nat)
      (res : Option (List RsslReactorConnectInfoImpl)) (m1 : Bool) (calls1 : Nat),
      copyLoop ext ok source remaining i list m calls = some (res, m1, calls1) →
      calls ≤ calls1 ∧ (res.isSome = true ↔ AllOk ok calls calls1) ∧
        ∀ l, res = some l → ∃ new, l = list ++ new ∧ new.length = remaining ∧
          ∀ j, j < remaining → ∃ e s, source[i + j]? = some e ∧ new[j]? = some s ∧
            StoredFrom ext e s := by
  intro remaining
  induction remaining with
  | zero =>
    intro i list m calls res m1 calls1 h
    simp only [copyLoop, Option.some.injEq, Prod.mk.injEq] at h
    obtain ⟨h1, _, h3⟩ := h
    subst h1 h3
    refine ⟨Nat.le_refl _, ?_, ?_⟩
    · simp [AllOk.empty]
    · intro l hl
      refine ⟨[], ?_, rfl, ?_⟩
      · simp only [Option.some.injEq] at hl
        simp [hl]
      · intro j hj
        exact absurd hj (Nat.not_lt_zero j)
  | succ r ih =>
    intro i list m calls res m1 calls1 h
    unfold copyLoop at h
    cases hsrc : source[i]? with
    | none => simp [hsrc] at h
    | some e =>
      simp only [hsrc] at h
      cases hce : copyEntry ext ok e m calls with
      | none => simp [hce] at h
      | some t =>
        obtain ⟨re, m2, c2⟩ := t
        obtain ⟨hlt, hiff, hst⟩ := copyEntry_spec ext ok e m calls re m2 c2 hce
        cases re with
        | none =>
          simp only [hce, Option.some.injEq, Prod.mk.injEq] at h
          obtain ⟨h1, _, h3⟩ := h
          subst h1 h3
          refine ⟨Nat.le_of_lt hlt, hiff, ?_⟩
          intro l hl
          exact absurd hl (by simp)
        | some entry =>
          simp only [hce] at h
          obtain ⟨hle, hiff2, hl2⟩ := ih (i + 1) (list ++ [entry]) m2 c2 res m1 calls1 h
          have hfirst : AllOk ok calls c2 := hiff.mp rfl
          refine ⟨by omega, ?_, ?_⟩
          · rw [hiff2, AllOk.append ok (Nat.le_of_lt hlt) hle]
            exact ⟨fun h2 => ⟨hfirst, h2⟩, fun h2 => h2.2⟩
          · intro l hl
            obtain ⟨new, hnew, hlen, hidx⟩ := hl2 l hl
            refine ⟨entry :: new, ?_, ?_, ?_⟩
            · rw [hnew, List.append_assoc, List.singleton_append]
            · rw [List.length_cons, hlen]
            · intro j hj
              cases j with
              | zero =>
                exact ⟨e, entry, by simpa using hsrc, by simp, hst entry rfl⟩
              | succ j =>
                obtain ⟨e2, s2, hs1, hs2, hs3⟩ := hidx j (by omega)
                refine ⟨e2, s2, ?_, ?_, hs3⟩
                · have : i + (j + 1) = i + 1 + j := by omega
                  rw [this]; exact hs1
                · simpa using hs2

/-- The loop over readable entries makes no read through `NULL` or past a block. -/
theorem copyLoop_defined (ext : Externs) (ok : Nat → Bool)
    (source : List RsslReactorConnectInfo) :
    ∀ (remaining i : Nat) (list : List RsslReactorConnectInfoImpl) (m : Bool) (calls : Nat),
      (∀ j, j < remaining → ∃ e, source[i + j]? = some e ∧ readableEntry e = true) →
      ∃ r, copyLoop ext ok source remaining i list m calls = some r := by
  intro remaining
  induction remaining with
  | zero =>
    intro i list m calls _
    exact ⟨_, rfl⟩
  | succ r ih =>
    intro i list m calls hread
    obtain ⟨e, he, hre⟩ := hread 0 (Nat.succ_pos r)
    obtain ⟨t, ht⟩ := copyEntry_defined ext ok e m calls hre
    obtain ⟨re, m2, c2⟩ := t
    unfold copyLoop
    have he2 : source[i]? = some e := by simpa using he
    simp only [he2, ht]
    cases re with
    | none => exact ⟨_, rfl⟩
    | some entry =>
      apply ih
      intro j hj
      obtain ⟨e3, h3, h4⟩ := hread (j + 1) (by omega)
      refine ⟨e3, ?_, h4⟩
      have : i + 1 + j = i + (j + 1) := by omega
      rw [this]; exact h3

theorem readableOptions_index (pOpts : RsslReactorConnectOptions)
    (h : readableOptions pOpts = true) :
    ∀ j, j < pOpts.connectionCount →
      ∃ e, pOpts.reactorConnectionList[0 + j]? = some e ∧ readableEntry e = true := by
  unfold readableOptions at h
  simp only [Bool.and_eq_true, decide_eq_true_eq, List.all_eq_true] at h
  obtain ⟨hlen, hall⟩ := h
  intro j hj
  have hj2 : j < pOpts.reactorConnectionList.length := Nat.lt_of_lt_of_le hj hlen
  refine ⟨pOpts.reactorConnectionList[j], ?_, ?_⟩
  · rw [Nat.zero_add]
    exact List.getElem?_eq_getElem hj2
  · apply hall
    rw [List.mem_take_iff_getElem]
    exact ⟨j, by omega, rfl⟩

theorem freeChannelStatistic_stat (ch : RsslReactorChannelImpl) :
    (freeChannelStatistic ch).pChannelStatistic = none := by
  unfold freeChannelStatistic
  cases h : ch.pChannelStatistic <;> simp [h]

theorem freeChannelStatistic_list (ch : RsslReactorChannelImpl) :
    (freeChannelStatistic ch).connectionOptList = ch.connectionOptList := by
  unfold freeChannelStatistic
  cases h : ch.pChannelStatistic <;> simp [h]

theorem or_eq_zero_iff_both (a b : Nat) : a ||| b = 0 ↔ a = 0 ∧ b = 0 := by
  constructor
  · intro h
    have key : ∀ i, a.testBit i = false ∧ b.testBit i = false := by
      intro i
      have h1 : (a ||| b).testBit i = false := by rw [h]; exact Nat.zero_testBit i
      rw [Nat.testBit_or] at h1
      exact Bool.or_eq_false_iff.mp h1
    constructor
    · apply Nat.eq_of_testBit_eq
      intro i
      rw [(key i).1, Nat.zero_testBit]
    · apply Nat.eq_of_testBit_eq
      intro i
      rw [(key i).2, Nat.zero_testBit]
  · rintro ⟨rfl, rfl⟩
    rfl

/-- The test of the statistic flags in the source holds exactly when one of the three flags is
set. -/
theorem statisticFlags_test (flags r w p : Nat) :
    flags &&& (r ||| w ||| p) ≠ 0 ↔ (flags &&& r ≠ 0 ∨ flags &&& w ≠ 0 ∨ flags &&& p ≠ 0) := by
  rw [Nat.and_or_distrib_left, Nat.and_or_distrib_left, Ne, or_eq_zero_iff_both,
    or_eq_zero_iff_both]
  tauto

theorem copyFailed_spec (ok : Nat → Bool) (ch : RsslReactorChannelImpl) (m : Bool)
    (calls calls1 : Nat) (hle : calls ≤ calls1) (hbad : ¬ AllOk ok calls calls1) :
    calls ≤ (copyFailed ch m calls1).calls ∧
    ((copyFailed ch m calls1).ret = RsslRet.RSSL_RET_SUCCESS ↔
      AllOk ok calls (copyFailed ch m calls1).calls) ∧
    ((copyFailed ch m calls1).ret ≠ RsslRet.RSSL_RET_SUCCESS →
      (copyFailed ch m calls1).ret = RsslRet.RSSL_RET_FAILURE ∧
        (copyFailed ch m calls1).channel.connectionOptList = none ∧
        (copyFailed ch m calls1).channel.pChannelStatistic = none) := by
  refine ⟨hle, ?_, ?_⟩
  · constructor
    · intro h
      exact absurd h (by simp [copyFailed])
    · intro h
      exact absurd h hbad
  · intro _
    refine ⟨rfl, ?_, ?_⟩
    · show (freeChannelStatistic _).connectionOptList = none
      rw [freeChannelStatistic_list]
    · exact freeChannelStatistic_stat _

/-- What the second half of `_rsslChannelCopyConnectionList` leaves. -/
theorem copyConnectionOptList_spec (ext : Externs) (ok : Nat → Bool)
    (ch : RsslReactorChannelImpl) (pOpts : RsslReactorConnectOptions) (m : Bool) (calls : Nat)
    (r : CopyResult) (h : copyConnectionOptList ext ok ch pOpts m calls = some r) :
    calls ≤ r.calls ∧
    (r.ret = RsslRet.RSSL_RET_SUCCESS ↔ AllOk ok calls r.calls) ∧
    (r.ret ≠ RsslRet.RSSL_RET_SUCCESS →
      r.ret = RsslRet.RSSL_RET_FAILURE ∧ r.channel.connectionOptList = none ∧
        r.channel.pChannelStatistic = none) ∧
    (r.ret = RsslRet.RSSL_RET_SUCCESS →
      r.channel.pChannelStatistic = ch.pChannelStatistic ∧
      r.channel.statisticFlags = ch.statisticFlags ∧
      (pOpts.connectionCount ≠ 0 →
        r.channel.connectionListCount = toInt32 pOpts.connectionCount ∧
        ∃ l, r.channel.connectionOptList = some l ∧ l.length = pOpts.connectionCount ∧
          ∀ j, j < pOpts.connectionCount → ∃ e s, pOpts.reactorConnectionList[j]? = some e ∧
            l[j]? = some s ∧ StoredFrom ext e s)) := by
  have failed : ∀ (m1 : Bool) (c1 : Nat), calls ≤ c1 → ¬ AllOk ok calls c1 →
      some (copyFailed ch m1 c1) = some r →
      calls ≤ r.calls ∧
      (r.ret = RsslRet.RSSL_RET_SUCCESS ↔ AllOk ok calls r.calls) ∧
      (r.ret ≠ RsslRet.RSSL_RET_SUCCESS →
        r.ret = RsslRet.RSSL_RET_FAILURE ∧ r.channel.connectionOptList = none ∧
          r.channel.pChannelStatistic = none) ∧
      (r.ret = RsslRet.RSSL_RET_SUCCESS →
        r.channel.pChannelStatistic = ch.pChannelStatistic ∧
        r.channel.statisticFlags = ch.statisticFlags ∧
        (pOpts.connectionCount ≠ 0 →
          r.channel.connectionListCount = toInt32 pOpts.connectionCount ∧
          ∃ l, r.channel.connectionOptList = some l ∧ l.length = pOpts.connectionCount ∧
            ∀ j, j < pOpts.connectionCount → ∃ e s, pOpts.reactorConnectionList[j]? = some e ∧
              l[j]? = some s ∧ StoredFrom ext e s)) := by
    intro m1 c1 hle hbad heq
    have hr : copyFailed ch m1 c1 = r := Option.some.inj heq
    subst hr
    obtain ⟨h1, h2, h3⟩ := copyFailed_spec ok ch m1 calls c1 hle hbad
    refine ⟨h1, h2, h3, ?_⟩
    intro hs
    exact absurd hs (by simp [copyFailed])
  have notOne : ok calls = false → ¬ AllOk ok calls (calls + 1) := by
    intro hf hall
    rw [AllOk.one, hf] at hall
    exact absurd hall (by decide)
  unfold copyConnectionOptList at h
  by_cases hcount : pOpts.connectionCount ≠ 0
  · rw [if_pos hcount] at h
    by_cases hok : ok calls = false
    · rw [if_pos hok] at h
      exact failed m (calls + 1) (Nat.le_succ _) (notOne hok) h
    · rw [if_neg hok] at h
      have hok1 : ok calls = true := by simpa using hok
      have hfirst : AllOk ok calls (calls + 1) := (AllOk.one ok calls).mpr hok1
      cases hloop : copyLoop ext ok pOpts.reactorConnectionList pOpts.connectionCount 0 [] false
          (calls + 1) with
      | none =>
        rw [hloop] at h
        exact absurd h (by simp)
      | some t =>
        obtain ⟨res, m1, c1⟩ := t
        obtain ⟨hle, hiff, hl⟩ := copyLoop_spec ext ok pOpts.reactorConnectionList
          pOpts.connectionCount 0 [] false (calls + 1) res m1 c1 hloop
        rw [hloop] at h
        cases res with
        | none =>
          refine failed m1 c1 (by omega) ?_ h
          intro hall
          have h2 := (AllOk.append ok (Nat.le_succ calls) hle).mp hall
          have h3 := hiff.mpr h2.2
          exact absurd h3 (by simp)
        | some l =>
          have hr := Option.some.inj h
          subst hr
          refine ⟨Nat.le_trans (Nat.le_succ calls) hle, ?_, ?_, ?_⟩
          · constructor
            · intro _
              exact (AllOk.append ok (Nat.le_succ calls) hle).mpr ⟨hfirst, hiff.mp rfl⟩
            · intro _
              rfl
          · intro hne
            exact absurd rfl hne
          · intro _
            refine ⟨rfl, rfl, fun _ => ⟨rfl, l, rfl, ?_⟩⟩
            obtain ⟨new, hnew, hlen, hidx⟩ := hl l rfl
            rw [List.nil_append] at hnew
            subst hnew
            refine ⟨hlen, ?_⟩
            intro j hj
            obtain ⟨e, s, h1, h2, h3⟩ := hidx j hj
            rw [Nat.zero_add] at h1
            exact ⟨e, s, h1, h2, h3⟩
  · rw [if_neg hcount] at h
    by_cases hok : ok calls = false
    · rw [if_pos hok] at h
      exact failed m (calls + 1) (Nat.le_succ _) (notOne hok) h
    · rw [if_neg hok] at h
      have hok1 : ok calls = true := by simpa using hok
      by_cases hok2 : ok (calls + 1) = false
      · simp only [if_pos hok2] at h
        refine failed m (calls + 2) (by omega) ?_ h
        intro hall
        have := hall (calls + 1) (Nat.le_succ _) (by omega)
        rw [hok2] at this
        exact absurd this (by decide)
      · simp only [if_neg hok2] at h
        have hok3 : ok (calls + 1) = true := by simpa using hok2
        have hr := Option.some.inj h
        subst hr
        refine ⟨by show calls ≤ calls + 2; omega, ?_, ?_, ?_⟩
        · constructor
          · intro _
            exact (AllOk.append ok (Nat.le_succ calls) (Nat.le_succ _)).mpr
              ⟨(AllOk.one ok calls).mpr hok1, (AllOk.one ok (calls + 1)).mpr hok3⟩
          · intro _
            rfl
        · intro hne
          exact absurd rfl hne
        · intro _
          exact ⟨rfl, rfl, fun hc => absurd hc hcount⟩

/-- The second half of `_rsslChannelCopyConnectionList` on readable options makes no read through
`NULL` or past a block. -/
theorem copyConnectionOptList_defined (ext : Externs) (ok : Nat → Bool)
    (ch : RsslReactorChannelImpl) (pOpts : RsslReactorConnectOptions) (m : Bool) (calls : Nat)
    (hread : readableOptions pOpts = true) :
    ∃ r, copyConnectionOptList ext ok ch pOpts m calls = some r := by
  unfold copyConnectionOptList
  by_cases hcount : pOpts.connectionCount ≠ 0
  · rw [if_pos hcount]
    by_cases hok : ok calls = false
    · rw [if_pos hok]
      exact ⟨_, rfl⟩
    · rw [if_neg hok]
      obtain ⟨t, ht⟩ := copyLoop_defined ext ok pOpts.reactorConnectionList pOpts.connectionCount 0
        [] false (calls + 1) (readableOptions_index pOpts hread)
      obtain ⟨res, m1, c1⟩ := t
      rw [ht]
      cases res with
      | none => exact ⟨_, rfl⟩
      | some l => exact ⟨_, rfl⟩
  · rw [if_neg hcount]
    by_cases hok : ok calls = false
    · rw [if_pos hok]
      exact ⟨_, rfl⟩
    · rw [if_neg hok]
      by_cases hok2 : ok (calls + 1) = false
      · simp only [if_pos hok2]
        exact ⟨_, rfl⟩
      · simp only [if_neg hok2]
        exact ⟨_, rfl⟩

/-- What `_rsslChannelCopyConnectionList` leaves, whenever it makes no read through `NULL` or past
a block. -/
theorem copyConnectionList_spec (ext : Externs) (ok : Nat → Bool)
    (ch : RsslReactorChannelImpl) (pOpts : RsslReactorConnectOptions) (m : Bool)
    (r : CopyResult) (h : _rsslChannelCopyConnectionList ext ok ch pOpts m = some r) :
    (r.ret = RsslRet.RSSL_RET_SUCCESS ↔ AllOk ok 0 r.calls) ∧
    (ch.connectionOptList = none → r.ret ≠ RsslRet.RSSL_RET_SUCCESS →
      r.ret = RsslRet.RSSL_RET_FAILURE ∧ r.channel.connectionOptList = none ∧
        r.channel.pChannelStatistic = none) ∧
    (r.ret = RsslRet.RSSL_RET_SUCCESS →
      (pOpts.statisticFlags &&&
          (ext.RSSL_RC_ST_READ ||| ext.RSSL_RC_ST_WRITE ||| ext.RSSL_RC_ST_PING) ≠ 0 →
        r.channel.pChannelStatistic = some ext.clearedChannelStatistic ∧
          r.channel.statisticFlags = pOpts.statisticFlags) ∧
      (¬ pOpts.statisticFlags &&&
          (ext.RSSL_RC_ST_READ ||| ext.RSSL_RC_ST_WRITE ||| ext.RSSL_RC_ST_PING) ≠ 0 →
        r.channel.pChannelStatistic = ch.pChannelStatistic ∧
          r.channel.statisticFlags = ch.statisticFlags) ∧
      (pOpts.connectionCount ≠ 0 →
        r.channel.connectionListCount = toInt32 pOpts.connectionCount ∧
        ∃ l, r.channel.connectionOptList = some l ∧ l.length = pOpts.connectionCount ∧
          ∀ j, j < pOpts.connectionCount → ∃ e s, pOpts.reactorConnectionList[j]? = some e ∧
            l[j]? = some s ∧ StoredFrom ext e s)) := by
  unfold _rsslChannelCopyConnectionList at h
  by_cases hflags : pOpts.statisticFlags &&&
      (ext.RSSL_RC_ST_READ ||| ext.RSSL_RC_ST_WRITE ||| ext.RSSL_RC_ST_PING) ≠ 0
  · rw [if_pos hflags] at h
    by_cases hok : ok 0 = false
    · rw [if_pos hok] at h
      have hr := Option.some.inj h
      subst hr
      refine ⟨?_, ?_, ?_⟩
      · constructor
        · intro hs
          exact absurd hs (by simp)
        · intro hall
          have := hall 0 (Nat.le_refl 0) (Nat.lt_succ_self 0)
          rw [hok] at this
          exact absurd this (by decide)
      · intro hlist _
        exact ⟨rfl, hlist, rfl⟩
      · intro hs
        exact absurd hs (by simp)
    · rw [if_neg hok] at h
      have hok1 : ok 0 = true := by simpa using hok
      obtain ⟨hle, hiff, hfail, hsucc⟩ := copyConnectionOptList_spec ext ok _ pOpts m 1 r h
      refine ⟨?_, ?_, ?_⟩
      · rw [hiff, AllOk.append ok (Nat.zero_le 1) hle]
        exact ⟨fun h2 => ⟨(AllOk.one ok 0).mpr hok1, h2⟩, fun h2 => h2.2⟩
      · intro _ hne
        exact hfail hne
      · intro hs
        obtain ⟨h1, h2, h3⟩ := hsucc hs
        exact ⟨fun _ => ⟨h1, h2⟩, fun hn => absurd hflags hn, h3⟩
  · rw [if_neg hflags] at h
    obtain ⟨_, hiff, hfail, hsucc⟩ := copyConnectionOptList_spec ext ok _ pOpts m 0 r h
    refine ⟨hiff, fun _ hne => hfail hne, ?_⟩
    intro hs
    obtain ⟨h1, h2, h3⟩ := hsucc hs
    exact ⟨fun hp => absurd hp hflags, fun _ => ⟨h1, h2⟩, h3⟩

/-- On readable options `_rsslChannelCopyConnectionList` makes no read through `NULL` or past a
block: it returns. -/
theorem copyConnectionList_defined (ext : Externs) (ok : Nat → Bool)
    (ch : RsslReactorChannelImpl) (pOpts : RsslReactorConnectOptions) (m : Bool)
    (hread : readableOptions pOpts = true) :
    ∃ r, _rsslChannelCopyConnectionList ext ok ch pOpts m = some r := by
  unfold _rsslChannelCopyConnectionList
  by_cases hflags : pOpts.statisticFlags &&&
      (ext.RSSL_RC_ST_READ ||| ext.RSSL_RC_ST_WRITE ||| ext.RSSL_RC_ST_PING) ≠ 0
  · rw [if_pos hflags]
    by_cases hok : ok 0 = false
    · rw [if_pos hok]
      exact ⟨_, rfl⟩
    · rw [if_neg hok]
      exact copyConnectionOptList_defined ext ok _ pOpts m 1 hread
  · rw [if_neg hflags]
    exact copyConnectionOptList_defined ext ok _ pOpts m 0 hread

/-! ## The copy of the connection list: the claims -/

/-- C3: on a channel whose connection list is `NULL` (a freshly reset one; the statistic block
need not even be `NULL`) and readable options, `_rsslChannelCopyConnectionList` returns; it
returns `RSSL_RET_SUCCESS` exactly when every allocation and every deep copy it makes succeeds,
and when one of them fails it returns `RSSL_RET_FAILURE` with the connection list and the
statistic block both `NULL`. -/
theorem copyConnectionList_failure_reported (ext : Externs) (ok : Nat → Bool)
    (ch : RsslReactorChannelImpl) (pOpts : RsslReactorConnectOptions) (m : Bool)
    (hlist : ch.connectionOptList = none) (hread : readableOptions pOpts = true) :
    ∃ r, _rsslChannelCopyConnectionList ext ok ch pOpts m = some r ∧
      (r.ret = RsslRet.RSSL_RET_SUCCESS ↔ ∀ k, k < r.calls → ok k = true) ∧
      ((∃ k, k < r.calls ∧ ok k = false) →
        r.ret = RsslRet.RSSL_RET_FAILURE ∧ r.channel.connectionOptList = none ∧
          r.channel.pChannelStatistic = none) := by
  obtain ⟨r, hr⟩ := copyConnectionList_defined ext ok ch pOpts m hread
  obtain ⟨hiff, hfail, _⟩ := copyConnectionList_spec ext ok ch pOpts m r hr
  have hall : AllOk ok 0 r.calls ↔ ∀ k, k < r.calls → ok k = true :=
    ⟨fun h k hk => h k (Nat.zero_le k) hk, fun h k _ hk => h k hk⟩
  refine ⟨r, hr, hiff.trans hall, ?_⟩
  rintro ⟨k, hk, hbad⟩
  apply hfail hlist
  intro hs
  have := (hiff.trans hall).mp hs k hk
  rw [hbad] at this
  exact absurd this (by decide)

/-- A use of `copyConnectionList_failure_reported`: the sample channel and options, with the deep
copy of the first entry (call number 3) failing. -/
theorem copyConnectionList_failure_reported_witness :
    ∃ r, _rsslChannelCopyConnectionList sampleExterns (fun k => decide (k ≠ 3)) sampleChannel
        sampleOptions false = some r ∧
      (r.ret = RsslRet.RSSL_RET_SUCCESS ↔ ∀ k, k < r.calls → (fun k => decide (k ≠ 3)) k = true) ∧
      ((∃ k, k < r.calls ∧ (fun k => decide (k ≠ 3)) k = false) →
        r.ret = RsslRet.RSSL_RET_FAILURE ∧ r.channel.connectionOptList = none ∧
          r.channel.pChannelStatistic = none) :=
  copyConnectionList_failure_reported sampleExterns (fun k => decide (k ≠ 3)) sampleChannel
    sampleOptions false rfl (by decide)

/-- C5: after a successful copy onto a freshly reset channel (no statistic block, statistic flags
`RSSL_RC_ST_NONE`), the channel has a statistic block exactly when the options have one of
`RSSL_RC_ST_READ`, `RSSL_RC_ST_WRITE`, `RSSL_RC_ST_PING` set; a block is the cleared one and comes
with the flags of the options, and without a block the flags stay `RSSL_RC_ST_NONE`. -/
theorem copyConnectionList_statistics (ext : Externs) (ok : Nat → Bool)
    (ch : RsslReactorChannelImpl) (pOpts : RsslReactorConnectOptions) (m : Bool)
    (r : CopyResult) (hstat : ch.pChannelStatistic = none)
    (hflags : ch.statisticFlags = ext.RSSL_RC_ST_NONE)
    (h : _rsslChannelCopyConnectionList ext ok ch pOpts m = some r)
    (hs : r.ret = RsslRet.RSSL_RET_SUCCESS) :
    (r.channel.pChannelStatistic ≠ none ↔
      (pOpts.statisticFlags &&& ext.RSSL_RC_ST_READ ≠ 0 ∨
        pOpts.statisticFlags &&& ext.RSSL_RC_ST_WRITE ≠ 0 ∨
        pOpts.statisticFlags &&& ext.RSSL_RC_ST_PING ≠ 0)) ∧
    (r.channel.pChannelStatistic ≠ none →
      r.channel.pChannelStatistic = some ext.clearedChannelStatistic ∧
        r.channel.statisticFlags = pOpts.statisticFlags) ∧
    (r.channel.pChannelStatistic = none →
      r.channel.statisticFlags = ch.statisticFlags ∧
        r.channel.statisticFlags = ext.RSSL_RC_ST_NONE) := by
  obtain ⟨_, _, hsucc⟩ := copyConnectionList_spec ext ok ch pOpts m r h
  obtain ⟨hyes, hno, _⟩ := hsucc hs
  rw [← statisticFlags_test]
  by_cases htest : pOpts.statisticFlags &&&
      (ext.RSSL_RC_ST_READ ||| ext.RSSL_RC_ST_WRITE ||| ext.RSSL_RC_ST_PING) ≠ 0
  · obtain ⟨h1, h2⟩ := hyes htest
    refine ⟨?_, ?_, ?_⟩
    · exact ⟨fun _ => htest, fun _ => by rw [h1]; simp⟩
    · intro _
      exact ⟨h1, h2⟩
    · intro hnone
      rw [h1] at hnone
      exact absurd hnone (by simp)
  · obtain ⟨h1, h2⟩ := hno htest
    refine ⟨?_, ?_, ?_⟩
    · constructor
      · intro hne
        rw [h1, hstat] at hne
        exact absurd rfl hne
      · intro ht
        exact absurd ht htest
    · intro hne
      rw [h1, hstat] at hne
      exact absurd rfl hne
    · intro _
      exact ⟨h2, h2.trans hflags⟩

/-- A use of `copyConnectionList_statistics`: the sample channel and options, which ask for read
and write statistics, every call succeeding. -/
theorem copyConnectionList_statistics_witness :
    ∃ r, sampleCopied = some r ∧ r.ret = RsslRet.RSSL_RET_SUCCESS ∧
      r.channel.pChannelStatistic = some sampleExterns.clearedChannelStatistic ∧
      r.channel.statisticFlags = sampleOptions.statisticFlags :=
  ⟨_, rfl, rfl,
    (copyConnectionList_statistics sampleExterns (fun _ => true) sampleChannel sampleOptions false
      _ rfl rfl rfl rfl).2.1 (by decide)⟩

/-! ## Events -/

/-- C6: each of the eight initialisers, whatever the event held, leaves the type tag of its
variant in `base.eventType` and zero in every other member; the eight tags are pairwise distinct
and differ from `RSSL_RCIMPL_ET_INIT`, the tag `rsslClearReactorEventImpl` leaves. -/
theorem eventInitialisers_tag (f : RsslReactorFlushEvent) (t : RsslReactorTimerEvent)
    (c : RsslReactorChannelEventImpl) (s : RsslReactorStateEvent)
    (k : RsslReactorTokenMgntEvent) (cr : RsslReactorCredentialRenewalEvent)
    (p : RsslReactorChannelPingEvent) (ts : RsslReactorTokenSessionEvent)
    (u : RsslReactorEventImpl) :
    rsslInitFlushEvent f = ⟨⟨0, RSSL_RCIMPL_ET_FLUSH⟩, 0, 0⟩ ∧
    rsslInitTimerEvent t = ⟨⟨0, RSSL_RCIMPL_ET_TIMER⟩, 0, 0⟩ ∧
    rsslClearReactorChannelEventImpl c = ⟨⟨0, RSSL_RCIMPL_ET_CHANNEL⟩, ⟨0, 0, 0⟩, false⟩ ∧
    rsslClearReactorEvent s = ⟨⟨0, RSSL_RCIMPL_ET_REACTOR⟩, 0, 0⟩ ∧
    rsslClearReactorTokenMgntEvent k = ⟨⟨0, RSSL_RCIMPL_ET_TOKEN_MGNT⟩, 0, 0, 0, 0, 0, 0, 0⟩ ∧
    rsslClearReactorCredentialRenewalEvent cr =
      ⟨⟨0, RSSL_RCIMPL_ET_CREDENTIAL_RENEWAL⟩, 0, 0, 0, 0, 0, 0⟩ ∧
    rsslClearReactorChannelPingEvent p = ⟨⟨0, RSSL_RCIMPL_ET_PING⟩, 0⟩ ∧
    rsslClearReactorTokenSessionEvent ts = ⟨⟨0, RSSL_RCIMPL_ET_TOKEN_SESSION_MGNT⟩, 0, 0, 0⟩ ∧
    [RSSL_RCIMPL_ET_FLUSH, RSSL_RCIMPL_ET_TIMER, RSSL_RCIMPL_ET_CHANNEL, RSSL_RCIMPL_ET_REACTOR,
      RSSL_RCIMPL_ET_TOKEN_MGNT, RSSL_RCIMPL_ET_CREDENTIAL_RENEWAL, RSSL_RCIMPL_ET_PING,
      RSSL_RCIMPL_ET_TOKEN_SESSION_MGNT, RSSL_RCIMPL_ET_INIT].Nodup ∧
    (rsslClearReactorEventImpl u).toBase.eventType = RSSL_RCIMPL_ET_INIT ∧
    (rsslClearReactorEventImpl u).toBase.eventQueueLink = 0 :=
  ⟨rfl, rfl, rfl, rfl, rfl, rfl, rfl, rfl, by decide, rfl, rfl⟩

/-! ## The event queue -/

theorem EventQueue.pushAll_open (q : EventQueue) (es : List RsslReactorEventImpl)
    (hopen : q.closed = false) :
    (q.pushAll es).1 = es.map (fun _ => PushResult.pushed) ∧
    (q.pushAll es).2.pending = q.pending ++ es ∧
    (q.pushAll es).2.closed = false := by
  induction es generalizing q with
  | nil => simp [EventQueue.pushAll, hopen]
  | cons e es ih =>
    have hpush : q.push e = (PushResult.pushed,
        { q with
          pending := q.pending ++ [e]
          wakeSignals := if q.pending.isEmpty then q.wakeSignals + 1 else q.wakeSignals }) := by
      simp [EventQueue.push, hopen]
    obtain ⟨h1, h2, h3⟩ := ih (q.push e).2 (by rw [hpush]; exact hopen)
    refine ⟨?_, ?_, ?_⟩
    · simp only [EventQueue.pushAll, List.map_cons, h1]
      rw [hpush]
    · simp only [EventQueue.pushAll, h2]
      rw [hpush]
      simp
    · simp only [EventQueue.pushAll, h3]

/-- C8: for every sequence of events pushed onto an initially empty queue, each push succeeds
and a drain after the pushes yields exactly those events, each as often as it was pushed, in
push order, and leaves nothing pending. -/
theorem EventQueue.drain_after_pushes (es : List RsslReactorEventImpl) :
    (EventQueue.init.pushAll es).1 = es.map (fun _ => PushResult.pushed) ∧
    (EventQueue.init.pushAll es).2.drainAll.1 = es ∧
    (EventQueue.init.pushAll es).2.drainAll.1.length = es.length ∧
    (EventQueue.init.pushAll es).2.drainAll.2.pending = [] := by
  obtain ⟨h1, h2, _⟩ := EventQueue.pushAll_open EventQueue.init es rfl
  have hd : (EventQueue.init.pushAll es).2.drainAll.1 = es := by
    show (EventQueue.init.pushAll es).2.pending = es
    rw [h2]
    rfl
  exact ⟨h1, hd, by rw [hd], rfl⟩

/-! ## Reconnection -/

theorem nextReconnectDelay_bounds (ch : RsslReactorChannelImpl)
    (hlo : 0 ≤ ch.reconnectMinDelay) (hhi : ch.reconnectMinDelay ≤ ch.reconnectMaxDelay)
    (h0 : 0 ≤ ch.reconnectDelay) (h1 : ch.reconnectDelay ≤ ch.reconnectMaxDelay) :
    ch.reconnectDelay ≤ nextReconnectDelay ch ∧ 0 ≤ nextReconnectDelay ch ∧
      nextReconnectDelay ch ≤ ch.reconnectMaxDelay := by
  unfold nextReconnectDelay backoffFactor
  rw [min_def, max_def]
  split_ifs <;> omega

theorem WorkerChannel.step_attemptFailed (s : WorkerChannel)
    (h : s.set = ChannelSet.initializing ∨ s.set = ChannelSet.reconnecting) :
    (s.step .attemptFailed).channel.reconnectDelay = nextReconnectDelay s.channel ∧
    (s.step .attemptFailed).channel.reconnectMinDelay = s.channel.reconnectMinDelay ∧
    (s.step .attemptFailed).channel.reconnectMaxDelay = s.channel.reconnectMaxDelay ∧
    (s.step .attemptFailed).channel.channelSetupState = RSSL_RC_CHST_INIT := by
  have hstep : s.step .attemptFailed =
      if attemptLimitReached (attemptFailedChannel s.channel) = true then
        { channel := attemptFailedChannel s.channel
          set := ChannelSet.inactive
          events := s.events ++ [channelEventFor RSSL_RC_CET_CHANNEL_DOWN true]
          attempts := s.attempts ++
            [(s.channel.connectionListIter, (attemptFailedChannel s.channel).reconnectDelay)] }
      else
        { channel :=
            { attemptFailedChannel s.channel with
              connectionListIter := nextConnectionListIter (attemptFailedChannel s.channel) }
          set := ChannelSet.reconnecting
          events := s.events ++ [channelEventFor RSSL_RC_CET_CHANNEL_DOWN_RECONNECTING true]
          attempts := s.attempts ++
            [(s.channel.connectionListIter, (attemptFailedChannel s.channel).reconnectDelay)] } := by
    show (if s.set = ChannelSet.initializing ∨ s.set = ChannelSet.reconnecting then _ else s) = _
    rw [if_pos h]
  rw [hstep]
  split_ifs <;> exact ⟨rfl, rfl, rfl, rfl⟩

theorem WorkerChannel.step_reachedReady (s : WorkerChannel)
    (h : s.set = ChannelSet.initializing ∨ s.set = ChannelSet.reconnecting) :
    (s.step .reachedReady).channel.reconnectDelay = s.channel.reconnectMinDelay ∧
    (s.step .reachedReady).channel.reconnectMinDelay = s.channel.reconnectMinDelay ∧
    (s.step .reachedReady).channel.reconnectMaxDelay = s.channel.reconnectMaxDelay ∧
    (s.step .reachedReady).channel.channelSetupState = RSSL_RC_CHST_READY := by
  have hstep : s.step .reachedReady =
      { s with
        channel :=
          { s.channel with
            channelSetupState := RSSL_RC_CHST_READY
            reconnectDelay := s.channel.reconnectMinDelay }
        set := ChannelSet.active
        events := s.events ++ [channelEventFor RSSL_RC_CET_CHANNEL_READY false] } := by
    show (if s.set = ChannelSet.initializing ∨ s.set = ChannelSet.reconnecting then _ else s) = _
    rw [if_pos h]
  rw [hstep]
  exact ⟨rfl, rfl, rfl, rfl⟩

theorem WorkerChannel.step_connectionLost (s : WorkerChannel) (h : s.set = ChannelSet.active) :
    (s.step .connectionLost).channel.reconnectDelay = s.channel.reconnectDelay ∧
    (s.step .connectionLost).channel.reconnectMinDelay = s.channel.reconnectMinDelay ∧
    (s.step .connectionLost).channel.reconnectMaxDelay = s.channel.reconnectMaxDelay ∧
    (s.step .connectionLost).channel.channelSetupState = RSSL_RC_CHST_RECONNECTING := by
  have hstep : s.step .connectionLost =
      { s with
        channel := { s.channel with channelSetupState := RSSL_RC_CHST_RECONNECTING }
        set := ChannelSet.reconnecting
        events := s.events ++ [channelEventFor RSSL_RC_CET_CHANNEL_DOWN_RECONNECTING false] } := by
    show (if s.set = ChannelSet.active then _ else s) = _
    rw [if_pos h]
  rw [hstep]
  exact ⟨rfl, rfl, rfl, rfl⟩

theorem WorkerChannel.step_idle (s : WorkerChannel) (o : ReconnectOutcome)
    (h : (o = .connectionLost ∧ s.set ≠ ChannelSet.active) ∨
      (o ≠ .connectionLost ∧
        ¬ (s.set = ChannelSet.initializing ∨ s.set = ChannelSet.reconnecting))) :
    s.step o = s := by
  rcases h with ⟨ho, hs⟩ | ⟨ho, hs⟩
  · subst ho
    show (if s.set = ChannelSet.active then _ else s) = s
    rw [if_neg hs]
  · cases o with
    | attemptFailed =>
      show (if s.set = ChannelSet.initializing ∨ s.set = ChannelSet.reconnecting then _ else s)
        = s
      rw [if_neg hs]
    | reachedReady =>
      show (if s.set = ChannelSet.initializing ∨ s.set = ChannelSet.reconnecting then _ else s)
        = s
      rw [if_neg hs]
    | connectionLost => exact absurd rfl ho

theorem WorkerChannel.step_delayInRange (lo hi : Int) (hlo : 0 ≤ lo) (hhi : lo ≤ hi)
    (s : WorkerChannel) (o : ReconnectOutcome) (hs : s.DelayInRange lo hi) :
    (s.step o).DelayInRange lo hi := by
  obtain ⟨h1, h2, h3, h4, h5⟩ := hs
  cases o with
  | attemptFailed =>
    by_cases h : s.set = ChannelSet.initializing ∨ s.set = ChannelSet.reconnecting
    · obtain ⟨e1, e2, e3, e4⟩ := s.step_attemptFailed h
      obtain ⟨_, b2, b3⟩ := nextReconnectDelay_bounds s.channel (by rw [h1]; exact hlo)
        (by rw [h1, h2]; exact hhi) h3 (by rw [h2]; exact h4)
      refine ⟨e2.trans h1, e3.trans h2, by rw [e1]; exact b2, by rw [e1, ← h2]; exact b3, ?_⟩
      intro hready
      rw [e4] at hready
      exact absurd hready (by decide)
    · rw [s.step_idle _ (Or.inr ⟨by decide, h⟩)]
      exact ⟨h1, h2, h3, h4, h5⟩
  | reachedReady =>
    by_cases h : s.set = ChannelSet.initializing ∨ s.set = ChannelSet.reconnecting
    · obtain ⟨e1, e2, e3, _⟩ := s.step_reachedReady h
      refine ⟨e2.trans h1, e3.trans h2, ?_, ?_, ?_⟩
      · rw [e1, h1]; exact hlo
      · rw [e1, h1]; exact hhi
      · intro _
        rw [e1, h1]
    · rw [s.step_idle _ (Or.inr ⟨by decide, h⟩)]
      exact ⟨h1, h2, h3, h4, h5⟩
  | connectionLost =>
    by_cases h : s.set = ChannelSet.active
    · obtain ⟨e1, e2, e3, e4⟩ := s.step_connectionLost h
      refine ⟨e2.trans h1, e3.trans h2, by rw [e1]; exact h3, by rw [e1]; exact h4, ?_⟩
      intro hready
      rw [e4] at hready
      exact absurd hready (by decide)
    · rw [s.step_idle _ (Or.inl ⟨rfl, h⟩)]
      exact ⟨h1, h2, h3, h4, h5⟩

theorem WorkerChannel.run_delayInRange (lo hi : Int) (hlo : 0 ≤ lo) (hhi : lo ≤ hi)
    (outcomes : List ReconnectOutcome) (s : WorkerChannel) (hs : s.DelayInRange lo hi) :
    (s.run outcomes).DelayInRange lo hi := by
  induction outcomes generalizing s with
  | nil => exact hs
  | cons o os ih =>
    exact ih (s.step o) (WorkerChannel.step_delayInRange lo hi hlo hhi s o hs)

theorem WorkerChannel.reached_delayInRange (ch : RsslReactorChannelImpl)
    (hlo : 0 ≤ ch.reconnectMinDelay) (hhi : ch.reconnectMinDelay ≤ ch.reconnectMaxDelay)
    (outcomes : List ReconnectOutcome) :
    (WorkerChannel.reached ch outcomes).DelayInRange ch.reconnectMinDelay
      ch.reconnectMaxDelay := by
  apply WorkerChannel.run_delayInRange _ _ hlo hhi
  refine ⟨rfl, rfl, Int.le_refl 0, Int.le_trans hlo hhi, ?_⟩
  intro hready
  have h0 : RSSL_RC_CHST_INIT = RSSL_RC_CHST_READY := hready
  exact absurd h0 (by decide)

theorem WorkerChannel.attemptFailed_delay_le (lo hi : Int) (hlo : 0 ≤ lo) (hhi : lo ≤ hi)
    (s : WorkerChannel) (hs : s.DelayInRange lo hi) :
    s.channel.reconnectDelay ≤ (s.step .attemptFailed).channel.reconnectDelay := by
  obtain ⟨h1, h2, h3, h4, _⟩ := hs
  by_cases h : s.set = ChannelSet.initializing ∨ s.set = ChannelSet.reconnecting
  · rw [(s.step_attemptFailed h).1]
    exact (nextReconnectDelay_bounds s.channel (by rw [h1]; exact hlo)
      (by rw [h1, h2]; exact hhi) h3 (by rw [h2]; exact h4)).1
  · rw [s.step_idle _ (Or.inr ⟨by decide, h⟩)]

/-- C9: for a channel with `0 <= reconnectMinDelay <= reconnectMaxDelay`, in every state reached
from its connection by any sequence of outcomes the delay does not exceed `reconnectMaxDelay`; a
failed attempt never lowers the delay, so the delay is non-decreasing across consecutive failed
attempts; and a transition to READY leaves the delay at `reconnectMinDelay`, as has every reached
state in READY. -/
theorem reconnectDelay_backoff (ch : RsslReactorChannelImpl)
    (hlo : 0 ≤ ch.reconnectMinDelay) (hhi : ch.reconnectMinDelay ≤ ch.reconnectMaxDelay)
    (outcomes : List ReconnectOutcome) :
    (WorkerChannel.reached ch outcomes).channel.reconnectDelay ≤ ch.reconnectMaxDelay ∧
    (WorkerChannel.reached ch outcomes).channel.reconnectDelay ≤
      ((WorkerChannel.reached ch outcomes).step .attemptFailed).channel.reconnectDelay ∧
    ((WorkerChannel.reached ch outcomes).step .attemptFailed).channel.reconnectDelay ≤
      (((WorkerChannel.reached ch outcomes).step .attemptFailed).step
        .attemptFailed).channel.reconnectDelay ∧
    (((WorkerChannel.reached ch outcomes).step .attemptFailed).step
        .attemptFailed).channel.reconnectDelay ≤ ch.reconnectMaxDelay ∧
    ((WorkerChannel.reached ch outcomes).set = ChannelSet.initializing ∨
        (WorkerChannel.reached ch outcomes).set = ChannelSet.reconnecting →
      ((WorkerChannel.reached ch outcomes).step .reachedReady).channel.channelSetupState =
          RSSL_RC_CHST_READY ∧
        ((WorkerChannel.reached ch outcomes).step .reachedReady).channel.reconnectDelay =
          ch.reconnectMinDelay) ∧
    ((WorkerChannel.reached ch outcomes).channel.channelSetupState = RSSL_RC_CHST_READY →
      (WorkerChannel.reached ch outcomes).channel.reconnectDelay = ch.reconnectMinDelay) := by
  have hinv := WorkerChannel.reached_delayInRange ch hlo hhi outcomes
  have hinv1 := WorkerChannel.step_delayInRange _ _ hlo hhi _ .attemptFailed hinv
  have hinv2 := WorkerChannel.step_delayInRange _ _ hlo hhi _ .attemptFailed hinv1
  refine ⟨hinv.2.2.2.1, ?_, ?_, hinv2.2.2.2.1, ?_, hinv.2.2.2.2⟩
  · exact WorkerChannel.attemptFailed_delay_le _ _ hlo hhi _ hinv
  · exact WorkerChannel.attemptFailed_delay_le _ _ hlo hhi _ hinv1
  · intro hset
    obtain ⟨e1, _, _, e4⟩ := (WorkerChannel.reached ch outcomes).step_reachedReady hset
    exact ⟨e4, e1.trans hinv.1⟩

/-- A use of `reconnectDelay_backoff`: the channel of the scenario after two failed attempts and
a lost connection in between two arrivals at READY. -/
theorem reconnectDelay_backoff_witness :
    (WorkerChannel.reached scenarioChannel
        [.attemptFailed, .reachedReady, .connectionLost, .attemptFailed]).channel.reconnectDelay ≤
      ((WorkerChannel.reached scenarioChannel
        [.attemptFailed, .reachedReady, .connectionLost, .attemptFailed]).step
          .attemptFailed).channel.reconnectDelay ∧
    ((WorkerChannel.reached scenarioChannel
        [.attemptFailed, .reachedReady, .connectionLost, .attemptFailed]).step
          .reachedReady).channel.reconnectDelay = 1 :=
  ⟨(reconnectDelay_backoff scenarioChannel (by decide) (by decide)
      [.attemptFailed, .reachedReady, .connectionLost, .attemptFailed]).2.1,
    ((reconnectDelay_backoff scenarioChannel (by decide) (by decide)
      [.attemptFailed, .reachedReady, .connectionLost, .attemptFailed]).2.2.2.2.1
        (by decide)).2⟩

/-- C10: the channel of the scenario, every attempt failing. The attempts target A, B, A, the
cursor going 0, 1, 0, and leave the delays 1 s, 2 s, 4 s; with the third failure the channel is in
the inactive set and the event delivered last is the channel-down event with `isConnectFailure`
set; a fourth failure finds no attempt to fail: attempts, events and set stay as they are. -/
theorem reconnect_scenario :
    scenarioChannel.connectionOptList =
      some [⟨⟨1, 60, false, ⟨0, none⟩, 0⟩, 0, 0, 0, 0⟩, ⟨⟨2, 60, false, ⟨0, none⟩, 0⟩, 0, 0, 0, 0⟩] ∧
    (WorkerChannel.reached scenarioChannel
      [.attemptFailed, .attemptFailed, .attemptFailed]).attempts = [(0, 1), (1, 2), (0, 4)] ∧
    (WorkerChannel.reached scenarioChannel []).channel.connectionListIter = 0 ∧
    (WorkerChannel.reached scenarioChannel [.attemptFailed]).channel.connectionListIter = 1 ∧
    (WorkerChannel.reached scenarioChannel
      [.attemptFailed, .attemptFailed]).channel.connectionListIter = 0 ∧
    (WorkerChannel.reached scenarioChannel [.attemptFailed]).set = ChannelSet.reconnecting ∧
    (WorkerChannel.reached scenarioChannel
      [.attemptFailed, .attemptFailed]).set = ChannelSet.reconnecting ∧
    (WorkerChannel.reached scenarioChannel
      [.attemptFailed, .attemptFailed, .attemptFailed]).set = ChannelSet.inactive ∧
    (WorkerChannel.reached scenarioChannel
      [.attemptFailed, .attemptFailed, .attemptFailed]).channel.reconnectAttemptCount = 3 ∧
    ((WorkerChannel.reached scenarioChannel
      [.attemptFailed, .attemptFailed, .attemptFailed]).events.getLast?.map
        fun e => (e.base.eventType, e.channelEvent.channelEventType, e.isConnectFailure)) =
      some (RSSL_RCIMPL_ET_CHANNEL, RSSL_RC_CET_CHANNEL_DOWN, true) ∧
    (WorkerChannel.reached scenarioChannel
      [.attemptFailed, .attemptFailed, .attemptFailed, .attemptFailed]).attempts =
      [(0, 1), (1, 2), (0, 4)] ∧
    (WorkerChannel.reached scenarioChannel
      [.attemptFailed, .attemptFailed, .attemptFailed, .attemptFailed]).set =
      ChannelSet.inactive ∧
    (WorkerChannel.reached scenarioChannel
      [.attemptFailed, .attemptFailed, .attemptFailed, .attemptFailed]).events =
      (WorkerChannel.reached scenarioChannel
        [.attemptFailed, .attemptFailed, .attemptFailed]).events := by
  refine ⟨rfl, ?_, rfl, ?_, ?_, ?_, ?_, ?_, ?_, ?_, ?_, ?_, ?_⟩ <;> decide

/-! ## The write path -/

theorem WritePath.submit_pending (s : WritePath) (pBuffer : Nat) (completes : Bool)
    (h : s.channel.pWriteCallAgainBuffer ≠ 0) :
    s.submit pBuffer completes = (WriteResult.rejected, s) := by
  unfold WritePath.submit
  rw [if_pos h]

theorem WritePath.submit_written (s : WritePath) (pBuffer : Nat)
    (h : s.channel.pWriteCallAgainBuffer = 0) :
    s.submit pBuffer true = (WriteResult.written, s) := by
  unfold WritePath.submit
  rw [if_neg (by rw [h]; exact fun hn => hn rfl), if_pos rfl]

theorem WritePath.submit_held (s : WritePath) (pBuffer : Nat)
    (h : s.channel.pWriteCallAgainBuffer = 0) :
    s.submit pBuffer false = (WriteResult.heldForFlush,
      { channel :=
          { s.channel with pWriteCallAgainBuffer := pBuffer, requestedFlush := true }
        workerCommands := s.workerCommands ++ [startFlushCommand]
        outstanding := s.outstanding ++ [pBuffer] }) := by
  unfold WritePath.submit
  rw [if_neg (by rw [h]; exact fun hn => hn rfl), if_neg (by decide)]

theorem WritePath.step_singleSlot (s : WritePath) (op : WriteOp)
    (hop : writesCarryBuffers [op] = true) (hs : s.SingleSlot) : (s.step op).SingleSlot := by
  unfold WritePath.SingleSlot at hs ⊢
  cases op with
  | submit pBuffer completes =>
    have hbuf : pBuffer ≠ 0 := by simpa [writesCarryBuffers] using hop
    have hstep : s.step (.submit pBuffer completes) = (s.submit pBuffer completes).2 := rfl
    rw [hstep]
    by_cases hp : s.channel.pWriteCallAgainBuffer ≠ 0
    · rw [s.submit_pending pBuffer completes hp]
      exact hs
    · have hp0 : s.channel.pWriteCallAgainBuffer = 0 := by simpa using hp
      cases completes with
      | true =>
        rw [s.submit_written pBuffer hp0]
        exact hs
      | false =>
        rw [s.submit_held pBuffer hp0]
        rw [hp0, if_pos rfl] at hs
        show s.outstanding ++ [pBuffer] = if pBuffer = 0 then [] else [pBuffer]
        rw [if_neg hbuf, hs, List.nil_append]
  | flushDone =>
    show s.outstanding.erase s.channel.pWriteCallAgainBuffer = if (0 : Nat) = 0 then [] else [0]
    rw [hs, if_pos rfl]
    by_cases hp : s.channel.pWriteCallAgainBuffer = 0
    · simp [hp]
    · simp [hp]
  | channelFailed =>
    show s.outstanding.erase s.channel.pWriteCallAgainBuffer = if (0 : Nat) = 0 then [] else [0]
    rw [hs, if_pos rfl]
    by_cases hp : s.channel.pWriteCallAgainBuffer = 0
    · simp [hp]
    · simp [hp]

theorem WritePath.run_singleSlot (ops : List WriteOp) (s : WritePath)
    (hops : writesCarryBuffers ops = true) (hs : s.SingleSlot) : (s.run ops).SingleSlot := by
  induction ops generalizing s with
  | nil => exact hs
  | cons op ops ih =>
    have h1 : writesCarryBuffers [op] = true ∧ writesCarryBuffers ops = true := by
      simpa [writesCarryBuffers] using hops
    exact ih (s.step op) h1.2 (s.step_singleSlot op h1.1 hs)

/-- C11: in every state the write path reaches from a freshly reset channel, by writes that
carry a buffer, flush completions and channel failures, the buffers outstanding are exactly the
one in `pWriteCallAgainBuffer`, so at most one; and a write submitted while
`pWriteCallAgainBuffer` is not `NULL` is rejected and leaves the state, the pending buffer
included, as it was. -/
theorem writeCallAgain_single (ext : Externs) (pReactorImpl : Nat)
    (slot : RsslReactorChannelImpl) (ops : List WriteOp) (pBuffer : Nat) (completes : Bool)
    (hops : writesCarryBuffers ops = true) :
    ((WritePath.start ext pReactorImpl slot).run ops).outstanding.length ≤ 1 ∧
    ((WritePath.start ext pReactorImpl slot).run ops).SingleSlot ∧
    (((WritePath.start ext pReactorImpl slot).run ops).channel.pWriteCallAgainBuffer ≠ 0 →
      (((WritePath.start ext pReactorImpl slot).run ops).submit pBuffer completes).1 =
          WriteResult.rejected ∧
        (((WritePath.start ext pReactorImpl slot).run ops).submit pBuffer completes).2 =
          (WritePath.start ext pReactorImpl slot).run ops ∧
        (((WritePath.start ext pReactorImpl slot).run ops).submit pBuffer
            completes).2.channel.pWriteCallAgainBuffer =
          ((WritePath.start ext pReactorImpl slot).run ops).channel.pWriteCallAgainBuffer) := by
  have hinv : ((WritePath.start ext pReactorImpl slot).run ops).SingleSlot :=
    WritePath.run_singleSlot ops _ hops rfl
  refine ⟨?_, hinv, ?_⟩
  · rw [hinv]
    split_ifs <;> simp
  · intro hp
    rw [WritePath.submit_pending _ pBuffer completes hp]
    exact ⟨rfl, rfl, rfl⟩

/-- A use of `writeCallAgain_single`: on the sample channel a write of buffer 5 completes, a
write of buffer 6 is held, a write of buffer 7 then is rejected and buffer 6 stays pending. -/
theorem writeCallAgain_single_witness :
    ((WritePath.start sampleExterns 7 sampleChannel).run
      [.submit 5 true, .submit 6 false]).outstanding = [6] ∧
    (((WritePath.start sampleExterns 7 sampleChannel).run
      [.submit 5 true, .submit 6 false]).submit 7 false).1 = WriteResult.rejected ∧
    (((WritePath.start sampleExterns 7 sampleChannel).run
      [.submit 5 true, .submit 6 false]).submit 7 false).2.channel.pWriteCallAgainBuffer = 6 :=
  ⟨(writeCallAgain_single sampleExterns 7 sampleChannel [.submit 5 true, .submit 6 false] 7 false
      (by decide)).2.1,
    ((writeCallAgain_single sampleExterns 7 sampleChannel [.submit 5 true, .submit 6 false] 7 false
      (by decide)).2.2 (by decide)).1,
    ((writeCallAgain_single sampleExterns 7 sampleChannel [.submit 5 true, .submit 6 false] 7 false
      (by decide)).2.2 (by decide)).2.2⟩

/-! ## The setup state machine -/

theorem setupStep_exchangeCompleted (ch : RsslReactorChannelImpl) :
    (setupStep ch .exchangeCompleted).channelSetupState = nextSetupState ch.channelSetupState :=
  rfl

theorem setupStep_failure (ch : RsslReactorChannelImpl) :
    (setupStep ch .failure).channelSetupState =
      if ch.channelSetupState = RSSL_RC_CHST_READY then RSSL_RC_CHST_RECONNECTING
      else RSSL_RC_CHST_INIT := by
  show (if ch.channelSetupState = RSSL_RC_CHST_READY then _ else _ :
    RsslReactorChannelImpl).channelSetupState = _
  split_ifs <;> rfl

theorem setupStep_reconnected (ch : RsslReactorChannelImpl) :
    (setupStep ch .reconnected).channelSetupState =
      if ch.channelSetupState = RSSL_RC_CHST_RECONNECTING then RSSL_RC_CHST_INIT
      else ch.channelSetupState := by
  show (if ch.channelSetupState = RSSL_RC_CHST_RECONNECTING then _ else _ :
    RsslReactorChannelImpl).channelSetupState = _
  split_ifs <;> rfl

theorem setupStep_edge (ch : RsslReactorChannelImpl) (e : SetupEvent) :
    (setupStep ch e).channelSetupState = ch.channelSetupState ∨
      SetupEdge ch.channelSetupState (setupStep ch e).channelSetupState := by
  cases e with
  | exchangeCompleted =>
    rw [setupStep_exchangeCompleted]
    unfold nextSetupState SetupEdge
    split_ifs with h1 h2 h3 h4 h5
    · exact Or.inr (Or.inl ⟨h1, rfl⟩)
    · exact Or.inr (Or.inr (Or.inl ⟨h2, rfl⟩))
    · exact Or.inr (Or.inr (Or.inr (Or.inl ⟨h3, rfl⟩)))
    · exact Or.inr (Or.inr (Or.inr (Or.inr (Or.inl ⟨h4, rfl⟩))))
    · exact Or.inr (Or.inr (Or.inr (Or.inr (Or.inr (Or.inl ⟨h5, rfl⟩)))))
    · exact Or.inl rfl
  | failure =>
    rw [setupStep_failure]
    unfold SetupEdge
    split_ifs with h1
    · exact Or.inr (Or.inr (Or.inr (Or.inr (Or.inr (Or.inr (Or.inl ⟨h1, rfl⟩))))))
    · exact Or.inr (Or.inr (Or.inr (Or.inr (Or.inr (Or.inr (Or.inr rfl))))))
  | reconnected =>
    rw [setupStep_reconnected]
    unfold SetupEdge
    split_ifs with h1
    · exact Or.inr (Or.inr (Or.inr (Or.inr (Or.inr (Or.inr (Or.inr rfl))))))
    · exact Or.inl rfl

theorem setupStep_from_loggedIn (ch : RsslReactorChannelImpl) (e : SetupEvent)
    (h : ch.channelSetupState = RSSL_RC_CHST_LOGGED_IN) :
    (setupStep ch e).channelSetupState = RSSL_RC_CHST_LOGGED_IN ∨
    (setupStep ch e).channelSetupState = RSSL_RC_CHST_HAVE_DIRECTORY ∨
    (setupStep ch e).channelSetupState = RSSL_RC_CHST_INIT := by
  cases e with
  | exchangeCompleted =>
    right; left
    rw [setupStep_exchangeCompleted, h]
    rfl
  | failure =>
    right; right
    rw [setupStep_failure, h]
    rfl
  | reconnected =>
    left
    rw [setupStep_reconnected, h]
    rfl

/-- The step of the reconnection state machine that reaches READY is a walk along the edges: a
channel being initialized (in INIT) walks the five exchanges of the handshake, a channel being
reconnected (in RECONNECTING) first connects. -/
theorem setupRun_reaches_ready (ch : RsslReactorChannelImpl) :
    (ch.channelSetupState = RSSL_RC_CHST_INIT →
      (setupRun ch [.exchangeCompleted, .exchangeCompleted, .exchangeCompleted,
        .exchangeCompleted, .exchangeCompleted]).channelSetupState = RSSL_RC_CHST_READY) ∧
    (ch.channelSetupState = RSSL_RC_CHST_RECONNECTING →
      (setupRun ch [.reconnected, .exchangeCompleted, .exchangeCompleted, .exchangeCompleted,
        .exchangeCompleted, .exchangeCompleted]).channelSetupState = RSSL_RC_CHST_READY) := by
  have walk : ∀ c : RsslReactorChannelImpl, c.channelSetupState = RSSL_RC_CHST_INIT →
      (setupRun c [.exchangeCompleted, .exchangeCompleted, .exchangeCompleted,
        .exchangeCompleted, .exchangeCompleted]).channelSetupState = RSSL_RC_CHST_READY := by
    intro c hc
    show nextSetupState (nextSetupState (nextSetupState (nextSetupState
      (nextSetupState c.channelSetupState)))) = RSSL_RC_CHST_READY
    rw [hc]
    rfl
  refine ⟨walk ch, ?_⟩
  intro h
  have hstep : setupStep ch .reconnected = rsslResetReactorChannelState ch.pParentReactor ch := by
    show (if ch.channelSetupState = RSSL_RC_CHST_RECONNECTING then _ else _) = _
    rw [if_pos h]
  show (setupRun (setupStep ch .reconnected) _).channelSetupState = _
  rw [hstep]
  exact walk _ rfl

/-- C12: from any channel and after any sequence of setup events, a transition leaves the setup
state as it is or moves it along one of the edges INIT to LOGGED_IN to HAVE_DIRECTORY to
HAVE_RWFFLD to HAVE_RWFENUM to READY, READY to RECONNECTING, or resets it to INIT; and from
LOGGED_IN no transition reaches HAVE_RWFFLD, HAVE_RWFENUM or READY. -/
theorem setupState_edges (ch : RsslReactorChannelImpl) (events : List SetupEvent)
    (e : SetupEvent) :
    ((setupStep (setupRun ch events) e).channelSetupState =
        (setupRun ch events).channelSetupState ∨
      SetupEdge (setupRun ch events).channelSetupState
        (setupStep (setupRun ch events) e).channelSetupState) ∧
    ((setupRun ch events).channelSetupState = RSSL_RC_CHST_LOGGED_IN →
      (setupStep (setupRun ch events) e).channelSetupState ≠ RSSL_RC_CHST_HAVE_RWFFLD ∧
      (setupStep (setupRun ch events) e).channelSetupState ≠ RSSL_RC_CHST_HAVE_RWFENUM ∧
      (setupStep (setupRun ch events) e).channelSetupState ≠ RSSL_RC_CHST_READY) := by
  refine ⟨setupStep_edge _ e, ?_⟩
  intro h
  rcases setupStep_from_loggedIn _ e h with h1 | h1 | h1 <;> rw [h1] <;>
    exact ⟨by decide, by decide, by decide⟩

/-- A use of `setupState_edges`: the sample channel after the login exchange is in LOGGED_IN, and
the next completed exchange takes it to HAVE_DIRECTORY, none of the later states. -/
theorem setupState_edges_witness :
    (setupRun sampleChannel [.exchangeCompleted]).channelSetupState = RSSL_RC_CHST_LOGGED_IN ∧
    (setupStep (setupRun sampleChannel [.exchangeCompleted])
      .exchangeCompleted).channelSetupState ≠ RSSL_RC_CHST_READY :=
  ⟨rfl, ((setupState_edges sampleChannel [.exchangeCompleted] .exchangeCompleted).2 rfl).2.2⟩

end Reactor

namespace QuoddFeed

/-! ## BlobTable -/

/-- Inside the table `BlobTable::GetCell` returns the cell: for a table laid out as Messages.h
describes it and `0 <= r < nRow()`, `0 <= c < nCol()`, the result is `rows[r]._cels[c]`. -/
theorem BlobTable.GetCell_inside (t : BlobTable) (r c : Int) (hwf : t.wellFormed = true)
    (hr0 : 0 ≤ r) (hr1 : r < t.nRow) (hc0 : 0 ≤ c) (hc1 : c < t.nCol) :
    ∃ row cell, t._rows[r.toNat]? = some row ∧ row._cels[c.toNat]? = some cell ∧
      t.GetCell r c = some cell := by
  unfold BlobTable.wellFormed at hwf
  simp only [Bool.and_eq_true, decide_eq_true_eq, List.all_eq_true] at hwf
  obtain ⟨⟨hrows, _⟩, hall⟩ := hwf
  have hrlt : r.toNat < t._rows.length := by
    unfold BlobTable.nRow at hr1
    omega
  have hrow : t._rows[r.toNat]? = some t._rows[r.toNat] := List.getElem?_eq_getElem hrlt
  obtain ⟨hn, hlen⟩ := hall _ (List.getElem_mem hrlt)
  have hclt : c.toNat < (t._rows[r.toNat])._cels.length := by
    unfold BlobTable.nCol at hc1
    omega
  have hcell : (t._rows[r.toNat])._cels[c.toNat]? = some (t._rows[r.toNat])._cels[c.toNat] :=
    List.getElem?_eq_getElem hclt
  refine ⟨_, _, hrow, hcell, ?_⟩
  unfold BlobTable.GetCell InRange arrayAt
  have h1 : (decide (0 ≤ r) && decide (r ≤ t.nRow)) = true := by
    simp only [Bool.and_eq_true, decide_eq_true_eq]
    omega
  have h2 : (decide (0 ≤ c) && decide (c ≤ t.nCol)) = true := by
    simp only [Bool.and_eq_true, decide_eq_true_eq]
    omega
  simp only [h1, h2, Bool.not_true, Bool.false_eq_true, if_false, if_pos hr0, hrow, if_pos hc0,
    hcell]

/-- C13, at the table of one row and one column: for the row number 1, which is not a row index,
`InRange( 0, r, nRow() )` holds, `GetCell( 1, 0 )` does not return "Row out-of-bounds" but reads
`rows[1]`, past the one row; and `GetCell( 0, 1 )` likewise reads `_cels[1]` of the row, past its
one cell, where "Column out-of-bounds" is due. -/
theorem BlobTable.GetCell_off_by_one :
    oneCellTable.wellFormed = true ∧ oneCellTable.nRow = 1 ∧ oneCellTable.nCol = 1 ∧
    InRange 0 1 oneCellTable.nRow = true ∧
    oneCellTable.GetCell 1 0 ≠ some "Row out-of-bounds" ∧
    oneCellTable.GetCell 1 0 = none ∧
    oneCellTable.GetCell 0 1 ≠ some "Column out-of-bounds" ∧
    oneCellTable.GetCell 0 1 = none ∧
    oneCellTable.GetCell 2 0 = some "Row out-of-bounds" ∧
    oneCellTable.GetCell 0 0 = some "IBM" := by
  decide

/-! ## strtok_r -/

theorem takeWhile_append_stop {α : Type} (p : α → Bool) (a b : List α)
    (ha : ∀ x ∈ a, p x = true) (hb : ∀ x, b.head? = some x → p x = false) :
    (a ++ b).takeWhile p = a := by
  induction a with
  | nil =>
    cases b with
    | nil => rfl
    | cons x xs =>
      have := hb x rfl
      simp [List.takeWhile_cons, this]
  | cons x xs ih =>
    have hx := ha x (List.mem_cons_self x xs)
    rw [List.cons_append, List.takeWhile_cons, hx]
    simp only [if_true]
    rw [ih (fun y hy => ha y (List.mem_cons_of_mem x hy))]

theorem NUL_ne_sep : NUL ≠ _sep := by decide

/-- A call of `strtok_r` that finds a token: after the bytes `pre` before the saved offset come
separators, the token, and a byte `d` that is the separator or the zero byte. -/
theorem strtok_r_token (pre seps tok rest : List Char) (d : Char)
    (hseps : ∀ c ∈ seps, c = _sep) (htok : tok ≠ [])
    (hfree : ∀ c ∈ tok, c ≠ _sep ∧ c ≠ NUL) (hd : d = _sep ∨ d = NUL) :
    strtok_r (pre ++ (seps ++ (tok ++ d :: rest))) pre.length _sep =
      if d = _sep then
        ⟨some (pre.length + seps.length), pre ++ (seps ++ (tok ++ NUL :: rest)),
          pre.length + seps.length + tok.length + 1⟩
      else
        ⟨some (pre.length + seps.length), pre ++ (seps ++ (tok ++ d :: rest)),
          pre.length + seps.length + tok.length⟩ := by
  obtain ⟨t, ts, rfl⟩ := List.exists_cons_of_ne_nil htok
  have ht := hfree t (List.mem_cons_self t ts)
  have hskip : ((pre ++ (seps ++ (t :: ts ++ d :: rest))).drop pre.length).takeWhile
      (fun c => c == _sep) = seps := by
    rw [List.drop_left]
    apply takeWhile_append_stop
    · intro x hx
      simp [hseps x hx]
    · intro x hx
      simp only [List.cons_append, List.head?_cons, Option.some.injEq] at hx
      subst hx
      simpa using ht.1
  have hstart : (pre ++ (seps ++ (t :: ts ++ d :: rest)))[pre.length + seps.length]? = some t := by
    rw [← List.append_assoc, ← List.length_append, List.getElem?_append_right (Nat.le_refl _)]
    simp
  have hscan : ((pre ++ (seps ++ (t :: ts ++ d :: rest))).drop
      (pre.length + seps.length)).takeWhile (fun c => c != _sep && c != NUL) = t :: ts := by
    rw [← List.append_assoc, ← List.length_append, List.drop_left]
    apply takeWhile_append_stop
    · intro x hx
      have := hfree x hx
      simp [this.1, this.2]
    · intro x hx
      simp only [List.head?_cons, Option.some.injEq] at hx
      subst hx
      rcases hd with h | h <;> simp [h]
  have hstop : (pre ++ (seps ++ (t :: ts ++ d :: rest)))[pre.length + seps.length +
      (t :: ts).length]? = some d := by
    have : pre ++ (seps ++ (t :: ts ++ d :: rest)) = (pre ++ seps ++ (t :: ts)) ++ d :: rest := by
      simp
    rw [this, ← List.length_append, ← List.length_append,
      List.getElem?_append_right (Nat.le_refl _)]
    simp
  have hset : (pre ++ (seps ++ (t :: ts ++ d :: rest))).set
      (pre.length + seps.length + (t :: ts).length) NUL =
      pre ++ (seps ++ (t :: ts ++ NUL :: rest)) := by
    have h1 : pre ++ (seps ++ (t :: ts ++ d :: rest)) = (pre ++ seps ++ (t :: ts)) ++ d :: rest := by
      simp
    have h2 : pre ++ (seps ++ (t :: ts ++ NUL :: rest)) =
        (pre ++ seps ++ (t :: ts)) ++ NUL :: rest := by
      simp
    rw [h1, h2, ← List.length_append, ← List.length_append, List.set_append_right _ _
      (Nat.le_refl _)]
    simp
  unfold strtok_r
  simp only [hskip, hstart, hscan, hstop, if_neg ht.2, hset]
  by_cases hds : d = _sep
  · simp [hds]
  · have hne : ¬ (some d = some _sep) := fun h => hds (Option.some.inj h)
    simp [hds]

/-- A call of `strtok_r` that finds no token: after the bytes before the saved offset come only
separators up to the zero byte. -/
theorem strtok_r_end (pre seps rest : List Char) (hseps : ∀ c ∈ seps, c = _sep) :
    strtok_r (pre ++ (seps ++ NUL :: rest)) pre.length _sep =
      ⟨none, pre ++ (seps ++ NUL :: rest), pre.length + seps.length⟩ := by
  have hskip : ((pre ++ (seps ++ NUL :: rest)).drop pre.length).takeWhile
      (fun c => c == _sep) = seps := by
    rw [List.drop_left]
    apply takeWhile_append_stop
    · intro x hx
      simp [hseps x hx]
    · intro x hx
      simp only [List.head?_cons, Option.some.injEq] at hx
      subst hx
      simpa using NUL_ne_sep
  have hstart : (pre ++ (seps ++ NUL :: rest))[pre.length + seps.length]? = some NUL := by
    rw [← List.append_assoc, ← List.length_append, List.getElem?_append_right (Nat.le_refl _)]
    simp
  unfold strtok_r
  simp only [hskip, hstart, if_true]

theorem countTokens_seps (seps rest : List Char) (hseps : ∀ c ∈ seps, c = _sep) :
    countTokens true (seps ++ rest) = countTokens true rest := by
  induction seps with
  | nil => rfl
  | cons c cs ih =>
    have hc := hseps c (List.mem_cons_self c cs)
    rw [List.cons_append, countTokens, if_pos hc]
    exact ih (fun x hx => hseps x (List.mem_cons_of_mem c hx))

theorem countTokens_inside (tok rest : List Char) (hfree : ∀ c ∈ tok, c ≠ _sep) :
    countTokens false (tok ++ rest) = countTokens false rest := by
  induction tok with
  | nil => rfl
  | cons c cs ih =>
    have hc := hfree c (List.mem_cons_self c cs)
    rw [List.cons_append, countTokens, if_neg hc]
    simp only [Bool.false_eq_true, if_false, Nat.zero_add]
    exact ih (fun x hx => hfree x (List.mem_cons_of_mem c hx))

theorem countTokens_token (tok rest : List Char) (htok : tok ≠ [])
    (hfree : ∀ c ∈ tok, c ≠ _sep) :
    countTokens true (tok ++ rest) = 1 + countTokens false rest := by
  obtain ⟨t, ts, rfl⟩ := List.exists_cons_of_ne_nil htok
  have ht := hfree t (List.mem_cons_self t ts)
  rw [List.cons_append, countTokens, if_neg ht]
  simp only [if_true]
  rw [countTokens_inside ts rest (fun x hx => hfree x (List.mem_cons_of_mem t hx))]

/-- A string of bytes is separators only, or separators and a last token, or separators, a token,
a separator and a rest with one token less. -/
theorem tokens_shape (s : List Char) :
    (∃ seps, (∀ c ∈ seps, c = _sep) ∧ s = seps ∧ countTokens true s = 0) ∨
    (∃ seps tok, (∀ c ∈ seps, c = _sep) ∧ tok ≠ [] ∧ (∀ c ∈ tok, c ≠ _sep) ∧
      s = seps ++ tok ∧ countTokens true s = 1) ∨
    (∃ seps tok rest, (∀ c ∈ seps, c = _sep) ∧ tok ≠ [] ∧ (∀ c ∈ tok, c ≠ _sep) ∧
      s = seps ++ (tok ++ _sep :: rest) ∧ countTokens true s = 1 + countTokens true rest) := by
  have hsplit : s = s.takeWhile (fun c => c == _sep) ++ s.dropWhile (fun c => c == _sep) :=
    (List.takeWhile_append_dropWhile _ s).symm
  have hseps : ∀ c ∈ s.takeWhile (fun c => c == _sep), c = _sep := by
    intro c hc
    simpa using List.mem_takeWhile_imp hc
  generalize hr : s.dropWhile (fun c => c == _sep) = r at hsplit
  generalize s.takeWhile (fun c => c == _sep) = seps at hsplit hseps
  cases r with
  | nil =>
    left
    refine ⟨seps, hseps, by simpa using hsplit, ?_⟩
    rw [hsplit, countTokens_seps seps [] hseps]
    rfl
  | cons x xs =>
    have hx : x ≠ _sep := by
      have h1 := List.head_dropWhile_not (fun c => c == _sep) s (by rw [hr]; simp)
      simp only [hr, List.head_cons] at h1
      simpa using h1
    have hsplit2 : x :: xs = (x :: xs).takeWhile (fun c => c != _sep) ++
        (x :: xs).dropWhile (fun c => c != _sep) :=
      (List.takeWhile_append_dropWhile _ _).symm
    have hfree : ∀ c ∈ (x :: xs).takeWhile (fun c => c != _sep), c ≠ _sep := by
      intro c hc
      simpa using List.mem_takeWhile_imp hc
    have hne : (x :: xs).takeWhile (fun c => c != _sep) ≠ [] := by
      rw [List.takeWhile_cons]
      simp [hx]
    generalize ha : (x :: xs).dropWhile (fun c => c != _sep) = after at hsplit2
    generalize (x :: xs).takeWhile (fun c => c != _sep) = tok at hsplit2 hfree hne
    right
    cases after with
    | nil =>
      left
      refine ⟨seps, tok, hseps, hne, hfree, ?_, ?_⟩
      · rw [hsplit, hsplit2, List.append_nil]
      · rw [hsplit, hsplit2, countTokens_seps seps _ hseps, countTokens_token tok [] hne hfree]
        rfl
    | cons y ys =>
      have hy : y = _sep := by
        have h1 := List.head_dropWhile_not (fun c => c != _sep) (x :: xs) (by rw [ha]; simp)
        simp only [ha, List.head_cons] at h1
        simpa using h1
      subst hy
      right
      refine ⟨seps, tok, ys, hseps, hne, hfree, ?_, ?_⟩
      · rw [hsplit, hsplit2]
      · rw [hsplit, hsplit2, countTokens_seps seps _ hseps,
          countTokens_token tok _ hne hfree, countTokens, if_pos rfl]

/-- On a buffer with at most `k` tokens after the saved offset, call number `k` of `strtok_r`
returns `NULL`. -/
theorem strtokCalls_none (k : Nat) : ∀ (pre s : List Char), (∀ c ∈ s, c ≠ NUL) →
    countTokens true s ≤ k →
    (strtokCalls (pre ++ (s ++ [NUL])) pre.length _sep k).token = none := by
  induction k with
  | zero =>
    intro pre s _ hcount
    rcases tokens_shape s with ⟨seps, hseps, hs, _⟩ | ⟨_, _, _, _, _, _, h1⟩ |
      ⟨_, _, _, _, _, _, _, h1⟩
    · subst s
      show (strtok_r (pre ++ (seps ++ [NUL])) pre.length _sep).token = none
      rw [strtok_r_end pre seps [] hseps]
    · omega
    · omega
  | succ k ih =>
    intro pre s hnul hcount
    rcases tokens_shape s with ⟨seps, hseps, hs, _⟩ | ⟨seps, tok, hseps, htok, hfree, hs, _⟩ |
      ⟨seps, tok, rest, hseps, htok, hfree, hs, h1⟩
    · subst s
      show (strtokCalls (strtok_r (pre ++ (seps ++ [NUL])) pre.length _sep).buf
        (strtok_r (pre ++ (seps ++ [NUL])) pre.length _sep).save _sep k).token = none
      rw [strtok_r_end pre seps [] hseps]
      have := ih (pre ++ seps) [] (fun c hc => absurd hc (List.not_mem_nil c)) (Nat.zero_le k)
      simpa using this
    · subst s
      have hfree2 : ∀ c ∈ tok, c ≠ _sep ∧ c ≠ NUL :=
        fun c hc => ⟨hfree c hc, hnul c (List.mem_append_right seps hc)⟩
      have hbuf : pre ++ (seps ++ tok ++ [NUL]) = pre ++ (seps ++ (tok ++ NUL :: [])) := by simp
      show (strtokCalls (strtok_r (pre ++ (seps ++ tok ++ [NUL])) pre.length _sep).buf
        (strtok_r (pre ++ (seps ++ tok ++ [NUL])) pre.length _sep).save _sep k).token = none
      rw [hbuf, strtok_r_token pre seps tok [] NUL hseps htok hfree2 (Or.inr rfl),
        if_neg NUL_ne_sep]
      have := ih (pre ++ (seps ++ tok)) [] (fun c hc => absurd hc (List.not_mem_nil c))
        (Nat.zero_le k)
      simpa [Nat.add_assoc] using this
    · subst s
      have hfree2 : ∀ c ∈ tok, c ≠ _sep ∧ c ≠ NUL :=
        fun c hc => ⟨hfree c hc,
          hnul c (List.mem_append_right seps (List.mem_append_left _ hc))⟩
      have hrest : ∀ c ∈ rest, c ≠ NUL :=
        fun c hc => hnul c (List.mem_append_right seps
          (List.mem_append_right tok (List.mem_cons_of_mem _ hc)))
      have hbuf : pre ++ (seps ++ (tok ++ _sep :: rest) ++ [NUL]) =
          pre ++ (seps ++ (tok ++ _sep :: (rest ++ [NUL]))) := by simp
      show (strtokCalls (strtok_r (pre ++ (seps ++ (tok ++ _sep :: rest) ++ [NUL])) pre.length
          _sep).buf
        (strtok_r (pre ++ (seps ++ (tok ++ _sep :: rest) ++ [NUL])) pre.length _sep).save
          _sep k).token = none
      rw [hbuf, strtok_r_token pre seps tok (rest ++ [NUL]) _sep hseps htok hfree2 (Or.inl rfl),
        if_pos rfl]
      have := ih (pre ++ (seps ++ (tok ++ [NUL]))) rest hrest (by omega)
      simpa [Nat.add_assoc] using this

theorem getElem?_append_offset {α : Type} (pre l : List α) (i : Nat) :
    (pre ++ l)[pre.length + i]? = l[i]? := by
  rw [List.getElem?_append_right (Nat.le_add_right _ _), Nat.add_sub_cancel_left]

theorem stringBuffer_mk (cs : List Char) (h : ∀ c ∈ cs, c ≠ NUL) :
    stringBuffer (String.mk cs) = cs ++ [NUL] := by
  have : cs.takeWhile (fun c => c != NUL) = cs := by
    rw [List.takeWhile_eq_self_iff]
    intro c hc
    simpa using h c hc
  show (String.mk cs).toList.takeWhile (fun c => c != NUL) ++ [NUL] = cs ++ [NUL]
  rw [show (String.mk cs).toList = cs from rfl, this]

/-- The three calls of `strtok_r` on a buffer of three tokens. -/
theorem strtok_three (tok1 tok2 tok3 : List Char) (h1 : tokenBytes tok1) (h2 : tokenBytes tok2)
    (h3 : tokenBytes tok3) (n1 : tok1 ≠ []) (n2 : tok2 ≠ []) (n3 : tok3 ≠ []) :
    strtok_r (tok1 ++ _sep :: (tok2 ++ _sep :: tok3) ++ [NUL]) 0 _sep =
      ⟨some 0, tok1 ++ NUL :: (tok2 ++ _sep :: (tok3 ++ [NUL])), tok1.length + 1⟩ ∧
    strtok_r (tok1 ++ NUL :: (tok2 ++ _sep :: (tok3 ++ [NUL]))) (tok1.length + 1) _sep =
      ⟨some (tok1.length + 1), tok1 ++ NUL :: (tok2 ++ NUL :: (tok3 ++ [NUL])),
        tok1.length + 1 + tok2.length + 1⟩ ∧
    strtok_r (tok1 ++ NUL :: (tok2 ++ NUL :: (tok3 ++ [NUL])))
        (tok1.length + 1 + tok2.length + 1) _sep =
      ⟨some (tok1.length + 1 + tok2.length + 1),
        tok1 ++ NUL :: (tok2 ++ NUL :: (tok3 ++ [NUL])),
        tok1.length + 1 + tok2.length + 1 + tok3.length⟩ := by
  have hnil : ∀ c ∈ ([] : List Char), c = _sep := fun c hc => absurd hc (List.not_mem_nil c)
  refine ⟨?_, ?_, ?_⟩
  · have := strtok_r_token [] [] tok1 (tok2 ++ _sep :: (tok3 ++ [NUL])) _sep hnil n1 h1
      (Or.inl rfl)
    rw [if_pos rfl] at this
    simpa using this
  · have := strtok_r_token (tok1 ++ [NUL]) [] tok2 (tok3 ++ [NUL]) _sep hnil n2 h2 (Or.inl rfl)
    rw [if_pos rfl] at this
    simpa using this
  · have := strtok_r_token (tok1 ++ NUL :: (tok2 ++ [NUL])) [] tok3 [] NUL hnil n3 h3
      (Or.inr rfl)
    have hb : (tok1 ++ NUL :: (tok2 ++ [NUL])) ++ ([] ++ (tok3 ++ NUL :: [])) =
        tok1 ++ NUL :: (tok2 ++ NUL :: (tok3 ++ [NUL])) := by simp
    have hl : (tok1 ++ NUL :: (tok2 ++ [NUL])).length = tok1.length + 1 + tok2.length + 1 := by
      simp only [List.length_append, List.length_cons, List.length_nil]
      omega
    rw [if_neg NUL_ne_sep, hb, hl] at this
    simp only [List.length_nil, Nat.add_zero] at this
    exact this

/-- The value `OptionSpec::Expiration` computes for a ticker of three tokens whose second token
has five bytes. -/
theorem Expiration_tokens (tok1 tok3 : List Char) (c0 c1 c2 c3 c4 : Char)
    (h1 : tokenBytes tok1) (h2 : tokenBytes [c0, c1, c2, c3, c4]) (h3 : tokenBytes tok3)
    (n1 : tok1 ≠ []) (n3 : tok3 ≠ []) :
    OptionSpec.Expiration (String.mk (tok1 ++ _sep :: ([c0, c1, c2, c3, c4] ++ _sep :: tok3))) =
      some ((((charValue c0 - charValue '0') * 10 + (charValue c1 - charValue '0') + 2000)
          * 10000
        + (Int.tmod (charValue c2 - charValue 'A') 12 + 1) * 100)
        + ((charValue c3 - charValue '0') * 10 + (charValue c4 - charValue '0'))) := by
  have hnul : ∀ c ∈ tok1 ++ _sep :: ([c0, c1, c2, c3, c4] ++ _sep :: tok3), c ≠ NUL := by
    intro c hc
    have hs : _sep ≠ NUL := fun h => NUL_ne_sep h.symm
    rcases List.mem_append.mp hc with h | h
    · exact (h1 c h).2
    · rcases List.mem_cons.mp h with h | h
      · rw [h]; exact hs
      · rcases List.mem_append.mp h with h | h
        · exact (h2 c h).2
        · rcases List.mem_cons.mp h with h | h
          · rw [h]; exact hs
          · exact (h3 c h).2
  obtain ⟨e1, e2, e3⟩ := strtok_three tok1 [c0, c1, c2, c3, c4] tok3 h1 h2 h3 n1
    (List.cons_ne_nil _ _) n3
  have hb : ∀ i, (tok1 ++ NUL :: ([c0, c1, c2, c3, c4] ++ NUL :: (tok3 ++ [NUL])))[
      tok1.length + 1 + i]? = (c0 :: c1 :: c2 :: c3 :: c4 :: NUL :: (tok3 ++ [NUL]))[i]? := by
    intro i
    have := getElem?_append_offset (tok1 ++ [NUL])
      (c0 :: c1 :: c2 :: c3 :: c4 :: NUL :: (tok3 ++ [NUL])) i
    simpa using this
  unfold OptionSpec.Expiration
  rw [stringBuffer_mk _ hnul]
  simp only [e1, e2, e3, byteAt, hb]
  rfl

theorem charValue_digitChar (d : Nat) (h : d < 10) :
    charValue (digitChar d) - charValue '0' = (d : Int) ∧ digitChar d ≠ _sep ∧
      digitChar d ≠ NUL := by
  interval_cases d <;> decide

theorem charValue_monthCode (m : Nat) (h : m < 24) :
    Int.tmod (charValue (monthCode m) - charValue 'A') 12 = ((m % 12 : Nat) : Int) ∧
      monthCode m ≠ _sep ∧ monthCode m ≠ NUL := by
  interval_cases m <;> decide

theorem Expiration_fewTokens (tkr : String) (h : countTokens true (cString tkr) < 3) :
    OptionSpec.Expiration tkr = some 0 := by
  have hnul : ∀ c ∈ cString tkr, c ≠ NUL := by
    intro c hc
    simpa using List.mem_takeWhile_imp hc
  have h3 := strtokCalls_none 2 [] (cString tkr) hnul (by omega)
  have h3b : (strtok_r (strtok_r (strtok_r (stringBuffer tkr) 0 _sep).buf
      (strtok_r (stringBuffer tkr) 0 _sep).save _sep).buf
      (strtok_r (strtok_r (stringBuffer tkr) 0 _sep).buf
      (strtok_r (stringBuffer tkr) 0 _sep).save _sep).save _sep).token = none := h3
  unfold OptionSpec.Expiration
  simp only [h3b]

/-- C16, `OptionSpec::Expiration` returns the expiration date as YYYYMMDD. For the ticker
`O:<root>\<y0><y1><M><d0><d1>\<strike>` with a root and a non-empty strike free of separators,
decimal digits `y0 y1 d0 d1` and a month code `M` in A..X (number `m` in 0..23), the result is
`(2000 + 10*y0 + y1) * 10000 + ((m mod 12) + 1) * 100 + (10*d0 + d1)`; and for a ticker `tkr` with
fewer than three tokens between separators the result is 0. -/
theorem Expiration_yyyymmdd (root strike : List Char) (y0 y1 m d0 d1 : Nat) (tkr : String)
    (hroot : tokenBytes root) (hstrike : tokenBytes strike) (hne : strike ≠ [])
    (hy0 : y0 < 10) (hy1 : y1 < 10) (hm : m < 24) (hd0 : d0 < 10) (hd1 : d1 < 10)
    (hfew : countTokens true (cString tkr) < 3) :
    OptionSpec.Expiration (optionTicker root y0 y1 m d0 d1 strike) =
      some ((((2000 + 10 * y0 + y1) * 10000 + ((m % 12) + 1) * 100 + (10 * d0 + d1) : Nat) : Int))
    ∧ OptionSpec.Expiration tkr = some 0 := by
  refine ⟨?_, Expiration_fewTokens tkr hfew⟩
  obtain ⟨v0, s0, z0⟩ := charValue_digitChar y0 hy0
  obtain ⟨v1, s1, z1⟩ := charValue_digitChar y1 hy1
  obtain ⟨v2, s2, z2⟩ := charValue_monthCode m hm
  obtain ⟨v3, s3, z3⟩ := charValue_digitChar d0 hd0
  obtain ⟨v4, s4, z4⟩ := charValue_digitChar d1 hd1
  have h1 : tokenBytes ('O' :: ':' :: root) := by
    intro c hc
    rcases List.mem_cons.mp hc with h | h
    · rw [h]; decide
    · rcases List.mem_cons.mp h with h | h
      · rw [h]; decide
      · exact hroot c h
  have h2 : tokenBytes [digitChar y0, digitChar y1, monthCode m, digitChar d0, digitChar d1] := by
    intro c hc
    simp only [List.mem_cons, List.mem_singleton, List.not_mem_nil, or_false] at hc
    rcases hc with h | h | h | h | h <;> rw [h]
    exacts [⟨s0, z0⟩, ⟨s1, z1⟩, ⟨s2, z2⟩, ⟨s3, z3⟩, ⟨s4, z4⟩]
  have := Expiration_tokens ('O' :: ':' :: root) strike (digitChar y0) (digitChar y1)
    (monthCode m) (digitChar d0) (digitChar d1) h1 h2 hstrike (List.cons_ne_nil _ _) hne
  rw [v0, v1, v2, v3, v4] at this
  rw [show optionTicker root y0 y1 m d0 d1 strike = String.mk ('O' :: ':' :: root ++
    _sep :: ([digitChar y0, digitChar y1, monthCode m, digitChar d0, digitChar d1] ++
      _sep :: strike)) from rfl, this]
  refine congrArg some ?_
  push_cast
  ring

theorem Expiration_yyyymmdd_witness :
    OptionSpec.Expiration (optionTicker ['A', 'I', 'G'] 1 4 12 1 8 ['3', '2', '.', '0', '0']) =
      some (((20140118 : Nat) : Int)) ∧ OptionSpec.Expiration "O:AIG" = some 0 :=
  Expiration_yyyymmdd ['A', 'I', 'G'] ['3', '2', '.', '0', '0'] 1 4 12 1 8 "O:AIG"
    (by decide) (by decide) (by decide) (by decide) (by decide) (by decide) (by decide)
    (by decide) (by decide)

/-- C14, `OptionSpec::PutOrCall` at the ticker of its own comment, `O:AIG\14M18\32.00 -> PUT`:
the function reads the byte `p3[2]` of the strike token, here the decimal point, and returns
"Undefined"; the month code decides nothing (the month codes A and M give the same result), the
third byte of the strike does, and a strike shorter than two bytes is read past its end. -/
theorem PutOrCall_reads_strike :
    PutOrCall "O:AIG\\14M18\\32.00" = some "Undefined" ∧
    PutOrCall "O:AIG\\14A18\\32.00" = some "Undefined" ∧
    PutOrCall "O:AIG\\14A18\\32M00" = some "PUT" ∧
    PutOrCall "O:AIG\\14M18\\32A00" = some "CALL" ∧
    PutOrCall "O:AIG\\14M18\\3" = none := by
  decide

theorem DescriptionFromName_rtn (tkr rtn : String) :
    DescriptionFromName tkr rtn = DescriptionFromName tkr "" := rfl

/-- C15, `OptionSpec::DescriptionFromName` at the ticker of its own comment,
`O:AIG\14M18\32.00 -> AIG Jan 2014 32.00 PUT`: the function takes the expiration from the first
token `O:AIG` and the price from the second token `14M18`, and the result is
`AIG JAN 20O: 14M18 CALL`, whatever the output string held. -/
theorem DescriptionFromName_example (rtn : String) :
    DescriptionFromName "O:AIG\\14M18\\32.00" rtn = some "AIG JAN 20O: 14M18 CALL" := by
  rw [DescriptionFromName_rtn]
  decide

/-- C17, `FuturesSpec::Expiration` on a month code outside the list F,G,H,J,K,M,N,Q,U,V,X,Z:
the loop over the list runs to its end and leaves the month 13, so `/ESA18` gives 20181300, a
non-zero result whose month part is 13; `/ESU18` gives 20180900 (month 9), and a ticker without
the leading slash or shorter than 4 characters gives 0. -/
theorem FuturesSpec.Expiration_month13 :
    FuturesSpec.Expiration "/ESA18" = some 20181300 ∧ monthPart 20181300 = 13 ∧
    FuturesSpec.Expiration "/ES 18" = some 20181300 ∧
    FuturesSpec.Expiration "/ESU18" = some 20180900 ∧ monthPart 20180900 = 9 ∧
    FuturesSpec.Expiration "ESU18" = some 0 ∧
    FuturesSpec.Expiration "/ES" = some 0 ∧
    FuturesSpec.Expiration "" = some 0 := by
  decide

theorem isSet_two_pow (msk i : Nat) : _IsSet msk (2 ^ i) = msk.testBit i := by
  unfold _IsSet
  rw [Nat.and_two_pow]
  cases msk.testBit i
  · have : (0 : Nat) ≠ 2 ^ i := (Nat.pos_pow_of_pos i (by decide)).ne
    simpa using this
  · simp

theorem isSet_clearFlag (msk bit other : Nat) (h : (0xFFFFFFFF ^^^ bit) &&& other = other) :
    _IsSet (clearFlag msk bit) other = _IsSet msk other := by
  unfold _IsSet clearFlag
  rw [Nat.and_assoc, h]

theorem isSet_clearFlag_self (msk : Nat) : _IsSet (clearFlag msk TRD_EXTENDED) TRD_EXTENDED = false := by
  unfold _IsSet clearFlag
  rw [Nat.and_assoc, show (0xFFFFFFFF ^^^ TRD_EXTENDED) &&& TRD_EXTENDED = 0 from by decide,
    Nat.and_zero]
  decide

/-- C18, extended eligibility drops only the extended-hours filter: `IsEligible( t, true )` is
`IsEligible( t1, false )` for `t1` the trade `t` with the bit `TRD_EXTENDED` cleared in
`_rptFlags`; a trade eligible with `bExt` false is eligible with `bExt` true; and the trade is
eligible with `bExt` false exactly when `_setlType` is none of 2, 3, 4, `_rptType` is not 6,
`_rptDetail` is none of 2, 3, 7, 9, 11, and none of the bits 0 (odd lot), 2 (out of sequence) and
1 (extended) of `_rptFlags` is set. -/
theorem IsEligible_extended (t : EQTrade) :
    IsEligible t true =
      IsEligible { t with _rptFlags := clearFlag t._rptFlags TRD_EXTENDED } false ∧
    (IsEligible t false = true → IsEligible t true = true) ∧
    (IsEligible t false = true ↔
      ((t._setlType ≠ 2 ∧ t._setlType ≠ 3 ∧ t._setlType ≠ 4) ∧ t._rptType ≠ 6 ∧
        (t._rptDetail ≠ 2 ∧ t._rptDetail ≠ 3 ∧ t._rptDetail ≠ 7 ∧ t._rptDetail ≠ 9 ∧
          t._rptDetail ≠ 11) ∧
        t._rptFlags.testBit 0 = false ∧ t._rptFlags.testBit 2 = false ∧
        t._rptFlags.testBit 1 = false)) := by
  have hodd : _IsSet t._rptFlags TRD_ODDLOT = t._rptFlags.testBit 0 := isSet_two_pow _ 0
  have hext : _IsSet t._rptFlags TRD_EXTENDED = t._rptFlags.testBit 1 := isSet_two_pow _ 1
  have hseq : _IsSet t._rptFlags TRD_OUTOFSEQ = t._rptFlags.testBit 2 := isSet_two_pow _ 2
  have codd : _IsSet (clearFlag t._rptFlags TRD_EXTENDED) TRD_ODDLOT =
      _IsSet t._rptFlags TRD_ODDLOT := isSet_clearFlag _ _ _ (by decide)
  have cseq : _IsSet (clearFlag t._rptFlags TRD_EXTENDED) TRD_OUTOFSEQ =
      _IsSet t._rptFlags TRD_OUTOFSEQ := isSet_clearFlag _ _ _ (by decide)
  have cext := isSet_clearFlag_self t._rptFlags
  refine ⟨?_, ?_, ?_⟩
  · simp only [IsEligible, IsOddLot, IsOutOfSeq, IsExtended, codd, cseq, cext]
    simp
  · simp only [IsEligible, IsOddLot, IsOutOfSeq, IsExtended]
    simp
    tauto
  · simp only [IsEligible, IsOddLot, IsOutOfSeq, IsExtended, hodd, hext, hseq]
    simp
    tauto

theorem isSet_two_pow_ne (msk i : Nat) : _IsSet msk (2 ^ i) = (msk &&& 2 ^ i != 0) := by
  unfold _IsSet
  rw [Nat.and_two_pow]
  have h : (2 : Nat) ^ i ≠ 0 := (Nat.pos_pow_of_pos i (by decide)).ne.symm
  cases msk.testBit i
  · simpa using h.symm
  · simp [h]

/-- The tests of a table of single bits push the names of the flags that are set. -/
theorem pushSetFlags_eq (table : List (Nat × String)) (msk : Nat)
    (h : ∀ p ∈ table, ∃ i, p.1 = 2 ^ i) (v : List String) :
    pushSetFlags table msk v = v ++ setFlagNames table msk := by
  induction table generalizing v with
  | nil => simp [pushSetFlags, setFlagNames]
  | cons p ps ih =>
    obtain ⟨i, hi⟩ := h p (List.mem_cons_self p ps)
    have ih2 := fun v => ih (fun q hq => h q (List.mem_cons_of_mem p hq)) v
    unfold pushSetFlags at ih2 ⊢
    rw [List.foldl_cons, ih2]
    unfold setFlagNames
    rw [List.filter_cons, hi, isSet_two_pow_ne]
    cases hb : (msk &&& 2 ^ i != 0)
    · simp
    · simp

theorem joinLoop_go (rest : List String) (i : Nat) (acc : String) (h : 0 < i) :
    joinLoop rest i acc = String.intercalate.go acc "," rest := by
  induction rest generalizing i acc with
  | nil => rfl
  | cons x xs ih =>
    rw [joinLoop, if_pos h, String.intercalate.go]
    exact ih (i + 1) _ (Nat.succ_pos i)

theorem joinLoop_intercalate (v : List String) : joinLoop v 0 "" = String.intercalate "," v := by
  cases v with
  | nil => rfl
  | cons x xs =>
    rw [joinLoop, if_neg (Nat.lt_irrefl 0), String.intercalate]
    have : ("" ++ "") ++ x = x := by
      apply String.ext
      simp
    rw [this]
    exact joinLoop_go xs 1 x Nat.one_pos

theorem intercalate_go_length (s : String) (l : List String) (acc : String) :
    acc.length ≤ (String.intercalate.go acc s l).length := by
  induction l generalizing acc with
  | nil => exact Nat.le_refl _
  | cons a as ih =>
    rw [String.intercalate.go]
    refine Nat.le_trans ?_ (ih _)
    rw [String.length_append, String.length_append]
    omega

theorem intercalate_eq_empty (s : String) (l : List String) (h : ∀ a ∈ l, a ≠ "") :
    String.intercalate s l = "" ↔ l = [] := by
  cases l with
  | nil => exact ⟨fun _ => rfl, fun _ => rfl⟩
  | cons a as =>
    refine ⟨fun he => ?_, fun he => absurd he (List.cons_ne_nil a as)⟩
    have hlen := intercalate_go_length s as a
    rw [String.intercalate] at he
    rw [he] at hlen
    have ha : a.length = 0 := Nat.le_zero.mp hlen
    have hnil : a = "" := String.ext (List.length_eq_zero.mp ha)
    exact absurd hnil (h a (List.mem_cons_self a as))

theorem eligibilityTable_bits :
    (∀ p ∈ eligibilityTable, ∃ i, i < 15 ∧ p.1 = 2 ^ i) ∧
    (∀ i, i < 15 → ∃ p ∈ eligibilityTable, p.1 = 2 ^ i) ∧
    (∀ p ∈ eligibilityTable, p.2 ≠ "") := by
  decide

theorem and_two_pow_eq_zero (msk i : Nat) : msk &&& 2 ^ i = 0 ↔ msk.testBit i = false := by
  rw [Nat.and_two_pow]
  have h : (2 : Nat) ^ i ≠ 0 := (Nat.pos_pow_of_pos i (by decide)).ne.symm
  cases msk.testBit i
  · simp
  · simp [h]

theorem setFlagNames_eq_nil (msk : Nat) :
    setFlagNames eligibilityTable msk = [] ↔ ∀ i, i < 15 → msk.testBit i = false := by
  obtain ⟨h1, h2, _⟩ := eligibilityTable_bits
  unfold setFlagNames
  rw [List.map_eq_nil_iff, List.filter_eq_nil_iff]
  constructor
  · intro h i hi
    obtain ⟨p, hp, hpi⟩ := h2 i hi
    have := h p hp
    rw [hpi] at this
    exact (and_two_pow_eq_zero msk i).mp (by simpa using this)
  · intro h p hp
    obtain ⟨i, hi, hpi⟩ := h1 p hp
    rw [hpi]
    simpa using (and_two_pow_eq_zero msk i).mpr (h i hi)

/-- C19, `EquitySpec::EligibilityFlags` returns the comma-separated list of the eligibility
flags that are set: the result is the names of the flags 0x0001 .. 0x4000 of `_eligFlags` that
are set, in ascending bit order, joined by single commas; it is the empty string exactly when
none of the bits 0 .. 14 is set; and it does not depend on what the output string held. -/
theorem EligibilityFlags_list (trd : EQTrade) (rtn : String) :
    EligibilityFlags trd rtn =
      String.intercalate "," (setFlagNames eligibilityTable trd._eligFlags) ∧
    (EligibilityFlags trd rtn = "" ↔ ∀ i, i < 15 → trd._eligFlags.testBit i = false) ∧
    EligibilityFlags trd rtn = EligibilityFlags trd "" := by
  obtain ⟨h1, _, h3⟩ := eligibilityTable_bits
  have hv : eligibilityVector trd._eligFlags =
      pushSetFlags eligibilityTable trd._eligFlags [] := rfl
  have hmain : EligibilityFlags trd rtn =
      String.intercalate "," (setFlagNames eligibilityTable trd._eligFlags) := by
    show joinLoop (eligibilityVector trd._eligFlags) 0 "" = _
    rw [joinLoop_intercalate, hv, pushSetFlags_eq eligibilityTable _
      (fun p hp => (h1 p hp).imp (fun _ h => h.2)), List.nil_append]
  refine ⟨hmain, ?_, rfl⟩
  rw [hmain, intercalate_eq_empty, setFlagNames_eq_nil]
  intro a ha
  unfold setFlagNames at ha
  obtain ⟨p, hp, rfl⟩ := List.mem_map.mp ha
  exact h3 p (List.mem_filter.mp hp).1

theorem _LimitUpDown_range (flags : Nat) :
    _LimitUpDown flags ∈ ["A", "B", "C", "D", "E", "F", "G", "H", "I", " "] := by
  unfold _LimitUpDown
  cases _IsSet flags LULD_EXECUTABLE <;> cases _IsSet flags LULD_BID_NONEX <;>
    cases _IsSet flags LULD_BID_LIMIT <;> cases _IsSet flags LULD_ASK_NONEX <;>
    cases _IsSet flags LULD_ASK_LIMIT <;> decide

/-- C20, the Limit Up / Limit Down description is one of the letters A thru I, or the blank:
`LimitUpDown` returns one of "A" .. "I" or " " for every value of `_luldFlags`, and
`LimitUpDownR` returns one of "A" .. "I" for every value of `_flags`. -/
theorem LimitUpDown_range (bbo : EQBbo) :
    LimitUpDown bbo ∈ ["A", "B", "C", "D", "E", "F", "G", "H", "I", " "] ∧
    LimitUpDownR bbo ∈ ["A", "B", "C", "D", "E", "F", "G", "H", "I"] := by
  refine ⟨_LimitUpDown_range bbo._luldFlags, ?_⟩
  unfold LimitUpDownR
  cases _IsSet bbo._flags R_LULD_BID_NONEX <;> cases _IsSet bbo._flags R_LULD_BID_LIMIT <;>
    cases _IsSet bbo._flags R_LULD_ASK_NONEX <;> cases _IsSet bbo._flags R_LULD_ASK_LIMIT <;>
    decide

/-- C20, values outside A thru G: with the bid non-executable and the ask at the limit both
functions return "H", with the bid and the ask at the limit "I", and with no flag set
`LimitUpDown` returns the blank. -/
theorem LimitUpDown_outside_A_G :
    LimitUpDown (bboWithFlags 0x12 0) = "H" ∧
    LimitUpDown (bboWithFlags 0x18 0) = "I" ∧
    LimitUpDown (bboWithFlags 0 0) = " " ∧
    LimitUpDownR (bboWithFlags 0 0x2400) = "H" ∧
    LimitUpDownR (bboWithFlags 0 0x3000) = "I" ∧
    LimitUpDown (bboWithFlags 0x12 0) ∉ ["A", "B", "C", "D", "E", "F", "G"] ∧
    LimitUpDownR (bboWithFlags 0 0x2400) ∉ ["A", "B", "C", "D", "E", "F", "G"] := by
  decide

/-! ## The general behaviour of FuturesSpec::Expiration and OptionSpec::PutOrCall -/

theorem cString_mk (cs : List Char) (h : ∀ c ∈ cs, c ≠ NUL) : cString (String.mk cs) = cs := by
  show (String.mk cs).toList.takeWhile (fun c => c != NUL) = cs
  rw [show (String.mk cs).toList = cs from rfl, List.takeWhile_eq_self_iff]
  intro c hc
  simpa using h c hc

theorem FuturesSpec.monthLoop_listed :
    ∀ i : Nat, i < 12 → ∃ c, FuturesSpec.mons[i]? = some c ∧
      FuturesSpec.monthLoop c FuturesSpec.mons 0 = (i : Int) := by
  decide

theorem FuturesSpec.monthLoop_unlisted (cm : Char) (h : cm ∉ FuturesSpec.mons) :
    FuturesSpec.monthLoop cm FuturesSpec.mons 0 = 12 := by
  simp only [FuturesSpec.mons, List.mem_cons, List.mem_singleton, List.not_mem_nil, or_false,
    not_or] at h
  obtain ⟨h0, h1, h2, h3, h4, h5, h6, h7, h8, h9, h10, h11⟩ := h
  simp [FuturesSpec.monthLoop, FuturesSpec.mons, h0, h1, h2, h3, h4, h5, h6, h7, h8, h9, h10, h11]

/-- The value `FuturesSpec::Expiration` computes for the ticker `/<body><M><y0><y1>`: the year
2000 + 10*y0 + y1, and as month the index the search loop ends with, plus one; that is 13 for a
month code outside the list. -/
theorem FuturesSpec.Expiration_shape (body : List Char) (cm : Char) (y0 y1 : Nat)
    (hbody : ∀ c ∈ body, c ≠ NUL) (hcm : cm ≠ NUL) (hy0 : y0 < 10) (hy1 : y1 < 10)
    (hlen : body.length + 4 < 2 ^ 31) :
    FuturesSpec.Expiration (futuresTicker body cm y0 y1) =
      some (((2000 + 10 * y0 + y1 : Nat) : Int) * 10000 +
        (FuturesSpec.monthLoop cm FuturesSpec.mons 0 + 1) * 100) ∧
    (cm ∉ FuturesSpec.mons → FuturesSpec.Expiration (futuresTicker body cm y0 y1) =
      some (((2000 + 10 * y0 + y1 : Nat) : Int) * 10000 + 1300)) := by
  obtain ⟨v0, _, z0⟩ := charValue_digitChar y0 hy0
  obtain ⟨v1, _, z1⟩ := charValue_digitChar y1 hy1
  have hnul : ∀ c ∈ Char.ofNat 0x2f :: body ++ [cm, digitChar y0, digitChar y1], c ≠ NUL := by
    intro c hc
    rcases List.mem_append.mp hc with h | h
    · rcases List.mem_cons.mp h with h | h
      · rw [h]; decide
      · exact hbody c h
    · simp only [List.mem_cons, List.mem_singleton, List.not_mem_nil, or_false] at h
      rcases h with h | h | h <;> rw [h]
      exacts [hcm, z0, z1]
  have hsz : strlenInt (futuresTicker body cm y0 y1) = ((body.length + 4 : Nat) : Int) := by
    unfold strlenInt futuresTicker
    rw [cString_mk _ hnul]
    have hl : (Char.ofNat 0x2f :: body ++ [cm, digitChar y0, digitChar y1]).length =
        body.length + 4 := by simp
    simp only [hl]
    rw [Nat.mod_eq_of_lt (by omega), if_pos hlen]
  have hbuf : stringBuffer (futuresTicker body cm y0 y1) =
      (Char.ofNat 0x2f :: body) ++ [cm, digitChar y0, digitChar y1, NUL] := by
    unfold futuresTicker
    rw [stringBuffer_mk _ hnul]
    simp
  have hat : ∀ i, ((Char.ofNat 0x2f :: body) ++ [cm, digitChar y0, digitChar y1, NUL])[
      body.length + 1 + i]? = [cm, digitChar y0, digitChar y1, NUL][i]? := by
    intro i
    exact getElem?_append_offset (Char.ofNat 0x2f :: body) _ i
  have h0 : arrayAt (stringBuffer (futuresTicker body cm y0 y1)) 0 = some (Char.ofNat 0x2f) := by
    rw [hbuf, arrayAt, if_pos (Int.le_refl 0)]
    simp
  have h3 : arrayAt (stringBuffer (futuresTicker body cm y0 y1))
      (((body.length + 4 : Nat) : Int) - 3) = some cm := by
    have e : (((body.length + 4 : Nat) : Int) - 3) = ((body.length + 1 + 0 : Nat) : Int) := by
      push_cast; ring
    rw [hbuf, e, arrayAt, if_pos (Int.natCast_nonneg _), Int.toNat_natCast, hat]
    rfl
  have h2 : arrayAt (stringBuffer (futuresTicker body cm y0 y1))
      (((body.length + 4 : Nat) : Int) - 2) = some (digitChar y0) := by
    have e : (((body.length + 4 : Nat) : Int) - 2) = ((body.length + 1 + 1 : Nat) : Int) := by
      push_cast; ring
    rw [hbuf, e, arrayAt, if_pos (Int.natCast_nonneg _), Int.toNat_natCast, hat]
    rfl
  have h1 : arrayAt (stringBuffer (futuresTicker body cm y0 y1))
      (((body.length + 4 : Nat) : Int) - 1) = some (digitChar y1) := by
    have e : (((body.length + 4 : Nat) : Int) - 1) = ((body.length + 1 + 2 : Nat) : Int) := by
      push_cast; ring
    rw [hbuf, e, arrayAt, if_pos (Int.natCast_nonneg _), Int.toNat_natCast, hat]
    rfl
  have hge : ¬ (((body.length + 4 : Nat) : Int) < 4) := by
    push_cast
    omega
  have hmain : FuturesSpec.Expiration (futuresTicker body cm y0 y1) =
      some (((2000 + 10 * y0 + y1 : Nat) : Int) * 10000 +
        (FuturesSpec.monthLoop cm FuturesSpec.mons 0 + 1) * 100) := by
    unfold FuturesSpec.Expiration
    simp only [hsz, h0, h1, h2, h3, hge, ne_eq, not_true_eq_false, if_false, v0, v1]
    refine congrArg some ?_
    push_cast
    ring
  refine ⟨hmain, fun hno => ?_⟩
  rw [hmain, FuturesSpec.monthLoop_unlisted cm hno]
  rfl

/-- The value `OptionSpec::PutOrCall` computes for a ticker of three tokens: it is decided by
the third byte of the third token, the strike, whatever the second token holds. -/
theorem PutOrCall_tokens (tok1 tok2 tok3 : List Char) (h1 : tokenBytes tok1)
    (h2 : tokenBytes tok2) (h3 : tokenBytes tok3) (n1 : tok1 ≠ []) (n2 : tok2 ≠ [])
    (n3 : tok3 ≠ []) :
    PutOrCall (String.mk (tok1 ++ _sep :: (tok2 ++ _sep :: tok3))) =
      match (tok3 ++ [NUL])[2]? with
      | none => none
      | some ch =>
        if InRange (charValue 'A') (charValue ch) (charValue 'L') then some "CALL"
        else if InRange (charValue 'M') (charValue ch) (charValue 'X') then some "PUT"
        else some "Undefined" := by
  have hnul : ∀ c ∈ tok1 ++ _sep :: (tok2 ++ _sep :: tok3), c ≠ NUL := by
    intro c hc
    have hs : _sep ≠ NUL := fun h => NUL_ne_sep h.symm
    rcases List.mem_append.mp hc with h | h
    · exact (h1 c h).2
    · rcases List.mem_cons.mp h with h | h
      · rw [h]; exact hs
      · rcases List.mem_append.mp h with h | h
        · exact (h2 c h).2
        · rcases List.mem_cons.mp h with h | h
          · rw [h]; exact hs
          · exact (h3 c h).2
  obtain ⟨e1, e2, e3⟩ := strtok_three tok1 tok2 tok3 h1 h2 h3 n1 n2 n3
  have hb : (tok1 ++ NUL :: (tok2 ++ NUL :: (tok3 ++ [NUL])))[
      tok1.length + 1 + tok2.length + 1 + 2]? = (tok3 ++ [NUL])[2]? := by
    have := getElem?_append_offset (tok1 ++ NUL :: (tok2 ++ [NUL])) (tok3 ++ [NUL]) 2
    have hl : (tok1 ++ NUL :: (tok2 ++ [NUL])).length = tok1.length + 1 + tok2.length + 1 := by
      simp only [List.length_append, List.length_cons, List.length_nil]
      omega
    rw [hl] at this
    simpa using this
  unfold PutOrCall
  rw [stringBuffer_mk _ hnul]
  simp only [e1, e2, e3, byteAt, hb]

/-! ## BondSpec::QuoteFlags -/

theorem quoteFlagTable_bits : ∀ p ∈ quoteFlagTable, ∃ i, i < 11 ∧ p.1 = 2 ^ i := by
  decide

/-- The result of `BondSpec::QuoteFlags` lists the flags set in the value of the local `flg`. -/
theorem QuoteFlags_of_local (flg : Nat) (qte : BONDQuote) (rtn : String) :
    QuoteFlags flg qte rtn = String.intercalate "," (setFlagNames quoteFlagTable flg) := by
  have hv : quoteFlagsVector flg = pushSetFlags quoteFlagTable flg [] := rfl
  show joinLoop (quoteFlagsVector flg) 0 "" = _
  rw [joinLoop_intercalate, hv, pushSetFlags_eq quoteFlagTable _
    (fun p hp => (quoteFlagTable_bits p hp).imp (fun _ h => h.2)), List.nil_append]

/-- C21, `BondSpec::QuoteFlags` does not read the quote: its local `flg` is never assigned
from `_qteFlags`, so for every value of that local the result is the same for all quotes and
lists the flags set in the local. For the quote with `_qteFlags` 0x0001 the result is empty
when the local holds 0, where "Benchmark" is due; for the quote with `_qteFlags` 0 the result is
"Benchmark" when the local holds 0x0001 and "Benchmark,SlowList" when it holds 0x0401, where the
empty string is due. -/
theorem QuoteFlags_ignores_quote :
    (∀ (flg : Nat) (q1 q2 : BONDQuote) (rtn1 rtn2 : String),
      QuoteFlags flg q1 rtn1 = QuoteFlags flg q2 rtn2) ∧
    (∀ (flg : Nat) (q : BONDQuote) (rtn : String),
      QuoteFlags flg q rtn = String.intercalate "," (setFlagNames quoteFlagTable flg)) ∧
    QuoteFlags 0 (quoteWithFlags 0x0001) "" = "" ∧
    QuoteFlags 0x0001 (quoteWithFlags 0) "" = "Benchmark" ∧
    QuoteFlags 0x0401 (quoteWithFlags 0) "" = "Benchmark,SlowList" ∧
    String.intercalate "," (setFlagNames quoteFlagTable (quoteWithFlags 0x0001)._qteFlags) =
      "Benchmark" := by
  exact ⟨fun _ _ _ _ _ => rfl, QuoteFlags_of_local, by decide, by decide, by decide,
    by decide⟩

end QuoddFeed
